import Mathlib

/-!
# Lua RTOS ILI9341 display / touch driver and internal ADC driver

A shallow embedding of `components/lua_rtos/drivers/ili9341.c` and
`components/lua_rtos/drivers/adc_internal.c`, followed by theorems about it.

Conventions of the embedding

* C `int` values are `Int`; `uint32_t` values are `Nat` reduced modulo `2^32`
  at the places where the C code converts or computes in that type.
* The touch bus is a stream `rx : Nat → Nat` of the bytes clocked in on successive
  transfers, together with the number of transfers done so far. What the panel
  answers is not decided by the driver, so every theorem quantifies over `rx`.
* Accesses to the local array `vbuf[18]` and integer divisions are checked: an
  access outside `0..17`, a read of a cell never written, or a zero divisor makes
  the embedded function return a `Fault` instead of a value.
* Loops carry a fuel argument; running out of fuel is the fault `fuelExhausted`.
-/

namespace LuaRtos

/-! ## Faults and machine integers -/

/-- Ways in which the C code could leave defined behaviour, plus fuel exhaustion of the model. -/
inductive Fault where
  | indexOutOfRange
  | uninitialisedRead
  | divisionByZero
  | fuelExhausted
  deriving DecidableEq, Repr

deriving instance DecidableEq for Except

/-- Conversion of an `int` to `uint32_t`. -/
def toU32 (v : Int) : Nat := (v % 4294967296).toNat

/-- Conversion of a `uint32_t` to `int` (two's complement). -/
def toI32 (v : Nat) : Int :=
  if v % 4294967296 < 2147483648 then ((v % 4294967296 : Nat) : Int)
  else ((v % 4294967296 : Nat) : Int) - 4294967296

/-- C integer division: truncation toward zero, undefined for a zero divisor. -/
def cdiv (a b : Int) : Except Fault Int :=
  if b = 0 then .error .divisionByZero else .ok (Int.tdiv a b)

/-! ## The local sample buffer `uint32_t vbuf[18]` -/

/-- Contents of `vbuf`: `none` marks a cell that was never written. -/
abbrev VBuf := Nat → Option Nat

/-- The buffer as declared, before any write. -/
def VBuf.fresh : VBuf := fun _ => none

/-- Checked read `vbuf[n]`. -/
def vread (vbuf : VBuf) (n : Nat) : Except Fault Nat :=
  if n < 18 then
    match vbuf n with
    | some v => .ok v
    | none => .error .uninitialisedRead
  else .error .indexOutOfRange

/-- Checked write `vbuf[n] = v`. -/
def vwrite (vbuf : VBuf) (n : Nat) (v : Nat) : Except Fault VBuf :=
  if n < 18 then .ok (Function.update vbuf n (some v)) else .error .indexOutOfRange

/-! ## Touch sampler (`ili9341_tp_command`, `ili9341_tp_read`) -/

/-- Model of `spi_ll_transfer(touch_spi, out, &in)`: the byte received on transfer number `pos`. -/
def spi_ll_transfer (rx : Nat → Nat) (_out : Nat) (pos : Nat) : Nat × Nat :=
  (rx pos % 256, pos + 1)

/-- Source `ili9341_tp_command`: three transfers; the reply is
`(((uint16_t)(rxbuf[1] << 8) | (uint16_t)rxbuf[2]) >> 4)` returned as `uint16_t`. -/
def ili9341_tp_command (rx : Nat → Nat) (type : Nat) (pos : Nat) : Nat × Nat :=
  let t0 := spi_ll_transfer rx type pos
  let t1 := spi_ll_transfer rx 0x55 t0.2
  let t2 := spi_ll_transfer rx 0x55 t1.2
  (((((t1.1 <<< 8) % 65536) ||| (t2.1 % 65536)) >>> 4) % 65536, t2.2)

/-- Local variables of `ili9341_tp_read` that live across the loops. -/
structure Sampler where
  vbuf : VBuf
  minval : Nat
  maxval : Nat
  result : Int
  pos : Nat

/-- Source lines 150-157: `for (n = ..; n < samples; n++)` collecting one round of readings. -/
def collect (rx : Nat → Nat) (type : Nat) (samples : Int) : Nat → Nat → Sampler → Except Fault Sampler
  | 0, _, _ => .error .fuelExhausted
  | fuel + 1, n, st =>
    if (n : Int) < samples then
      let q := ili9341_tp_command rx type st.pos
      let result : Int := (q.1 : Int)
      if result < 0 then .ok { st with result := result, pos := q.2 }
      else
        match vwrite st.vbuf n (toU32 result) with
        | .error e => .error e
        | .ok vbuf =>
          let minval := if toU32 result < st.minval then toU32 result else st.minval
          let maxval := if toU32 result > st.maxval then toU32 result else st.maxval
          collect rx type samples fuel (n + 1)
            { vbuf := vbuf, minval := minval, maxval := maxval, result := result, pos := q.2 }
    else .ok st

/-- Source lines 146-162: `while (i < 10)` running rounds until one is stable. -/
def rounds (rx : Nat → Nat) (type : Nat) (samples : Int) : Nat → Nat → Sampler → Except Fault Sampler
  | 0, _, _ => .error .fuelExhausted
  | fuel + 1, i, st =>
    if i < 10 then
      match collect rx type samples (samples.toNat + 1) 0 { st with minval := 5000, maxval := 0 } with
      | .error e => .error e
      | .ok st1 =>
        if st1.result < 0 then .ok st1
        else
          let dif := (st1.maxval + 4294967296 - st1.minval) % 4294967296
          if dif < 40 then .ok st1
          else rounds rx type samples fuel (i + 1) st1
    else .ok st

/-- Source lines 167-172 and 174-179: overwrite the first cell equal to `target` with 5000. -/
def removeOne (samples : Int) (target : Nat) : Nat → Nat → VBuf → Except Fault VBuf
  | 0, _, _ => .error .fuelExhausted
  | fuel + 1, n, vbuf =>
    if (n : Int) < samples then
      match vread vbuf n with
      | .error e => .error e
      | .ok v =>
        if v = target then vwrite vbuf n 5000
        else removeOne samples target fuel (n + 1) vbuf
    else .ok vbuf

/-- Source lines 180-182: add up the cells below 5000 (`val += vbuf[n]` in `uint32_t`, stored to `int`). -/
def sumKept (samples : Int) : Nat → Nat → VBuf → Int → Except Fault Int
  | 0, _, _, _ => .error .fuelExhausted
  | fuel + 1, n, vbuf, val =>
    if (n : Int) < samples then
      match vread vbuf n with
      | .error e => .error e
      | .ok v =>
        if v < 5000 then sumKept samples fuel (n + 1) vbuf (toI32 ((toU32 val + v) % 4294967296))
        else sumKept samples fuel (n + 1) vbuf val
    else .ok val

/-- Source `ili9341_tp_read(type, samples)`: returns the value and the bus position reached. -/
def ili9341_tp_read (rx : Nat → Nat) (type : Nat) (samples : Int) (pos : Nat) :
    Except Fault (Int × Nat) :=
  let samples := if samples < 3 then 1 else samples
  let samples := if samples > 18 then 18 else samples
  -- one dummy read
  let q := ili9341_tp_command rx type pos
  -- `minval` and `maxval` are assigned at the top of the first round, before any use
  let st0 : Sampler :=
    { vbuf := VBuf.fresh, minval := 0, maxval := 0, result := (q.1 : Int), pos := q.2 }
  match rounds rx type samples 11 0 st0 with
  | .error e => .error e
  | .ok st =>
    if st.result < 0 then .ok (-1, st.pos)
    else if samples > 2 then
      match removeOne samples st.minval (samples.toNat + 1) 0 st.vbuf with
      | .error e => .error e
      | .ok vbuf1 =>
        match removeOne samples st.maxval (samples.toNat + 1) 0 vbuf1 with
        | .error e => .error e
        | .ok vbuf2 =>
          match sumKept samples (samples.toNat + 1) 0 vbuf2 0 with
          | .error e => .error e
          | .ok val =>
            match cdiv val (samples - 2) with
            | .error e => .error e
            | .ok val => .ok (val, st.pos)
    else
      match vread st.vbuf 0 with
      | .error e => .error e
      | .ok v => .ok (toI32 v, st.pos)

/-! ## Header constants, driver state, capabilities -/

/-- Constants the driver takes from headers that are not part of the two source files
(`gdisplay.h`, `ili9341.h`, `st7735.h`). The theorems hold for every choice of their values. -/
structure Header where
  PORTRAIT : Nat
  LANDSCAPE : Nat
  PORTRAIT_FLIP : Nat
  LANDSCAPE_FLIP : Nat
  ILI9341_WIDTH : Nat
  ILI9341_HEIGHT : Nat
  ST7735_MADCTL : Nat
  ST7735_MADCTL_MX : Nat
  ST7735_MADCTL_MY : Nat
  ST7735_MADCTL_MV : Nat
  ST7735_MADCTL_BGR : Nat
  ST7735_SWRESET : Nat
  ST7735_DISPON : Nat
  CHIPSET_ILI9341 : Nat

/-- The four `case` labels of the orientation switches are pairwise different, as C requires. -/
def Header.DistinctOrientations (H : Header) : Prop :=
  H.PORTRAIT ≠ H.LANDSCAPE ∧ H.PORTRAIT ≠ H.PORTRAIT_FLIP ∧ H.PORTRAIT ≠ H.LANDSCAPE_FLIP ∧
    H.LANDSCAPE ≠ H.PORTRAIT_FLIP ∧ H.LANDSCAPE ≠ H.LANDSCAPE_FLIP ∧
    H.PORTRAIT_FLIP ≠ H.LANDSCAPE_FLIP

instance (H : Header) : Decidable H.DistinctOrientations := by
  unfold Header.DistinctOrientations
  infer_instance

/-- File-scope variables of `ili9341.c`. -/
structure Driver where
  touch_spi : Int
  tp_calx : Int
  tp_caly : Int
  chipset : Nat

/-- The file-scope variables as initialised at load time (source lines 60-65). -/
def Driver.initial : Driver := { touch_spi := -1, tp_calx := 0, tp_caly := 0, chipset := 0 }

/-- The data fields of `gdisplay_caps_t` that the driver reads or writes
(the function-pointer fields are left out). -/
structure Caps where
  spi_device : Int
  bytes_per_pixel : Nat
  rdepth : Nat
  gdepth : Nat
  bdepth : Nat
  phys_width : Nat
  phys_height : Nat
  width : Nat
  height : Nat
  xstart : Nat
  ystart : Nat
  orient : Nat
  deriving DecidableEq

/-! ## Touch read-out (`ili9341_tp_set_cal`, `ili9341_tp_get`) -/

/-- Source `ili9341_tp_set_cal`. -/
def ili9341_tp_set_cal (drv : Driver) (calx caly : Int) : Driver :=
  { drv with tp_calx := calx, tp_caly := caly }

/-- The three outputs `*x`, `*y`, `*z` of `ili9341_tp_get`. -/
structure TouchPoint where
  x : Int
  y : Int
  z : Int
  deriving DecidableEq, Repr

/-- Locals of `ili9341_tp_get` after the channel reads. -/
structure TouchReads where
  x : Int
  y : Int
  z : Int
  result : Int
  pos : Nat

/-- Source lines 349-361 (raw) and 366-376 (scaled): pressure read, then X, then Y.
The two copies differ only in line 352, `*z = result`; the field `z` holds what that line stores
and is used by the raw branch only. -/
def tp_get_reads (rx : Nat → Nat) (pos : Nat) : Except Fault TouchReads :=
  match ili9341_tp_read rx 0xB0 3 pos with
  | .error e => .error e
  | .ok r0 =>
    if r0.1 > 50 then
      -- tp pressed
      match ili9341_tp_read rx 0xD0 10 r0.2 with
      | .error e => .error e
      | .ok r1 =>
        if r1.1 ≥ 0 then
          match ili9341_tp_read rx 0x90 10 r1.2 with
          | .error e => .error e
          | .ok r2 =>
            .ok { x := r1.1, y := if r2.1 ≥ 0 then r2.1 else 0, z := r0.1, result := r2.1, pos := r2.2 }
        else .ok { x := 0, y := 0, z := r0.1, result := r1.1, pos := r1.2 }
    else .ok { x := 0, y := 0, z := 0, result := r0.1, pos := r0.2 }

/-- Source line 385: `(tp_calx >> 16) & 0x3FFF`. -/
def cal_xleft (drv : Driver) : Int := (drv.tp_calx >>> 16) % 16384

/-- Source line 386: `tp_calx & 0x3FFF`. -/
def cal_xright (drv : Driver) : Int := drv.tp_calx % 16384

/-- Source line 387: `(tp_caly >> 16) & 0x3FFF`. -/
def cal_ytop (drv : Driver) : Int := (drv.tp_caly >>> 16) % 16384

/-- Source line 388: `tp_caly & 0x3FFF`. -/
def cal_ybottom (drv : Driver) : Int := drv.tp_caly % 16384

/-- Source lines 401-404 for one coordinate: `if (v < 0) v = 0; if (v > hi) v = hi;`. -/
def clampTo (hi : Int) (v : Int) : Int :=
  let v := if v < 0 then 0 else v
  if v > hi then hi else v

/-- Source lines 408-423: the `switch (caps->orient)` on the clamped point. -/
def tp_remap (H : Header) (orient : Nat) (x y : Int) : Int × Int :=
  if orient = H.PORTRAIT then (240 - y - 1, x)
  else if orient = H.PORTRAIT_FLIP then (y, 320 - x - 1)
  else if orient = H.LANDSCAPE_FLIP then (320 - x - 1, 240 - y - 1)
  else (x, y)

/-- Source `ili9341_tp_get(x, y, z, raw)`: the point stored through the three pointers and the
bus position reached. -/
def ili9341_tp_get (H : Header) (drv : Driver) (caps : Caps) (rx : Nat → Nat) (raw : Nat) (pos : Nat) :
    Except Fault (TouchPoint × Nat) :=
  if raw ≠ 0 then
    match tp_get_reads rx pos with
    | .error e => .error e
    | .ok t => .ok ({ x := t.x, y := t.y, z := if t.result < 0 then t.result else t.z }, t.pos)
  else
    match tp_get_reads rx pos with
    | .error e => .error e
    | .ok t =>
      if t.result ≤ 50 then .ok ({ x := 0, y := 0, z := 0 }, t.pos)
      else
        let xleft := cal_xleft drv
        let xright := cal_xright drv
        let ytop := cal_ytop drv
        let ybottom := cal_ybottom drv
        if (xright - xleft) ≠ 0 ∧ (ybottom - ytop) ≠ 0 then
          match cdiv ((t.x - xleft) * 320) (xright - xleft) with
          | .error e => .error e
          | .ok x =>
            match cdiv ((t.y - ytop) * 240) (ybottom - ytop) with
            | .error e => .error e
            | .ok y =>
              let q := tp_remap H caps.orient (clampTo 319 x) (clampTo 239 y)
              .ok ({ x := q.1, y := q.2, z := 0 }, t.pos)
        else .ok ({ x := 0, y := 0, z := 0 }, t.pos)

/-! ## Initialisation and orientation (`ili9341_init`, `ili9341_set_orientation`) -/

/-- Build configuration (`sdkconfig.h`). A value of `-1` for the reset pin or the touch bus
selects the corresponding `#if` branch. -/
structure Build where
  GDISPLAY_SPI : Int
  GDISPLAY_CS : Int
  GDISPLAY_CMD : Int
  GDISPLAY_RESET : Int
  GDISPLAY_TP_SPI : Int
  GDISPLAY_TP_CS : Int

/-- Driver owning the unit named in a `driver_lock` request. -/
inductive LockTarget where
  | SPI_DRIVER
  | GPIO_DRIVER
  deriving DecidableEq, Repr

/-- Calls that `ili9341_init` and `ili9341_set_orientation` make to the outside, in the order issued. -/
inductive Op where
  | spi_setup (unit cs : Int) (speed : Nat) (withRead : Bool)
  | driver_lock (target : LockTarget) (unit : Int)
  | gpio_pin_output (pin : Int)
  | gpio_ll_pin_clr (pin : Int)
  | gpio_pin_set (pin : Int)
  | gpio_pin_clr (pin : Int)
  | vTaskDelay (ms : Nat)
  | gdisplay_ll_command (c : Nat)
  | gdisplay_ll_data (bytes : List Nat)
  | gdisplay_ll_command_list
  | gdisplay_ll_allocate_buffer
  | st7735_clear
  deriving DecidableEq, Repr

/-- A claim request: bus setup or `driver_lock`. Every other operation acts on a pin, on the
display controller, on the clock or on memory. -/
def Op.isClaim : Op → Bool
  | .spi_setup _ _ _ _ => true
  | .driver_lock _ _ => true
  | _ => false

/-- Errors `ili9341_init` can return. -/
inductive InitError where
  | spi_setup_error
  | lock_error
  | not_enough_memory
  deriving DecidableEq, Repr

/-- Results of the requests whose outcome the driver does not decide. -/
structure Outcomes where
  spi_setup_display : Option Int
  spi_setup_touch : Option Int
  lock_display_spi : Bool
  lock_cmd_pin : Bool
  lock_reset_pin : Bool
  lock_touch_spi : Bool
  allocate_buffer : Bool

/-- Everything a statement of `ili9341_init` can change. -/
structure Machine where
  caps : Caps
  drv : Driver
  trace : List Op

/-- A statement either falls through to the next one or returns an error. -/
abbrev Stmt := Machine → Machine × Option InitError

/-- A call with no result that matters. -/
def emit (op : Op) : Stmt := fun m => ({ m with trace := m.trace ++ [op] }, none)

/-- Statements in sequence; an error return skips the rest. -/
def block : List Stmt → Stmt
  | [] => fun m => (m, none)
  | s :: rest => fun m =>
    match s m with
    | (m1, none) => block rest m1
    | (m1, some e) => (m1, some e)

/-- `if ((lock_error = driver_lock(...))) return driver_lock_error(...)`. -/
def lockOrReturn (target : LockTarget) (unit : Machine → Int) (granted : Bool) : Stmt := fun m =>
  let m1 := { m with trace := m.trace ++ [Op.driver_lock target (unit m)] }
  if granted then (m1, none) else (m1, some .lock_error)

/-- Source `ili9341_set_orientation(m)`. -/
def ili9341_set_orientation (H : Header) (m : Nat) : Stmt := fun mach =>
  let orientation := m &&& 3
  let caps : Caps :=
    if orientation &&& 1 ≠ 0 then
      { mach.caps with width := H.ILI9341_HEIGHT, height := H.ILI9341_WIDTH, ystart := 0, xstart := 0 }
    else
      { mach.caps with width := H.ILI9341_WIDTH, height := H.ILI9341_HEIGHT, ystart := 0, xstart := 0 }
  let madctl : Nat :=
    if orientation = H.PORTRAIT then (H.ST7735_MADCTL_MX ||| H.ST7735_MADCTL_BGR) % 256
    else if orientation = H.LANDSCAPE then (H.ST7735_MADCTL_MV ||| H.ST7735_MADCTL_BGR) % 256
    else if orientation = H.PORTRAIT_FLIP then (H.ST7735_MADCTL_MY ||| H.ST7735_MADCTL_BGR) % 256
    else if orientation = H.LANDSCAPE_FLIP then
      (H.ST7735_MADCTL_MX ||| H.ST7735_MADCTL_MY ||| H.ST7735_MADCTL_MV ||| H.ST7735_MADCTL_BGR) % 256
    else 0
  ({ mach with
      caps := caps,
      trace := mach.trace ++ [Op.gdisplay_ll_command H.ST7735_MADCTL, Op.gdisplay_ll_data [madctl]] },
    none)

/-- Source `ili9341_init`, lines 197-261: capability fields, bus setup, locks and pin setup. -/
def init_acquire (H : Header) (B : Build) (env : Outcomes) (chip : Nat) : List Stmt :=
  [ -- lines 197-212
    fun m => ({ m with
      caps := { m.caps with bytes_per_pixel := 2, rdepth := 5, gdepth := 6, bdepth := 5,
                            phys_width := H.ILI9341_HEIGHT, phys_height := H.ILI9341_WIDTH },
      drv := { m.drv with chipset := chip } }, none),
    -- lines 214-233: init display SPI bus (and touch SPI)
    fun m =>
      if m.caps.spi_device = -1 then
        let m1 := { m with trace := m.trace ++
          [Op.spi_setup B.GDISPLAY_SPI B.GDISPLAY_CS 48000000 (decide (B.GDISPLAY_TP_SPI ≠ -1))] }
        match env.spi_setup_display with
        | none => (m1, some .spi_setup_error)
        | some dev => ({ m1 with caps := { m1.caps with spi_device := dev } }, none)
      else (m, none),
    fun m =>
      if B.GDISPLAY_TP_SPI ≠ -1 then
        let m1 := { m with trace := m.trace ++
          [Op.spi_setup B.GDISPLAY_TP_SPI B.GDISPLAY_TP_CS 2500000 true] }
        match env.spi_setup_touch with
        | none => (m1, some .spi_setup_error)
        | some dev => ({ m1 with drv := { m1.drv with touch_spi := dev } }, none)
      else (m, none),
    -- lines 235-242
    lockOrReturn .SPI_DRIVER (fun m => m.caps.spi_device) env.lock_display_spi,
    lockOrReturn .GPIO_DRIVER (fun _ => B.GDISPLAY_CMD) env.lock_cmd_pin,
    -- setup command pin
    emit (.gpio_pin_output B.GDISPLAY_CMD),
    -- lines 247-255
    fun m =>
      if B.GDISPLAY_RESET ≠ -1 then
        block [
          lockOrReturn .GPIO_DRIVER (fun _ => B.GDISPLAY_RESET) env.lock_reset_pin,
          -- setup reset pin
          emit (.gpio_pin_output B.GDISPLAY_RESET),
          emit (.gpio_ll_pin_clr B.GDISPLAY_RESET) ] m
      else (m, none),
    -- lines 257-261
    fun m =>
      if B.GDISPLAY_TP_SPI ≠ -1 then
        lockOrReturn .SPI_DRIVER (fun m => m.drv.touch_spi) env.lock_touch_spi m
      else (m, none) ]

/-- Source `ili9341_init`, lines 263-295: reset, command list, orientation, buffer, display on. -/
def init_bring_up (H : Header) (B : Build) (env : Outcomes) (orientation : Nat) : List Stmt :=
  [ -- Reset, lines 264-274
    fun m =>
      if B.GDISPLAY_RESET = -1 then
        block [ emit (.gdisplay_ll_command H.ST7735_SWRESET), emit (.vTaskDelay 130) ] m
      else
        block [
          emit (.gpio_pin_set B.GDISPLAY_RESET), emit (.vTaskDelay 100),
          emit (.gpio_pin_clr B.GDISPLAY_RESET), emit (.vTaskDelay 100),
          emit (.gpio_pin_set B.GDISPLAY_RESET), emit (.vTaskDelay 200) ] m,
    -- Init display, lines 277-281
    fun m =>
      if m.drv.chipset = H.CHIPSET_ILI9341 then emit .gdisplay_ll_command_list m else (m, none),
    ili9341_set_orientation H orientation,
    -- Allocate buffer
    fun m =>
      let m1 := { m with trace := m.trace ++ [Op.gdisplay_ll_allocate_buffer] }
      if env.allocate_buffer then (m1, none) else (m1, some .not_enough_memory),
    -- Clear screen (black)
    emit .st7735_clear,
    emit (.gdisplay_ll_command H.ST7735_DISPON) ]

/-- Source `ili9341_init(chip, orientation)`. -/
def ili9341_init (H : Header) (B : Build) (env : Outcomes) (chip orientation : Nat) : Stmt :=
  block (init_acquire H B env chip ++ init_bring_up H B env orientation)

/-! ## The bring-up command list (`ILI9341_init`) -/

/-- Command opcodes and the delay flag used by the bring-up list; they come from `ili9341.h` and
`st7735.h`, which are not part of the two source files. -/
structure InitOpcodes where
  DELAY : Nat
  ILI9341_SWRESET : Nat
  ILI9341_POWERA : Nat
  ILI9341_POWERB : Nat
  ILI9341_DTCA : Nat
  ILI9341_DTCB : Nat
  ILI9341_POWER_SEQ : Nat
  ILI9341_PRC : Nat
  ILI9341_PWCTR1 : Nat
  ILI9341_PWCTR2 : Nat
  ILI9341_VMCTR1 : Nat
  ILI9341_VMCTR2 : Nat
  ILI9341_PIXFMT : Nat
  ILI9341_FRMCTR1 : Nat
  ILI9341_DFUNCTR : Nat
  ST7735_PTLAR : Nat
  ILI9341_3GAMMA_EN : Nat
  ILI9341_GAMMASET : Nat
  ILI9341_GMCTRP1 : Nat
  ILI9341_GMCTRN1 : Nat
  ILI9341_SLPOUT : Nat

/-- Storage of a constant in a `uint8_t` array element. -/
def u8 (v : Nat) : Nat := v % 256

/-- Source lines 71-116: the array `static const uint8_t ILI9341_init[]`. -/
def ILI9341_init (H : Header) (O : InitOpcodes) : List Nat :=
  [ 23,
    u8 O.ILI9341_SWRESET, u8 O.DELAY,
    200,
    u8 O.ILI9341_POWERA, 5, 0x39, 0x2C, 0x00, 0x34, 0x02,
    u8 O.ILI9341_POWERB, 3, 0x00, 0xC1, 0x30,
    0xEF, 3, 0x03, 0x80, 0x02,
    u8 O.ILI9341_DTCA, 3, 0x85, 0x00, 0x78,
    u8 O.ILI9341_DTCB, 2, 0x00, 0x00,
    u8 O.ILI9341_POWER_SEQ, 4, 0x64, 0x03, 0x12, 0x81,
    u8 O.ILI9341_PRC, 1, 0x20,
    u8 O.ILI9341_PWCTR1, 1,
    0x23,
    u8 O.ILI9341_PWCTR2, 1,
    0x10,
    u8 O.ILI9341_VMCTR1, 2,
    0x3e,
    0x28,
    u8 O.ILI9341_VMCTR2, 1,
    0x86,
    u8 H.ST7735_MADCTL, 1,
    0x48,
    u8 O.ILI9341_PIXFMT, 1,
    0x55,
    u8 O.ILI9341_FRMCTR1, 2,
    0x00,
    0x18,
    u8 O.ILI9341_DFUNCTR, 3,
    0x08,
    0x82,
    0x27,
    u8 O.ST7735_PTLAR, 4, 0x00, 0x00, 0x01, 0x3F,
    u8 O.ILI9341_3GAMMA_EN, 1,
    0x00,
    u8 O.ILI9341_GAMMASET, 1,
    0x01,
    u8 O.ILI9341_GMCTRP1, 15,
    0x0F, 0x31, 0x2B, 0x0C, 0x0E, 0x08, 0x4E, 0xF1,
    0x37, 0x07, 0x10, 0x03, 0x0E, 0x09, 0x00,
    u8 O.ILI9341_GMCTRN1, 15,
    0x00, 0x0E, 0x14, 0x03, 0x11, 0x07, 0x31, 0xC1,
    0x48, 0x08, 0x0F, 0x0C, 0x31, 0x36, 0x0F,
    u8 O.ILI9341_SLPOUT, u8 O.DELAY,
    120,
    u8 H.ST7735_DISPON, 0 ]

/-- Modelled from the spec: one step of a command list, with its opcode, its payload bytes and
an optional delay in milliseconds after it. -/
structure CommandStep where
  opcode : Nat
  payload : List Nat
  delayAfterMillis : Option Nat
  deriving DecidableEq, Repr

/-- Modelled from the spec: the replay routine `gdisplay_ll_command_list` is not part of the two
source files. This reads `n` commands in the embedded-count format: opcode, then a count byte whose
`DELAY` bits announce a trailing delay byte and whose remaining bits give the payload length, then
the payload bytes, then the delay byte when announced. It returns the steps and the bytes left
over, or `none` when the bytes run out. -/
def decodeSteps (DELAY : Nat) : Nat → List Nat → Option (List CommandStep × List Nat)
  | 0, bytes => some ([], bytes)
  | n + 1, opcode :: count :: rest =>
    let len := count ^^^ (count &&& DELAY)
    if len ≤ rest.length then
      if count &&& DELAY ≠ 0 then
        match rest.drop len with
        | ms :: rest' =>
          (decodeSteps DELAY n rest').map fun r =>
            ({ opcode := opcode, payload := rest.take len, delayAfterMillis := some ms } :: r.1, r.2)
        | [] => none
      else
        (decodeSteps DELAY n (rest.drop len)).map fun r =>
          ({ opcode := opcode, payload := rest.take len, delayAfterMillis := none } :: r.1, r.2)
    else none
  | _ + 1, _ => none

/-- Modelled from the spec: a command list is its number of commands followed by that many
commands in the embedded-count format (see `decodeSteps`). -/
def decodeCommandList (DELAY : Nat) : List Nat → Option (List CommandStep × List Nat)
  | [] => none
  | n :: rest => decodeSteps DELAY n rest

/-! ## Internal ADC (`adc_internal.c`) -/

/-- Pin numbers from `drivers/gpio.h`, which is not part of the two source files. -/
structure Pins where
  GPIO36 : Nat
  GPIO39 : Nat
  GPIO32 : Nat
  GPIO33 : Nat
  GPIO34 : Nat
  GPIO35 : Nat

/-- The attenuation levels of `adc_atten_t`. -/
inductive adc_atten_t where
  | ADC_ATTEN_0db
  | ADC_ATTEN_2_5db
  | ADC_ATTEN_6db
  | ADC_ATTEN_11db
  deriving DecidableEq, Repr

/-- The fields of `adc_chann_t` used by `adc_internal_setup`. -/
structure adc_chann_t where
  unit : Nat
  channel : Nat
  max : Int
  resolution : Int
  vref : Int
  setup : Nat
  deriving DecidableEq, Repr

/-- Errors returned by the ADC driver. -/
inductive AdcError where
  | ADC_ERR_INVALID_MAX
  | ADC_ERR_INVALID_RESOLUTION
  | ADC_ERR_VREF_SET_NOT_ALLOWED
  | ADC_ERR_INVALID_PIN
  | lock_error
  deriving DecidableEq, Repr

/-- Calls `adc_internal_setup` makes to the outside, in the order issued. -/
inductive AdcOp where
  | driver_lock (channel : Int) (pin : Nat)
  | adc1_config_channel_atten (channel : Nat) (atten : adc_atten_t)
  | adc1_config_width (width : Int)
  | esp_adc_cal_get_characteristics (vref : Int) (atten : adc_atten_t) (width : Int)
  | syslog (unit pin : Nat) (atten : adc_atten_t) (resolution : Int)
  deriving DecidableEq, Repr

/-- Conversion of a `uint8_t` to `int8_t`. -/
def toI8 (v : Nat) : Int := if v % 256 < 128 then ((v % 256 : Nat) : Int) else ((v % 256 : Nat) : Int) - 256

/-- Source `adc_pins(channel, &pin)`: the pin is left as it was for other channels. -/
def adc_pins (P : Pins) (channel : Int) (pin : Nat) : Nat :=
  if channel = 0 then P.GPIO36
  else if channel = 3 then P.GPIO39
  else if channel = 4 then P.GPIO32
  else if channel = 5 then P.GPIO33
  else if channel = 6 then P.GPIO34
  else if channel = 7 then P.GPIO35
  else pin

/-- Source `adc_lock_resources(channel, &resources)` with `resources.pin` initially `pin`:
the pin found, the lock request, and whether it failed. -/
def adc_lock_resources (P : Pins) (granted : Bool) (channel : Int) (pin : Nat) :
    Nat × List AdcOp × Option AdcError :=
  let pin := adc_pins P channel pin
  (pin, [AdcOp.driver_lock channel pin], if granted then none else some .lock_error)

/-- What a call of `adc_internal_setup` leaves behind. -/
structure SetupRun where
  chan : adc_chann_t
  trace : List AdcOp
  error : Option AdcError
  deriving DecidableEq, Repr

/-- Source `adc_internal_setup(chan)`. `vrefConfig` is `CONFIG_ADC_INTERNAL_VREF`; `granted` tells
whether the pin lock is granted. -/
def adc_internal_setup (P : Pins) (vrefConfig : Int) (granted : Bool) (chan : adc_chann_t) : SetupRun :=
  let unit := chan.unit
  let channel := chan.channel
  -- Apply default max value
  let chan := if chan.max = 0 then { chan with max := 3900 } else chan
  -- Apply default resolution if needed
  let chan := if chan.resolution = 0 then { chan with resolution := 12 } else chan
  -- Sanity checks
  if chan.max < 0 ∨ chan.max > 3900 then
    { chan := chan, trace := [], error := some .ADC_ERR_INVALID_MAX }
  else if chan.resolution ≠ 9 ∧ chan.resolution ≠ 10 ∧ chan.resolution ≠ 11 ∧ chan.resolution ≠ 12 then
    { chan := chan, trace := [], error := some .ADC_ERR_INVALID_RESOLUTION }
  else if chan.vref ≠ 0 then
    { chan := chan, trace := [], error := some .ADC_ERR_VREF_SET_NOT_ALLOWED }
  else
    -- Lock the resources needed
    let lk := adc_lock_resources P granted (toI8 channel) 0
    match lk.2.2 with
    | some e => { chan := chan, trace := lk.2.1, error := some e }
    | none =>
      -- Computes the required attenuation
      let atten : adc_atten_t :=
        if chan.max ≤ 1100 then .ADC_ATTEN_0db
        else if chan.max ≤ 1500 then .ADC_ATTEN_2_5db
        else if chan.max ≤ 2200 then .ADC_ATTEN_6db
        else .ADC_ATTEN_11db
      let trace := lk.2.1 ++
        [AdcOp.adc1_config_channel_atten channel atten,
         AdcOp.adc1_config_width (chan.resolution - 9),
         AdcOp.esp_adc_cal_get_characteristics vrefConfig atten (chan.resolution - 9)]
      let trace := if chan.setup = 0 then trace ++ [AdcOp.syslog unit lk.1 atten chan.resolution] else trace
      { chan := chan, trace := trace, error := none }

/-- Source `adc_internal_pin_to_channel(pin, &chan)` with `*chan` initially `chan`: the value of
`*chan` afterwards and the error returned. -/
def adc_internal_pin_to_channel (P : Pins) (pin : Nat) (chan : Nat) : Nat × Option AdcError :=
  if pin = P.GPIO36 then (0, none)
  else if pin = P.GPIO39 then (3, none)
  else if pin = P.GPIO32 then (4, none)
  else if pin = P.GPIO33 then (5, none)
  else if pin = P.GPIO34 then (6, none)
  else if pin = P.GPIO35 then (7, none)
  else (chan, some .ADC_ERR_INVALID_PIN)

/-! ## Specification-side notions and sample inputs -/

/-- The reply to the query that starts at bus position `p`. -/
def reading (rx : Nat → Nat) (type : Nat) (p : Nat) : Nat := (ili9341_tp_command rx type p).1

/-- What a pass of `collect` over the cells `n .. n+k-1` establishes. -/
structure Collected (rx : Nat → Nat) (type n k : Nat) (st st' : Sampler) : Prop where
  pos_eq : st'.pos = st.pos + 3 * k
  cells : ∀ j, j < k → st'.vbuf (n + j) = some (reading rx type (st.pos + 3 * j))
  below : ∀ j, j < n → st'.vbuf j = st.vbuf j
  above : ∀ j, n + k ≤ j → st'.vbuf j = st.vbuf j
  min_le : st'.minval ≤ st.minval
  min_lb : ∀ j, j < k → st'.minval ≤ reading rx type (st.pos + 3 * j)
  min_mem : st'.minval = st.minval ∨ ∃ j, j < k ∧ st'.minval = reading rx type (st.pos + 3 * j)
  max_ge : st.maxval ≤ st'.maxval
  max_ub : ∀ j, j < k → reading rx type (st.pos + 3 * j) ≤ st'.maxval
  max_mem : st'.maxval = st.maxval ∨ ∃ j, j < k ∧ st'.maxval = reading rx type (st.pos + 3 * j)
  result_nonneg : 0 ≤ st.result → 0 ≤ st'.result

/-- State reached at the end of a full round of `s` readings that started at bus position `p`. -/
structure RoundDone (rx : Nat → Nat) (type s p : Nat) (st : Sampler) : Prop where
  pos_eq : st.pos = p + 3 * s
  cells : ∀ j, j < s → st.vbuf j = some (reading rx type (p + 3 * j))
  min_mem : ∃ a, a < s ∧ st.minval = reading rx type (p + 3 * a)
  min_lb : ∀ j, j < s → st.minval ≤ reading rx type (p + 3 * j)
  max_mem : ∃ b, b < s ∧ st.maxval = reading rx type (p + 3 * b)
  max_ub : ∀ j, j < s → reading rx type (p + 3 * j) ≤ st.maxval
  result_nonneg : 0 ≤ st.result

/-- A round is stable when no two of its readings are 40 or more apart (spread below 40). -/
def StableRound (rx : Nat → Nat) (type s p : Nat) : Prop :=
  ∀ j k, j < s → k < s → reading rx type (p + 3 * j) < reading rx type (p + 3 * k) + 40

/-- Contribution of one cell to the final sum: cells holding 5000 or more are skipped. -/
def keepVal (o : Option Nat) : Nat :=
  match o with
  | some v => if v < 5000 then v else 0
  | none => 0

/-- Number of readings per round once source lines 139-140 have adjusted `samples`. -/
def clampSamples (samples : Int) : Nat :=
  if samples < 3 then 1 else if samples > 18 then 18 else samples.toNat

/-- Value computed by source lines 165-185 from the round at bus position `p`, whose minimum is
reading number `a` and whose maximum is reading number `b`. -/
def readValue (rx : Nat → Nat) (type s p a b : Nat) : Int :=
  if 2 < s then
    Int.tdiv (((Finset.sum (Finset.range s) (fun j => reading rx type (p + 3 * j)) : Nat) : Int)
      - (reading rx type (p + 3 * a) : Int) - (reading rx type (p + 3 * b) : Int)) ((s : Int) - 2)
  else (reading rx type p : Int)

/-- Full description of a call of `ili9341_tp_read`: `r` is the round whose readings are used. -/
structure ReadRun (rx : Nat → Nat) (type : Nat) (samples : Int) (pos r a b : Nat) : Prop where
  round_lt : r < 10
  lo_lt : a < clampSamples samples
  hi_lt : b < clampSamples samples
  lo_lb : ∀ j, j < clampSamples samples →
    reading rx type (pos + 3 + 3 * clampSamples samples * r + 3 * a) ≤
      reading rx type (pos + 3 + 3 * clampSamples samples * r + 3 * j)
  hi_ub : ∀ j, j < clampSamples samples →
    reading rx type (pos + 3 + 3 * clampSamples samples * r + 3 * j) ≤
      reading rx type (pos + 3 + 3 * clampSamples samples * r + 3 * b)
  stable_or_last : StableRound rx type (clampSamples samples) (pos + 3 + 3 * clampSamples samples * r)
    ∨ r = 9
  earlier_unstable : ∀ r', r' < r →
    ¬ StableRound rx type (clampSamples samples) (pos + 3 + 3 * clampSamples samples * r')
  run : ili9341_tp_read rx type samples pos =
    .ok (readValue rx type (clampSamples samples) (pos + 3 + 3 * clampSamples samples * r) a b,
      pos + 3 + 3 * clampSamples samples * r + 3 * clampSamples samples)

/-- The `s` readings of the round that starts at bus position `p`, in the order collected. -/
def window (rx : Nat → Nat) (type s p : Nat) : List Nat :=
  (List.range s).map (fun j => reading rx type (p + 3 * j))

/-- Calibration scaling and clamp of a raw X reading (source lines 391, 401-402). -/
def scaleX (drv : Driver) (rawX : Int) : Int :=
  clampTo 319 (Int.tdiv ((rawX - cal_xleft drv) * 320) (cal_xright drv - cal_xleft drv))

/-- Calibration scaling and clamp of a raw Y reading (source lines 392, 403-404). -/
def scaleY (drv : Driver) (rawY : Int) : Int :=
  clampTo 239 (Int.tdiv ((rawY - cal_ytop drv) * 240) (cal_ybottom drv - cal_ytop drv))

/-- Header values used for concrete evaluations: orientation codes 0 to 3 and the usual
ILI9341 / ST7735 register values. -/
def sampleHeader : Header :=
  { PORTRAIT := 0, LANDSCAPE := 1, PORTRAIT_FLIP := 2, LANDSCAPE_FLIP := 3,
    ILI9341_WIDTH := 240, ILI9341_HEIGHT := 320,
    ST7735_MADCTL := 0x36, ST7735_MADCTL_MX := 0x40, ST7735_MADCTL_MY := 0x80,
    ST7735_MADCTL_MV := 0x20, ST7735_MADCTL_BGR := 0x08,
    ST7735_SWRESET := 0x01, ST7735_DISPON := 0x29, CHIPSET_ILI9341 := 1 }

/-- A capabilities record used for concrete evaluations. -/
def sampleCaps (orient : Nat) : Caps :=
  { spi_device := -1, bytes_per_pixel := 0, rdepth := 0, gdepth := 0, bdepth := 0,
    phys_width := 0, phys_height := 0, width := 0, height := 0, xstart := 0, ystart := 0,
    orient := orient }

/-- A bus stream for one stable touch read-out: the pressure channel (queries 0 to 3) answers `z`,
the X channel (queries 4 to 14) answers `x`, the Y channel (from query 15 on) answers `y`. -/
def touchStream (z x y : Nat) : Nat → Nat :=
  fun p =>
    let v := if p / 3 < 4 then z else if p / 3 < 15 then x else y
    if p % 3 = 1 then v / 16 else if p % 3 = 2 then (v * 16) % 256 else 0

/-- A build with a reset pin and no dedicated touch bus, used for concrete evaluations. -/
def sampleBuild : Build :=
  { GDISPLAY_SPI := 2, GDISPLAY_CS := 5, GDISPLAY_CMD := 26, GDISPLAY_RESET := 27,
    GDISPLAY_TP_SPI := -1, GDISPLAY_TP_CS := 0 }

/-- Some claim request that `ili9341_init` issues in build `B`, starting from `caps`, is refused. -/
def SomeClaimFails (B : Build) (env : Outcomes) (caps : Caps) : Prop :=
  (caps.spi_device = -1 ∧ env.spi_setup_display = none) ∨
    (B.GDISPLAY_TP_SPI ≠ -1 ∧ env.spi_setup_touch = none) ∨
    env.lock_display_spi = false ∨ env.lock_cmd_pin = false ∨
    (B.GDISPLAY_RESET ≠ -1 ∧ env.lock_reset_pin = false) ∨
    (B.GDISPLAY_TP_SPI ≠ -1 ∧ env.lock_touch_spi = false)

/-- A claim request up to and including the command-pin lock is refused. -/
def EarlyClaimFails (B : Build) (env : Outcomes) (caps : Caps) : Prop :=
  (caps.spi_device = -1 ∧ env.spi_setup_display = none) ∨
    (B.GDISPLAY_TP_SPI ≠ -1 ∧ env.spi_setup_touch = none) ∨
    env.lock_display_spi = false ∨ env.lock_cmd_pin = false

/-- A call of `ili9341_init` observed from an empty trace. -/
def initRun (H : Header) (B : Build) (env : Outcomes) (chip orientation : Nat) (caps : Caps)
    (drv : Driver) : Machine × Option InitError :=
  ili9341_init H B env chip orientation { caps := caps, drv := drv, trace := [] }

/-- Outcomes in which every request is granted, except possibly the lock of the reset pin. -/
def sampleOutcomes (lockReset : Bool) : Outcomes :=
  { spi_setup_display := some 0, spi_setup_touch := some 1, lock_display_spi := true,
    lock_cmd_pin := true, lock_reset_pin := lockReset, lock_touch_spi := true,
    allocate_buffer := true }

/-- The maximum after the default of source lines 115-117. -/
def adcMax (chan : adc_chann_t) : Int := if chan.max = 0 then 3900 else chan.max

/-- The resolution after the default of source lines 120-122. -/
def adcResolution (chan : adc_chann_t) : Int :=
  if chan.resolution = 0 then 12 else chan.resolution

/-- Pin numbers used for concrete evaluations. -/
def samplePins : Pins :=
  { GPIO36 := 36, GPIO39 := 39, GPIO32 := 32, GPIO33 := 33, GPIO34 := 34, GPIO35 := 35 }

/-- A channel record used for concrete evaluations. -/
def sampleChan (max resolution vref : Int) : adc_chann_t :=
  { unit := 1, channel := 6, max := max, resolution := resolution, vref := vref, setup := 0 }

/-- A bus stream on which query number `k` is answered by the `k`-th entry of `vals`
(and by 0 once the list is used up). -/
def streamOf (vals : List Nat) : Nat → Nat :=
  fun p =>
    if p % 3 = 1 then vals.getD (p / 3) 0 / 16
    else if p % 3 = 2 then (vals.getD (p / 3) 0 * 16) % 256
    else 0

/-- A bus stream that answers `v` to every query. -/
def constStream (v : Nat) : Nat → Nat :=
  fun p => if p % 3 = 1 then v / 16 else if p % 3 = 2 then (v * 16) % 256 else 0

/-- Operations that `ili9341_init` may have issued when it returns a claim error. -/
def AllowedBeforeClaimError (B : Build) (op : Op) : Prop :=
  op.isClaim = true ∨ op = .gpio_pin_output B.GDISPLAY_CMD ∨
    op = .gpio_pin_output B.GDISPLAY_RESET ∨ op = .gpio_ll_pin_clr B.GDISPLAY_RESET

/-- The six `case` labels of the pin switch are pairwise different, as C requires. -/
def Pins.Distinct (P : Pins) : Prop :=
  [P.GPIO36, P.GPIO39, P.GPIO32, P.GPIO33, P.GPIO34, P.GPIO35].Nodup

instance (P : Pins) : Decidable P.Distinct := by
  unfold Pins.Distinct
  infer_instance

/-- The four MADCTL constants are non-zero byte masks with no bit in common (two mirror bits, the
row/column-swap bit and the colour-order bit). -/
def Header.MadctlBits (H : Header) : Prop :=
  (0 < H.ST7735_MADCTL_MX ∧ 0 < H.ST7735_MADCTL_MY ∧ 0 < H.ST7735_MADCTL_MV ∧
      0 < H.ST7735_MADCTL_BGR) ∧
    (H.ST7735_MADCTL_MX < 256 ∧ H.ST7735_MADCTL_MY < 256 ∧ H.ST7735_MADCTL_MV < 256 ∧
      H.ST7735_MADCTL_BGR < 256) ∧
    H.ST7735_MADCTL_MX &&& H.ST7735_MADCTL_MY = 0 ∧
    H.ST7735_MADCTL_MX &&& H.ST7735_MADCTL_MV = 0 ∧
    H.ST7735_MADCTL_MX &&& H.ST7735_MADCTL_BGR = 0 ∧
    H.ST7735_MADCTL_MY &&& H.ST7735_MADCTL_MV = 0 ∧
    H.ST7735_MADCTL_MY &&& H.ST7735_MADCTL_BGR = 0 ∧
    H.ST7735_MADCTL_MV &&& H.ST7735_MADCTL_BGR = 0

instance (H : Header) : Decidable H.MadctlBits := by
  unfold Header.MadctlBits
  infer_instance

/-- The four orientation codes are the values 0 to 3, each used once, with the two landscape codes
odd (the family for which `ili9341_set_orientation` stores `(ILI9341_HEIGHT, ILI9341_WIDTH)`). -/
def Header.OrientationCodes (H : Header) : Prop :=
  H.DistinctOrientations ∧
    (H.PORTRAIT < 4 ∧ H.LANDSCAPE < 4 ∧ H.PORTRAIT_FLIP < 4 ∧ H.LANDSCAPE_FLIP < 4) ∧
    H.LANDSCAPE % 2 = 1 ∧ H.LANDSCAPE_FLIP % 2 = 1

instance (H : Header) : Decidable H.OrientationCodes := by
  unfold Header.OrientationCodes
  infer_instance

/-- The delay flag is a non-zero byte mask that leaves the four low bits, which hold the payload
lengths 0 to 15, untouched. -/
def InitOpcodes.DelayFlagAboveLengths (O : InitOpcodes) : Prop :=
  0 < O.DELAY ∧ O.DELAY < 256 ∧ O.DELAY &&& 15 = 0

instance (O : InitOpcodes) : Decidable O.DelayFlagAboveLengths := by
  unfold InitOpcodes.DelayFlagAboveLengths
  infer_instance

/-- Opcode values used for concrete evaluations (ILI9341 data sheet, delay flag 0x80). -/
def sampleOpcodes : InitOpcodes :=
  { DELAY := 0x80, ILI9341_SWRESET := 0x01, ILI9341_POWERA := 0xCB, ILI9341_POWERB := 0xCF,
    ILI9341_DTCA := 0xE8, ILI9341_DTCB := 0xEA, ILI9341_POWER_SEQ := 0xED, ILI9341_PRC := 0xF7,
    ILI9341_PWCTR1 := 0xC0, ILI9341_PWCTR2 := 0xC1, ILI9341_VMCTR1 := 0xC5,
    ILI9341_VMCTR2 := 0xC7, ILI9341_PIXFMT := 0x3A, ILI9341_FRMCTR1 := 0xB1,
    ILI9341_DFUNCTR := 0xB6, ST7735_PTLAR := 0x30, ILI9341_3GAMMA_EN := 0xF2,
    ILI9341_GAMMASET := 0x26, ILI9341_GMCTRP1 := 0xE0, ILI9341_GMCTRN1 := 0xE1,
    ILI9341_SLPOUT := 0x11 }

/-- One claim request of `ili9341_init`: the request, whether it is granted, and the pin set-up
that follows it when it is granted. -/
structure ClaimStep where
  request : Op
  granted : Bool
  setup : List Op

/-- The claim requests of `ili9341_init` in build `B`, starting from `caps`, in program order:
the display bus set-up (when no device is stored yet), the touch bus set-up (in a build with a
touch bus), the display-bus lock, the command-pin lock followed by the set-up of the command pin,
the reset-pin lock followed by the set-up of the reset pin (in a build with a reset pin), and the
touch-bus lock (in a build with a touch bus). -/
def claimPlan (B : Build) (env : Outcomes) (caps : Caps) : List ClaimStep :=
  (if caps.spi_device = -1 then
      [{ request := .spi_setup B.GDISPLAY_SPI B.GDISPLAY_CS 48000000
            (decide (B.GDISPLAY_TP_SPI ≠ -1)),
         granted := env.spi_setup_display.isSome, setup := [] }]
    else []) ++
  (if B.GDISPLAY_TP_SPI ≠ -1 then
      [{ request := .spi_setup B.GDISPLAY_TP_SPI B.GDISPLAY_TP_CS 2500000 true,
         granted := env.spi_setup_touch.isSome, setup := [] }]
    else []) ++
  [{ request := .driver_lock .SPI_DRIVER
        (if caps.spi_device = -1 then env.spi_setup_display.getD (-1) else caps.spi_device),
     granted := env.lock_display_spi, setup := [] },
   { request := .driver_lock .GPIO_DRIVER B.GDISPLAY_CMD,
     granted := env.lock_cmd_pin, setup := [.gpio_pin_output B.GDISPLAY_CMD] }] ++
  (if B.GDISPLAY_RESET ≠ -1 then
      [{ request := .driver_lock .GPIO_DRIVER B.GDISPLAY_RESET,
         granted := env.lock_reset_pin,
         setup := [.gpio_pin_output B.GDISPLAY_RESET, .gpio_ll_pin_clr B.GDISPLAY_RESET] }]
    else []) ++
  (if B.GDISPLAY_TP_SPI ≠ -1 then
      [{ request := .driver_lock .SPI_DRIVER (env.spi_setup_touch.getD (-1)),
         granted := env.lock_touch_spi, setup := [] }]
    else [])

/-- The error returned for a refused claim request: the bus set-up error for `spi_setup`, the
lock error for `driver_lock`. -/
def refusalError : Op → InitError
  | .spi_setup _ _ _ _ => .spi_setup_error
  | _ => .lock_error

/-- Operations issued along a list of claim requests up to the first refused one, and the error
of that refusal: a granted request is followed by its set-up and the next request, a refused one
ends the list. -/
def issueUntilRefused : List ClaimStep → List Op × Option InitError
  | [] => ([], none)
  | s :: rest =>
    if s.granted then
      (s.request :: (s.setup ++ (issueUntilRefused rest).1), (issueUntilRefused rest).2)
    else ([s.request], some (refusalError s.request))

/-! ## Facts about the touch sampler -/

theorem tp_command_snd (rx : Nat → Nat) (type p : Nat) :
    (ili9341_tp_command rx type p).2 = p + 3 := by
  simp [ili9341_tp_command, spi_ll_transfer]

theorem reading_le (rx : Nat → Nat) (type p : Nat) : reading rx type p ≤ 4095 := by
  unfold reading ili9341_tp_command spi_ll_transfer
  simp only []
  have h1 : ((rx (p + 1) % 256) <<< 8) % 65536 < 2 ^ 16 := Nat.mod_lt _ (by norm_num)
  have h2 : rx (p + 1 + 1) % 256 % 65536 < 2 ^ 16 := Nat.mod_lt _ (by norm_num)
  have h3 := Nat.or_lt_two_pow h1 h2
  rw [Nat.shiftRight_eq_div_pow]
  generalize (((rx (p + 1) % 256) <<< 8) % 65536 ||| rx (p + 1 + 1) % 256 % 65536) = c at h3
  omega

theorem toU32_natCast (v : Nat) (h : v ≤ 4095) : toU32 (v : Int) = v := by
  unfold toU32
  omega

theorem collect_step (rx : Nat → Nat) (type : Nat) (samples : Int) (fuel n : Nat) (st : Sampler)
    (h : (n : Int) < samples) (hn : n < 18) :
    collect rx type samples (fuel + 1) n st =
      collect rx type samples fuel (n + 1)
        { vbuf := Function.update st.vbuf n (some (reading rx type st.pos)),
          minval := if reading rx type st.pos < st.minval then reading rx type st.pos else st.minval,
          maxval := if reading rx type st.pos > st.maxval then reading rx type st.pos else st.maxval,
          result := (reading rx type st.pos : Int),
          pos := st.pos + 3 } := by
  have hr := reading_le rx type st.pos
  have hu := toU32_natCast _ hr
  unfold reading at hr hu
  simp only [collect, h, if_true, vwrite, hn, hu, tp_command_snd, reading]
  rw [if_neg (by omega)]

theorem collect_spec (rx : Nat → Nat) (type s : Nat) (hs : s ≤ 18) :
    ∀ (k fuel n : Nat) (st : Sampler), s = n + k → k < fuel →
      ∃ st', collect rx type (s : Int) fuel n st = .ok st' ∧ Collected rx type n k st st' := by
  intro k
  induction k with
  | zero =>
    intro fuel n st hsn hf
    obtain ⟨f, rfl⟩ : ∃ f, fuel = f + 1 := ⟨fuel - 1, by omega⟩
    refine ⟨st, ?_, ?_⟩
    · have : ¬ ((n : Int) < (s : Int)) := by omega
      simp [collect, this]
    · exact ⟨by simp, by intro j hj; omega, by intros; rfl, by intros; rfl, le_refl _,
        by intro j hj; omega,
        Or.inl rfl, le_refl _, by intro j hj; omega, Or.inl rfl, id⟩
  | succ k ih =>
    intro fuel n st hsn hf
    obtain ⟨f, rfl⟩ : ∃ f, fuel = f + 1 := ⟨fuel - 1, by omega⟩
    rw [collect_step rx type (s : Int) f n st (by omega) (by omega)]
    obtain ⟨st', hrun, hc⟩ := ih f (n + 1) _ (by omega) (by omega)
    refine ⟨st', hrun, ?_⟩
    have hpos := hc.pos_eq
    have hcells := hc.cells
    have hbelow := hc.below
    have habove := hc.above
    have hminle := hc.min_le
    have hminlb := hc.min_lb
    have hminmem := hc.min_mem
    have hmaxge := hc.max_ge
    have hmaxub := hc.max_ub
    have hmaxmem := hc.max_mem
    have hres := hc.result_nonneg
    simp only at hpos hcells hbelow habove hminle hminlb hminmem hmaxge hmaxub hmaxmem hres
    have shift : ∀ j, st.pos + 3 + 3 * j = st.pos + 3 * (j + 1) := by intro j; omega
    refine ⟨by omega, ?_, ?_, ?_, ?_, ?_, ?_, ?_, ?_, ?_, ?_⟩
    · intro j hj
      cases j with
      | zero =>
        simp only [Nat.add_zero, Nat.mul_zero]
        rw [hbelow n (by omega)]
        simp
      | succ j =>
        have := hcells j (by omega)
        rw [shift] at this
        rw [← this]
        congr 1
        omega
    · intro j hj
      rw [hbelow j (by omega)]
      exact Function.update_noteq (by omega) _ _
    · intro j hj
      rw [habove j (by omega)]
      exact Function.update_noteq (by omega) _ _
    · split_ifs at hminle <;> omega
    · intro j hj
      cases j with
      | zero => simp only [Nat.mul_zero, Nat.add_zero]; split_ifs at hminle <;> omega
      | succ j =>
        have := hminlb j (by omega)
        rw [shift] at this
        exact this
    · rcases hminmem with h | ⟨j, hj, h⟩
      · split_ifs at h with hlt
        · exact Or.inr ⟨0, by omega, by simpa using h⟩
        · exact Or.inl h
      · exact Or.inr ⟨j + 1, by omega, by rw [← shift]; exact h⟩
    · split_ifs at hmaxge <;> omega
    · intro j hj
      cases j with
      | zero => simp only [Nat.mul_zero, Nat.add_zero]; split_ifs at hmaxge <;> omega
      | succ j =>
        have := hmaxub j (by omega)
        rw [shift] at this
        exact this
    · rcases hmaxmem with h | ⟨j, hj, h⟩
      · split_ifs at h with hlt
        · exact Or.inr ⟨0, by omega, by simpa using h⟩
        · exact Or.inl h
      · exact Or.inr ⟨j + 1, by omega, by rw [← shift]; exact h⟩
    · intro _
      exact hres (by omega)

theorem round_spec (rx : Nat → Nat) (type s : Nat) (hs1 : 1 ≤ s) (hs : s ≤ 18) (st : Sampler)
    (hres : 0 ≤ st.result) :
    ∃ st', collect rx type (s : Int) (s + 1) 0 { st with minval := 5000, maxval := 0 } = .ok st' ∧
      RoundDone rx type s st.pos st' := by
  obtain ⟨st', hrun, hc⟩ :=
    collect_spec rx type s hs s (s + 1) 0 { st with minval := 5000, maxval := 0 } (by omega) (by omega)
  refine ⟨st', hrun, ?_⟩
  have hcells := hc.cells
  have hminlb := hc.min_lb
  have hminmem := hc.min_mem
  have hmaxub := hc.max_ub
  have hmaxmem := hc.max_mem
  simp only at hcells hminlb hminmem hmaxub hmaxmem
  have h0 := reading_le rx type (st.pos + 3 * 0)
  refine ⟨hc.pos_eq, ?_, ?_, hminlb, ?_, hmaxub, hc.result_nonneg hres⟩
  · intro j hj
    have := hcells j hj
    rwa [Nat.zero_add] at this
  · rcases hminmem with h | h
    · have := hminlb 0 (by omega)
      omega
    · exact h
  · rcases hmaxmem with h | h
    · have := hmaxub 0 (by omega)
      exact ⟨0, by omega, by omega⟩
    · exact h

theorem rounds_spec (rx : Nat → Nat) (type s : Nat) (hs1 : 1 ≤ s) (hs : s ≤ 18) :
    ∀ (m fuel i : Nat) (st : Sampler), i + (m + 1) = 10 → m + 1 < fuel → 0 ≤ st.result →
      ∃ r st', r ≤ m ∧ rounds rx type (s : Int) fuel i st = .ok st' ∧
        RoundDone rx type s (st.pos + 3 * s * r) st' ∧
        (StableRound rx type s (st.pos + 3 * s * r) ∨ r = m) ∧
        ∀ r', r' < r → ¬ StableRound rx type s (st.pos + 3 * s * r') := by
  intro m
  induction m with
  | zero =>
    intro fuel i st hi hf hres
    obtain ⟨f, rfl⟩ : ∃ f, fuel = f + 1 := ⟨fuel - 1, by omega⟩
    obtain ⟨f, rfl⟩ : ∃ g, f = g + 1 := ⟨f - 1, by omega⟩
    obtain ⟨st1, hrun, hd⟩ := round_spec rx type s hs1 hs st hres
    have hnn := hd.result_nonneg
    refine ⟨0, st1, le_refl _, ?_, by simpa using hd, Or.inr rfl, by intro r' hr'; omega⟩
    have hi10 : i < 10 := by omega
    have hi11 : ¬ (i + 1 < 10) := by omega
    simp only [rounds, hi10, if_true, Int.toNat_ofNat, hrun, hi11, if_false]
    rw [if_neg (by omega)]
    simp
  | succ m ih =>
    intro fuel i st hi hf hres
    obtain ⟨f, rfl⟩ : ∃ f, fuel = f + 1 := ⟨fuel - 1, by omega⟩
    obtain ⟨st1, hrun, hd⟩ := round_spec rx type s hs1 hs st hres
    have hnn := hd.result_nonneg
    have hi10 : i < 10 := by omega
    obtain ⟨a, ha, hmin⟩ := hd.min_mem
    obtain ⟨b, hb, hmax⟩ := hd.max_mem
    have hle := hd.min_lb b hb
    have hra := reading_le rx type (st.pos + 3 * a)
    have hrb := reading_le rx type (st.pos + 3 * b)
    by_cases hdif : (st1.maxval + 4294967296 - st1.minval) % 4294967296 < 40
    · refine ⟨0, st1, by omega, ?_, by simpa using hd, Or.inl ?_, by intro r' hr'; omega⟩
      · simp only [rounds, hi10, if_true, Int.toNat_ofNat, hrun]
        rw [if_neg (by omega)]
        simp [hdif]
      · intro j k hj hk
        have h1 := hd.max_ub j hj
        have h2 := hd.min_lb k hk
        simp only [Nat.mul_zero, Nat.add_zero]
        omega
    · obtain ⟨r, st', hr, hrun', hd', hstab, hbefore⟩ := ih f (i + 1) st1 (by omega) (by omega) hnn
      have hp1 : ∀ r, st1.pos + 3 * s * r = st.pos + 3 * s * (r + 1) := by
        intro r
        rw [hd.pos_eq]
        ring
      rw [hp1] at hd' hstab
      refine ⟨r + 1, st', by omega, ?_, hd', ?_, ?_⟩
      · simp only [rounds, hi10, if_true, Int.toNat_ofNat, hrun]
        rw [if_neg (by omega)]
        simp only [hdif, if_false]
        exact hrun'
      · rcases hstab with h | h
        · exact Or.inl h
        · exact Or.inr (by omega)
      · intro r' hr'
        cases r' with
        | zero =>
          intro hst
          have := hst b a hb ha
          simp only [Nat.mul_zero, Nat.add_zero] at this
          omega
        | succ r' =>
          have := hbefore r' (by omega)
          rwa [hp1] at this

theorem removeOne_spec (s target : Nat) (hs : s ≤ 18) :
    ∀ (k fuel n : Nat) (vbuf : VBuf), s = n + k → k < fuel →
      (∀ j, j < s → ∃ v, vbuf j = some v) →
      (∃ a, n ≤ a ∧ a < s ∧ vbuf a = some target ∧
          removeOne (s : Int) target fuel n vbuf = .ok (Function.update vbuf a (some 5000))) ∨
        ((∀ j, n ≤ j → j < s → vbuf j ≠ some target) ∧
          removeOne (s : Int) target fuel n vbuf = .ok vbuf) := by
  intro k
  induction k with
  | zero =>
    intro fuel n vbuf hsn hf _
    obtain ⟨f, rfl⟩ : ∃ f, fuel = f + 1 := ⟨fuel - 1, by omega⟩
    right
    refine ⟨by intro j h1 h2; omega, ?_⟩
    have : ¬ ((n : Int) < (s : Int)) := by omega
    simp [removeOne, this]
  | succ k ih =>
    intro fuel n vbuf hsn hf hall
    obtain ⟨f, rfl⟩ : ∃ f, fuel = f + 1 := ⟨fuel - 1, by omega⟩
    obtain ⟨v, hv⟩ := hall n (by omega)
    have hlt : (n : Int) < (s : Int) := by omega
    have hn18 : n < 18 := by omega
    by_cases hvt : v = target
    · left
      refine ⟨n, le_refl _, by omega, by rw [hv, hvt], ?_⟩
      simp [removeOne, hlt, vread, hn18, hv, hvt, vwrite]
    · have hstep : removeOne (s : Int) target (f + 1) n vbuf =
          removeOne (s : Int) target f (n + 1) vbuf := by
        simp [removeOne, hlt, vread, hn18, hv, hvt]
      rw [hstep]
      rcases ih f (n + 1) vbuf (by omega) (by omega) hall with ⟨a, ha1, ha2, ha3, ha4⟩ | ⟨hno, hrun⟩
      · exact Or.inl ⟨a, by omega, ha2, ha3, ha4⟩
      · right
        refine ⟨?_, hrun⟩
        intro j hj1 hj2
        by_cases hjn : j = n
        · subst hjn
          rw [hv]
          simpa using hvt
        · exact hno j (by omega) hj2

theorem sumKept_spec (s : Nat) (hs : s ≤ 18) :
    ∀ (k fuel n : Nat) (vbuf : VBuf) (val : Int), s = n + k → k < fuel →
      (∀ j, j < s → ∃ v, vbuf j = some v) → 0 ≤ val → val ≤ 5000 * (n : Int) →
      sumKept (s : Int) fuel n vbuf val =
        .ok (val + ((Finset.sum (Finset.range k) (fun j => keepVal (vbuf (n + j))) : Nat) : Int)) := by
  intro k
  induction k with
  | zero =>
    intro fuel n vbuf val hsn hf _ _ _
    obtain ⟨f, rfl⟩ : ∃ f, fuel = f + 1 := ⟨fuel - 1, by omega⟩
    have : ¬ ((n : Int) < (s : Int)) := by omega
    simp [sumKept, this]
  | succ k ih =>
    intro fuel n vbuf val hsn hf hall h0 hval
    obtain ⟨f, rfl⟩ : ∃ f, fuel = f + 1 := ⟨fuel - 1, by omega⟩
    obtain ⟨v, hv⟩ := hall n (by omega)
    have hlt : (n : Int) < (s : Int) := by omega
    have hn18 : n < 18 := by omega
    rw [Finset.sum_range_succ']
    have hshift : Finset.sum (Finset.range k) (fun j => keepVal (vbuf (n + (j + 1)))) =
        Finset.sum (Finset.range k) (fun j => keepVal (vbuf (n + 1 + j))) :=
      Finset.sum_congr rfl (fun j _ => by rw [show n + (j + 1) = n + 1 + j by omega])
    rw [hshift]
    simp only [Nat.add_zero, hv]
    by_cases hv5 : v < 5000
    · have hwrap : toI32 ((toU32 val + v) % 4294967296) = val + (v : Int) := by
        unfold toI32 toU32
        omega
      have hstep : sumKept (s : Int) (f + 1) n vbuf val =
          sumKept (s : Int) f (n + 1) vbuf (val + (v : Int)) := by
        simp [sumKept, hlt, vread, hn18, hv, hv5, hwrap]
      rw [hstep, ih f (n + 1) vbuf (val + (v : Int)) (by omega) (by omega) hall (by omega)
        (by push_cast; omega)]
      simp only [keepVal, hv5, if_true]
      push_cast
      congr 1
      ring
    · have hstep : sumKept (s : Int) (f + 1) n vbuf val =
          sumKept (s : Int) f (n + 1) vbuf val := by
        simp [sumKept, hlt, vread, hn18, hv, hv5]
      rw [hstep, ih f (n + 1) vbuf val (by omega) (by omega) hall h0 (by push_cast; omega)]
      simp [keepVal, hv5]

theorem sum_after_removal (s a b : Nat) (g : Nat → Nat) (vbuf : VBuf) (ha : a < s) (hb : b < s)
    (hab : a ≠ b) (hcells : ∀ j, j < s → vbuf j = some (g j)) (hg : ∀ j, j < s → g j ≤ 4095) :
    Finset.sum (Finset.range s) g =
      Finset.sum (Finset.range s)
        (fun j => keepVal (Function.update (Function.update vbuf a (some 5000)) b (some 5000) (0 + j)))
        + g a + g b := by
  have hpt : ∀ j ∈ Finset.range s, g j =
      keepVal (Function.update (Function.update vbuf a (some 5000)) b (some 5000) (0 + j))
        + ((if j = a then g a else 0) + (if j = b then g b else 0)) := by
    intro j hj
    have hjs : j < s := Finset.mem_range.mp hj
    have hgj := hg j hjs
    rw [Nat.zero_add]
    by_cases h1 : j = b
    · subst h1
      have : ¬ (j = a) := fun h => hab h.symm
      simp [keepVal, this]
    · by_cases h2 : j = a
      · subst h2
        simp [keepVal, h1]
      · rw [Function.update_noteq h1, Function.update_noteq h2, hcells j hjs]
        have : g j < 5000 := by omega
        simp [keepVal, h1, h2, this]
  rw [Finset.sum_congr rfl hpt, Finset.sum_add_distrib, Finset.sum_add_distrib,
    Finset.sum_ite_eq', Finset.sum_ite_eq']
  simp only [Finset.mem_range, ha, hb, if_true]
  ring

theorem filter_spec (s a b : Nat) (g : Nat → Nat) (vbuf : VBuf) (hs2 : 2 ≤ s) (hs : s ≤ 18)
    (ha : a < s) (hb : b < s) (hcells : ∀ j, j < s → vbuf j = some (g j))
    (hg : ∀ j, j < s → g j ≤ 4095) (hlo : ∀ j, j < s → g a ≤ g j) (hhi : ∀ j, j < s → g j ≤ g b) :
    ∃ vbuf1 vbuf2, removeOne (s : Int) (g a) (s + 1) 0 vbuf = .ok vbuf1 ∧
      removeOne (s : Int) (g b) (s + 1) 0 vbuf1 = .ok vbuf2 ∧
      sumKept (s : Int) (s + 1) 0 vbuf2 0 =
        .ok (((Finset.sum (Finset.range s) g : Nat) : Int) - (g a : Int) - (g b : Int)) := by
  have hall : ∀ j, j < s → ∃ v, vbuf j = some v := fun j hj => ⟨g j, hcells j hj⟩
  rcases removeOne_spec s (g a) hs s (s + 1) 0 vbuf (by omega) (by omega) hall with
    ⟨a', _, ha's, hva', hrun1⟩ | ⟨hno, _⟩
  swap
  · exact absurd (hcells a ha) (hno a (by omega) ha)
  have hga' : g a' = g a := by
    have := hcells a' ha's
    rw [hva'] at this
    exact (Option.some.inj this).symm
  have hall1 : ∀ j, j < s → ∃ v, Function.update vbuf a' (some 5000) j = some v := by
    intro j hj
    by_cases h : j = a'
    · subst h
      exact ⟨5000, by simp⟩
    · exact ⟨g j, by rw [Function.update_noteq h, hcells j hj]⟩
  have hgb := hg b hb
  rcases removeOne_spec s (g b) hs s (s + 1) 0 _ (by omega) (by omega) hall1 with
    ⟨b', _, hb's, hvb', hrun2⟩ | ⟨hno, _⟩
  swap
  · exfalso
    by_cases hba : b = a'
    · obtain ⟨c, hc, hca⟩ : ∃ c, c < s ∧ c ≠ a' := by
        by_cases h0 : a' = 0
        · exact ⟨1, by omega, by omega⟩
        · exact ⟨0, by omega, fun h => h0 h.symm⟩
      apply hno c (by omega) hc
      rw [Function.update_noteq hca, hcells c hc]
      have h1 := hlo c hc
      have h2 := hhi c hc
      have h3 : g b = g a := by rw [hba, hga']
      congr 1
      omega
    · apply hno b (by omega) hb
      rw [Function.update_noteq hba, hcells b hb]
  have hne : a' ≠ b' := by
    intro h
    rw [← h] at hvb'
    simp only [Function.update_same, Option.some.injEq] at hvb'
    omega
  have hgb' : g b' = g b := by
    rw [Function.update_noteq (fun h => hne h.symm), hcells b' hb's] at hvb'
    exact Option.some.inj hvb'
  refine ⟨_, _, hrun1, hrun2, ?_⟩
  have hall2 : ∀ j, j < s →
      ∃ v, Function.update (Function.update vbuf a' (some 5000)) b' (some 5000) j = some v := by
    intro j hj
    by_cases h : j = b'
    · subst h
      exact ⟨5000, by simp⟩
    · rw [Function.update_noteq h]
      exact hall1 j hj
  rw [sumKept_spec s hs s (s + 1) 0 _ 0 (by omega) (by omega) hall2 (le_refl _) (by simp)]
  have hsum := sum_after_removal s a' b' g vbuf ha's hb's hne hcells hg
  rw [hga', hgb'] at hsum
  congr 1
  rw [hsum]
  push_cast
  ring

theorem clampSamples_cases (samples : Int) :
    clampSamples samples = 1 ∨ (3 ≤ clampSamples samples ∧ clampSamples samples ≤ 18) := by
  unfold clampSamples
  split_ifs <;> omega

theorem tp_read_spec (rx : Nat → Nat) (type : Nat) (samples : Int) (pos : Nat) :
    ∃ r a b, ReadRun rx type samples pos r a b := by
  have hclamp : (if (if samples < 3 then 1 else samples) > 18 then 18
      else (if samples < 3 then 1 else samples)) = ((clampSamples samples : Nat) : Int) := by
    unfold clampSamples
    split_ifs <;> omega
  have hcases := clampSamples_cases samples
  generalize hsdef : clampSamples samples = s at hclamp hcases
  have hs1 : 1 ≤ s := by omega
  have hs18 : s ≤ 18 := by omega
  obtain ⟨r, st, hr, hrun, hd, hstab, hbefore⟩ :=
    rounds_spec rx type s hs1 hs18 9 11 0
      { vbuf := VBuf.fresh, minval := 0, maxval := 0,
        result := ((ili9341_tp_command rx type pos).1 : Int),
        pos := (ili9341_tp_command rx type pos).2 } (by omega) (by omega) (by simp)
  simp only [tp_command_snd] at hrun hd hstab hbefore
  obtain ⟨a, ha, hmin⟩ := hd.min_mem
  obtain ⟨b, hb, hmax⟩ := hd.max_mem
  have hlb := hd.min_lb
  have hub := hd.max_ub
  rw [hmin] at hlb
  rw [hmax] at hub
  have hnn := hd.result_nonneg
  refine ⟨r, a, b, ?_⟩
  suffices hgoal : ili9341_tp_read rx type samples pos =
      .ok (readValue rx type s (pos + 3 + 3 * s * r) a b, pos + 3 + 3 * s * r + 3 * s) by
    subst hsdef
    exact ⟨by omega, ha, hb, hlb, hub, hstab, hbefore, hgoal⟩
  · unfold ili9341_tp_read
    simp only [hclamp, tp_command_snd, hrun]
    rw [if_neg (by omega), hd.pos_eq]
    by_cases h2 : 2 < s
    · have h2' : ((s : Nat) : Int) > 2 := by omega
      obtain ⟨vbuf1, vbuf2, hr1, hr2, hsum⟩ :=
        filter_spec s a b (fun j => reading rx type (pos + 3 + 3 * s * r + 3 * j)) st.vbuf
          (by omega) hs18 ha hb hd.cells (fun j _ => reading_le _ _ _) hlb hub
      rw [if_pos h2', Int.toNat_ofNat, hmin, hr1, hmax]
      simp only [hr2, hsum]
      have hne : ((s : Nat) : Int) - 2 ≠ 0 := by omega
      simp [cdiv, hne, readValue, h2]
    · have h2' : ¬ (((s : Nat) : Int) > 2) := by omega
      have hs : s = 1 := by omega
      have hc0 := hd.cells 0 (by omega)
      have hle := reading_le rx type (pos + 3 + 3 * s * r)
      rw [if_neg h2']
      simp only [Nat.mul_zero, Nat.add_zero] at hc0
      have h18 : (0 : Nat) < 18 := by omega
      simp only [vread, h18, if_true, hc0, readValue, h2, if_false]
      congr 2
      unfold toI32
      omega

theorem window_length (rx : Nat → Nat) (type s p : Nat) : (window rx type s p).length = s := by
  simp [window]

theorem mem_window (rx : Nat → Nat) (type s p x : Nat) :
    x ∈ window rx type s p ↔ ∃ j, j < s ∧ reading rx type (p + 3 * j) = x := by
  simp [window]

theorem window_sum (rx : Nat → Nat) (type s p : Nat) :
    (window rx type s p).sum = Finset.sum (Finset.range s) (fun j => reading rx type (p + 3 * j)) := by
  induction s with
  | zero => simp [window]
  | succ s ih =>
    unfold window at ih ⊢
    rw [List.range_succ, List.map_append, List.sum_append, ih, Finset.sum_range_succ]
    simp

theorem sum_between_extremes (s a b : Nat) (g : Nat → Nat) (hs2 : 2 ≤ s) (ha : a < s) (hb : b < s)
    (hlo : ∀ j, j < s → g a ≤ g j) (hhi : ∀ j, j < s → g j ≤ g b) :
    g a + g b + (s - 2) * g a ≤ Finset.sum (Finset.range s) g ∧
      Finset.sum (Finset.range s) g ≤ g a + g b + (s - 2) * g b := by
  obtain ⟨a', b', hne, ha', hb', hga, hgb⟩ :
      ∃ a' b', a' ≠ b' ∧ a' < s ∧ b' < s ∧ g a' = g a ∧ g b' = g b := by
    by_cases hab : a = b
    · obtain ⟨c, hc, hca⟩ : ∃ c, c < s ∧ c ≠ a := by
        by_cases h0 : a = 0
        · exact ⟨1, by omega, by omega⟩
        · exact ⟨0, by omega, fun h => h0 h.symm⟩
      refine ⟨a, c, fun h => hca h.symm, ha, hc, rfl, ?_⟩
      have h1 := hlo c hc
      have h2 := hhi c hc
      rw [← hab] at h2 ⊢
      omega
    · exact ⟨a, b, hab, ha, hb, rfl, rfl⟩
  have hmem1 : a' ∈ Finset.range s := Finset.mem_range.mpr ha'
  have hmem2 : b' ∈ (Finset.range s).erase a' :=
    Finset.mem_erase.mpr ⟨fun h => hne h.symm, Finset.mem_range.mpr hb'⟩
  have e1 : g a' + Finset.sum ((Finset.range s).erase a') g = Finset.sum (Finset.range s) g :=
    Finset.add_sum_erase (Finset.range s) g hmem1
  have e2 : g b' + Finset.sum (((Finset.range s).erase a').erase b') g =
      Finset.sum ((Finset.range s).erase a') g :=
    Finset.add_sum_erase ((Finset.range s).erase a') g hmem2
  have hcard : (((Finset.range s).erase a').erase b').card = s - 2 := by
    rw [Finset.card_erase_of_mem hmem2, Finset.card_erase_of_mem hmem1, Finset.card_range]
    omega
  have hrest : ∀ x ∈ ((Finset.range s).erase a').erase b', x < s := by
    intro x hx
    exact Finset.mem_range.mp (Finset.mem_of_mem_erase (Finset.mem_of_mem_erase hx))
  have hup : Finset.sum (((Finset.range s).erase a').erase b') g ≤ (s - 2) * g b := by
    have := Finset.sum_le_card_nsmul (((Finset.range s).erase a').erase b') g (g b)
      (fun x hx => hhi x (hrest x hx))
    rwa [hcard, smul_eq_mul] at this
  have hdown : (s - 2) * g a ≤ Finset.sum (((Finset.range s).erase a').erase b') g := by
    have := Finset.card_nsmul_le_sum (((Finset.range s).erase a').erase b') g (g a)
      (fun x hx => hlo x (hrest x hx))
    rwa [hcard, smul_eq_mul] at this
  rw [hga] at e1
  rw [hgb] at e2
  omega

theorem readValue_bounds (rx : Nat → Nat) (type s p a b : Nat) (hs : s = 1 ∨ 3 ≤ s)
    (ha : a < s) (hb : b < s)
    (hlo : ∀ j, j < s → reading rx type (p + 3 * a) ≤ reading rx type (p + 3 * j))
    (hhi : ∀ j, j < s → reading rx type (p + 3 * j) ≤ reading rx type (p + 3 * b)) :
    (reading rx type (p + 3 * a) : Int) ≤ readValue rx type s p a b ∧
      readValue rx type s p a b ≤ (reading rx type (p + 3 * b) : Int) := by
  unfold readValue
  by_cases h2 : 2 < s
  · rw [if_pos h2]
    obtain ⟨h1, h3⟩ := sum_between_extremes s a b (fun j => reading rx type (p + 3 * j))
      (by omega) ha hb hlo hhi
    obtain ⟨d, hd⟩ : ∃ d, s = d + 2 := ⟨s - 2, by omega⟩
    subst hd
    generalize Finset.sum (Finset.range (d + 2)) (fun j => reading rx type (p + 3 * j)) = S at h1 h3
    generalize reading rx type (p + 3 * a) = lo at h1 h3
    generalize reading rx type (p + 3 * b) = hi at h1 h3
    simp only [Nat.add_sub_cancel] at h1 h3
    have hnum : (S : Int) - (lo : Int) - (hi : Int) = ((S - lo - hi : Nat) : Int) := by omega
    have hden : ((d + 2 : Nat) : Int) - 2 = ((d : Nat) : Int) := by omega
    rw [hnum, hden, ← Int.ofNat_tdiv]
    have hdpos : 0 < d := by omega
    constructor
    · apply Int.ofNat_le.mpr
      rw [Nat.le_div_iff_mul_le hdpos]
      have : lo * d = d * lo := Nat.mul_comm _ _
      omega
    · apply Int.ofNat_le.mpr
      apply Nat.div_le_of_le_mul
      omega
  · rw [if_neg h2]
    have hs1 : s = 1 := by omega
    subst hs1
    have ha0 : a = 0 := by omega
    have hb0 : b = 0 := by omega
    subst ha0 hb0
    simp

theorem tp_read_ok (rx : Nat → Nat) (type : Nat) (samples : Int) (pos : Nat) :
    ∃ v p, ili9341_tp_read rx type samples pos = .ok (v, p) ∧ 0 ≤ v ∧ v ≤ 4095 := by
  obtain ⟨r, a, b, h⟩ := tp_read_spec rx type samples pos
  have hcases := clampSamples_cases samples
  obtain ⟨h1, h2⟩ := readValue_bounds rx type (clampSamples samples)
    (pos + 3 + 3 * clampSamples samples * r) a b (by omega) h.lo_lt h.hi_lt h.lo_lb h.hi_ub
  refine ⟨_, _, h.run, ?_, ?_⟩
  · omega
  · have := reading_le rx type (pos + 3 + 3 * clampSamples samples * r + 3 * b)
    omega

theorem clampSamples_mid (n : Int) (h3 : 3 ≤ n) (h18 : n ≤ 18) : clampSamples n = n.toNat := by
  unfold clampSamples
  rw [if_neg (by omega), if_neg (by omega)]

/-! ## Facts about the touch read-out -/

theorem tp_get_reads_spec (rx : Nat → Nat) (pos : Nat) :
    ∃ v0 p0, ili9341_tp_read rx 0xB0 3 pos = .ok (v0, p0) ∧ 0 ≤ v0 ∧ v0 ≤ 4095 ∧
      (v0 ≤ 50 →
        tp_get_reads rx pos = .ok { x := 0, y := 0, z := 0, result := v0, pos := p0 }) ∧
      (50 < v0 → ∃ v1 p1 v2 p2,
        ili9341_tp_read rx 0xD0 10 p0 = .ok (v1, p1) ∧ 0 ≤ v1 ∧ v1 ≤ 4095 ∧
        ili9341_tp_read rx 0x90 10 p1 = .ok (v2, p2) ∧ 0 ≤ v2 ∧ v2 ≤ 4095 ∧
        tp_get_reads rx pos = .ok { x := v1, y := v2, z := v0, result := v2, pos := p2 }) := by
  obtain ⟨v0, p0, h0, h0a, h0b⟩ := tp_read_ok rx 0xB0 3 pos
  refine ⟨v0, p0, h0, h0a, h0b, ?_, ?_⟩
  · intro hle
    have : ¬ (v0 > 50) := by omega
    unfold tp_get_reads
    rw [h0]
    dsimp only
    rw [if_neg this]
  · intro hgt
    obtain ⟨v1, p1, h1, h1a, h1b⟩ := tp_read_ok rx 0xD0 10 p0
    obtain ⟨v2, p2, h2, h2a, h2b⟩ := tp_read_ok rx 0x90 10 p1
    refine ⟨v1, p1, v2, p2, h1, h1a, h1b, h2, h2a, h2b, ?_⟩
    have hg : v0 > 50 := hgt
    have h1a' : v1 ≥ 0 := h1a
    have h2a' : v2 ≥ 0 := h2a
    unfold tp_get_reads
    rw [h0]
    dsimp only
    rw [if_pos hg, h1]
    dsimp only
    rw [if_pos h1a', h2]
    dsimp only
    rw [if_pos h2a']

theorem clampTo_bounds (hi v : Int) (h : 0 ≤ hi) : 0 ≤ clampTo hi v ∧ clampTo hi v ≤ hi := by
  unfold clampTo
  simp only []
  split_ifs <;> omega

/-- Scaled (non-raw) read-out once the three channel reads are known. -/
theorem tp_get_scaled_of_reads (H : Header) (drv : Driver) (caps : Caps) (rx : Nat → Nat) (pos : Nat)
    (t : TouchReads) (ht : tp_get_reads rx pos = .ok t) :
    ili9341_tp_get H drv caps rx 0 pos =
      if t.result ≤ 50 then .ok ({ x := 0, y := 0, z := 0 }, t.pos)
      else if cal_xright drv - cal_xleft drv ≠ 0 ∧ cal_ybottom drv - cal_ytop drv ≠ 0 then
        .ok ({ x := (tp_remap H caps.orient (scaleX drv t.x) (scaleY drv t.y)).1,
               y := (tp_remap H caps.orient (scaleX drv t.x) (scaleY drv t.y)).2, z := 0 }, t.pos)
      else .ok ({ x := 0, y := 0, z := 0 }, t.pos) := by
  unfold ili9341_tp_get
  simp only [ne_eq, not_true_eq_false, if_false, ht]
  by_cases h50 : t.result ≤ 50
  · simp [h50]
  · simp only [h50, if_false]
    by_cases hcal : cal_xright drv - cal_xleft drv ≠ 0 ∧ cal_ybottom drv - cal_ytop drv ≠ 0
    · have hx : ¬ (cal_xright drv - cal_xleft drv = 0) := hcal.1
      have hy : ¬ (cal_ybottom drv - cal_ytop drv = 0) := hcal.2
      simp [hx, hy, cdiv, scaleX, scaleY]
    · rw [if_neg hcal, if_neg hcal]

/-! ## Facts about initialisation -/

theorem block_append (a b : List Stmt) (m : Machine) :
    block (a ++ b) m =
      match block a m with
      | (m1, none) => block b m1
      | (m1, some e) => (m1, some e) := by
  induction a generalizing m with
  | nil => simp [block]
  | cons s rest ih =>
    simp only [List.cons_append, block]
    rcases hs : s m with ⟨m1, _ | e⟩
    · simp only []
      exact ih m1
    · simp only []

theorem acquire_early (H : Header) (B : Build) (env : Outcomes) (chip : Nat)
    (caps : Caps) (drv : Driver) :
    (∀ op ∈ (block ((init_acquire H B env chip).take 5)
        { caps := caps, drv := drv, trace := [] }).1.trace, op.isClaim = true) ∧
      (EarlyClaimFails B env caps →
        (block ((init_acquire H B env chip).take 5) { caps := caps, drv := drv, trace := [] }).2
            = some .spi_setup_error ∨
          (block ((init_acquire H B env chip).take 5) { caps := caps, drv := drv, trace := [] }).2
            = some .lock_error) ∧
      (¬ EarlyClaimFails B env caps →
        (block ((init_acquire H B env chip).take 5) { caps := caps, drv := drv, trace := [] }).2
          = none) := by
  obtain ⟨sd, st, l1, l2, l3, l4, al⟩ := env
  unfold EarlyClaimFails
  simp only [init_acquire, List.take, block, lockOrReturn]
  by_cases hdev : caps.spi_device = -1 <;> by_cases htp : B.GDISPLAY_TP_SPI = -1 <;>
    cases sd <;> cases st <;> cases l1 <;> cases l2 <;>
    simp [Op.isClaim, hdev, htp]

theorem forall_mem_snoc {A : Op → Prop} {t : List Op} {x : Op} (ht : ∀ op ∈ t, A op) (hx : A x) :
    ∀ op ∈ t ++ [x], A op := by
  intro op hop
  rcases List.mem_append.mp hop with h | h
  · exact ht op h
  · rw [List.mem_singleton.mp h]
    exact hx

theorem acquire_late (H : Header) (B : Build) (env : Outcomes) (chip : Nat) (m : Machine)
    (hm : ∀ op ∈ m.trace, op.isClaim = true) :
    (∀ op ∈ (block ((init_acquire H B env chip).drop 5) m).1.trace, AllowedBeforeClaimError B op) ∧
      (Op.gpio_ll_pin_clr B.GDISPLAY_RESET ∈ (block ((init_acquire H B env chip).drop 5) m).1.trace →
        env.lock_reset_pin = true) ∧
      (((B.GDISPLAY_RESET ≠ -1 ∧ env.lock_reset_pin = false) ∨
          (B.GDISPLAY_TP_SPI ≠ -1 ∧ env.lock_touch_spi = false)) →
        (block ((init_acquire H B env chip).drop 5) m).2 = some .lock_error) := by
  obtain ⟨sd, st, l1, l2, l3, l4, al⟩ := env
  have hm' : ∀ op ∈ m.trace, AllowedBeforeClaimError B op := fun op h => Or.inl (hm op h)
  have hno : Op.gpio_ll_pin_clr B.GDISPLAY_RESET ∉ m.trace := by
    intro h
    have := hm _ h
    simp [Op.isClaim] at this
  have hA1 : AllowedBeforeClaimError B (.gpio_pin_output B.GDISPLAY_CMD) := Or.inr (Or.inl rfl)
  have hA2 : AllowedBeforeClaimError B (.gpio_pin_output B.GDISPLAY_RESET) :=
    Or.inr (Or.inr (Or.inl rfl))
  have hA3 : AllowedBeforeClaimError B (.gpio_ll_pin_clr B.GDISPLAY_RESET) :=
    Or.inr (Or.inr (Or.inr rfl))
  have hA4 : ∀ t u, AllowedBeforeClaimError B (.driver_lock t u) := fun _ _ => Or.inl rfl
  simp only [init_acquire, List.drop, block, lockOrReturn, emit]
  by_cases hrs : B.GDISPLAY_RESET ≠ -1 <;> by_cases htp : B.GDISPLAY_TP_SPI ≠ -1 <;>
    cases l3 <;> cases l4 <;>
    simp only [if_pos hrs, if_neg hrs, if_pos htp, if_neg htp, if_true, if_false, block,
      Bool.false_eq_true] <;>
    exact ⟨by
        repeat first
          | exact hm'
          | refine forall_mem_snoc ?_ (by first | exact hA1 | exact hA2 | exact hA3 | exact hA4 _ _),
      by simp [hno], by simp [hrs, htp]⟩

theorem acquire_run (H : Header) (B : Build) (env : Outcomes) (chip : Nat) (caps : Caps)
    (drv : Driver) :
    (block (init_acquire H B env chip) { caps := caps, drv := drv, trace := [] }).1.trace =
        (issueUntilRefused (claimPlan B env caps)).1 ∧
      (block (init_acquire H B env chip) { caps := caps, drv := drv, trace := [] }).2 =
        (issueUntilRefused (claimPlan B env caps)).2 := by
  obtain ⟨sd, st, l1, l2, l3, l4, al⟩ := env
  simp only [init_acquire, block, lockOrReturn, emit, claimPlan]
  by_cases hdev : caps.spi_device = -1 <;> cases sd <;>
    try (simp [issueUntilRefused, refusalError, hdev]; done)
  all_goals
    by_cases htp : B.GDISPLAY_TP_SPI = -1 <;> cases st <;>
      try (simp [issueUntilRefused, refusalError, hdev, htp]; done)
  all_goals
    cases l1 <;> try (simp [issueUntilRefused, refusalError, hdev, htp]; done)
  all_goals
    cases l2 <;> try (simp [issueUntilRefused, refusalError, hdev, htp]; done)
  all_goals
    by_cases hrs : B.GDISPLAY_RESET = -1 <;> cases l3 <;>
      try (simp [issueUntilRefused, refusalError, hdev, htp, hrs]; done)
  all_goals
    cases l4 <;> simp [issueUntilRefused, refusalError, hdev, htp, hrs]

theorem issue_refused_split (plan : List ClaimStep) (e : InitError)
    (h : (issueUntilRefused plan).2 = some e) :
    ∃ (done : List ClaimStep) (req : Op) (setup : List Op) (rest : List ClaimStep),
      plan = done ++ { request := req, granted := false, setup := setup } :: rest ∧
      (∀ s ∈ done, s.granted = true) ∧ e = refusalError req ∧
      (issueUntilRefused plan).1 = (done.map fun s => s.request :: s.setup).flatten ++ [req] := by
  induction plan with
  | nil => simp [issueUntilRefused] at h
  | cons s rest ih =>
    obtain ⟨rq, g, su⟩ := s
    cases g with
    | false =>
      simp only [issueUntilRefused, Bool.false_eq_true, if_false, Option.some.injEq] at h
      exact ⟨[], rq, su, rest, rfl, by simp, h.symm, by simp [issueUntilRefused]⟩
    | true =>
      simp only [issueUntilRefused, if_true] at h
      obtain ⟨done, req, setup, rest', hp, hg, he, ht⟩ := ih h
      refine ⟨{ request := rq, granted := true, setup := su } :: done, req, setup, rest', ?_, ?_,
        he, ?_⟩
      · rw [hp]
        rfl
      · intro x hx
        rcases List.mem_cons.mp hx with hx | hx
        · rw [hx]
        · exact hg x hx
      · simp only [issueUntilRefused, if_true, ht, List.map_cons, List.flatten_cons,
          List.cons_append, List.append_assoc]

theorem issue_refused_of_mem (plan : List ClaimStep) (s : ClaimStep) (hs : s ∈ plan)
    (hg : s.granted = false) : ∃ e, (issueUntilRefused plan).2 = some e := by
  induction plan with
  | nil => simp at hs
  | cons t rest ih =>
    rcases List.mem_cons.mp hs with h | h
    · subst h
      exact ⟨refusalError s.request, by simp [issueUntilRefused, hg]⟩
    · cases ht : t.granted
      · exact ⟨refusalError t.request, by simp [issueUntilRefused, ht]⟩
      · obtain ⟨e, he⟩ := ih h
        exact ⟨e, by simp [issueUntilRefused, ht, he]⟩

theorem claim_fails_mem (B : Build) (env : Outcomes) (caps : Caps)
    (hfail : SomeClaimFails B env caps) : ∃ s ∈ claimPlan B env caps, s.granted = false := by
  unfold SomeClaimFails at hfail
  rcases hfail with ⟨h1, h2⟩ | ⟨h1, h2⟩ | h | h | ⟨h1, h2⟩ | ⟨h1, h2⟩
  · exact ⟨⟨Op.spi_setup B.GDISPLAY_SPI B.GDISPLAY_CS 48000000 (decide (B.GDISPLAY_TP_SPI ≠ -1)),
        env.spi_setup_display.isSome, []⟩,
      by simp [claimPlan, h1], by simp [h2]⟩
  · exact ⟨⟨Op.spi_setup B.GDISPLAY_TP_SPI B.GDISPLAY_TP_CS 2500000 true,
        env.spi_setup_touch.isSome, []⟩,
      by simp [claimPlan, h1], by simp [h2]⟩
  · exact ⟨⟨Op.driver_lock .SPI_DRIVER
        (if caps.spi_device = -1 then env.spi_setup_display.getD (-1) else caps.spi_device),
        env.lock_display_spi, []⟩,
      by simp [claimPlan], h⟩
  · exact ⟨⟨Op.driver_lock .GPIO_DRIVER B.GDISPLAY_CMD, env.lock_cmd_pin,
        [Op.gpio_pin_output B.GDISPLAY_CMD]⟩,
      by simp [claimPlan], h⟩
  · exact ⟨⟨Op.driver_lock .GPIO_DRIVER B.GDISPLAY_RESET, env.lock_reset_pin,
        [Op.gpio_pin_output B.GDISPLAY_RESET, Op.gpio_ll_pin_clr B.GDISPLAY_RESET]⟩,
      by simp [claimPlan, h1], h2⟩
  · exact ⟨⟨Op.driver_lock .SPI_DRIVER (env.spi_setup_touch.getD (-1)), env.lock_touch_spi, []⟩,
      by simp [claimPlan, h1], h2⟩

theorem claimPlan_setup (B : Build) (env : Outcomes) (caps : Caps) :
    ∀ s ∈ claimPlan B env caps, s.request.isClaim = true ∧
      ∀ op ∈ s.setup, ∃ pin, s.request = .driver_lock .GPIO_DRIVER pin ∧
        (op = .gpio_pin_output pin ∨ op = .gpio_ll_pin_clr pin) := by
  intro s hs
  simp only [claimPlan, List.mem_append, List.mem_cons, List.mem_singleton, List.not_mem_nil,
    or_false] at hs
  rcases hs with (((hs | hs) | hs | hs) | hs) | hs
  · split_ifs at hs
    · rw [List.mem_singleton.mp hs]
      exact ⟨rfl, by simp⟩
    · simp at hs
  · split_ifs at hs
    · rw [List.mem_singleton.mp hs]
      exact ⟨rfl, by simp⟩
    · simp at hs
  · rw [hs]
    exact ⟨rfl, by simp⟩
  · rw [hs]
    exact ⟨rfl, by simp⟩
  · split_ifs at hs
    · rw [List.mem_singleton.mp hs]
      exact ⟨rfl, by simp⟩
    · simp at hs
  · split_ifs at hs
    · rw [List.mem_singleton.mp hs]
      exact ⟨rfl, by simp⟩
    · simp at hs

/-! ## Facts about raw read-out and stream independence -/

/-- Raw read-out once the three channel reads are known. -/
theorem tp_get_raw_of_reads (H : Header) (drv : Driver) (caps : Caps) (rx : Nat → Nat)
    (raw pos : Nat) (hraw : raw ≠ 0) (t : TouchReads) (ht : tp_get_reads rx pos = .ok t) :
    ili9341_tp_get H drv caps rx raw pos =
      .ok ({ x := t.x, y := t.y, z := if t.result < 0 then t.result else t.z }, t.pos) := by
  unfold ili9341_tp_get
  rw [if_pos hraw, ht]

theorem reading_congr (rx rx' : Nat → Nat) (type p : Nat) (h : ∀ q, p < q → rx' q = rx q) :
    reading rx' type p = reading rx type p := by
  unfold reading ili9341_tp_command spi_ll_transfer
  simp only []
  rw [h (p + 1) (by omega), h (p + 1 + 1) (by omega)]

theorem stableRound_congr (rx rx' : Nat → Nat) (type s p : Nat) (h : ∀ q, p ≤ q → rx' q = rx q) :
    StableRound rx' type s p ↔ StableRound rx type s p := by
  have hr : ∀ j, reading rx' type (p + 3 * j) = reading rx type (p + 3 * j) := fun j =>
    reading_congr rx rx' type _ (fun q hq => h q (by omega))
  unfold StableRound
  simp only [hr]

/-- The value and position returned by `ili9341_tp_read` do not depend on the bytes received
before bus position `pos + 3`, that is, on the reply to the first (dummy) query. -/
theorem tp_read_congr (rx rx' : Nat → Nat) (type : Nat) (samples : Int) (pos : Nat)
    (h : ∀ q, pos + 3 ≤ q → rx' q = rx q) :
    ili9341_tp_read rx' type samples pos = ili9341_tp_read rx type samples pos := by
  obtain ⟨r, a, b, hrun⟩ := tp_read_spec rx type samples pos
  obtain ⟨r', a', b', hrun'⟩ := tp_read_spec rx' type samples pos
  have hread : ∀ k, reading rx' type (pos + 3 + k) = reading rx type (pos + 3 + k) := fun k =>
    reading_congr rx rx' type _ (fun q hq => h q (by omega))
  have hstab : ∀ k, StableRound rx' type (clampSamples samples) (pos + 3 + k) ↔
      StableRound rx type (clampSamples samples) (pos + 3 + k) := fun k =>
    stableRound_congr rx rx' type _ _ (fun q hq => h q (by omega))
  have hr : r' = r := by
    rcases Nat.lt_trichotomy r' r with hlt | heq | hgt
    · exfalso
      have h1 := hrun.earlier_unstable r' hlt
      rcases hrun'.stable_or_last with h2 | h2
      · exact h1 ((hstab _).mp h2)
      · have := hrun.round_lt
        omega
    · exact heq
    · exfalso
      have h1 := hrun'.earlier_unstable r hgt
      rcases hrun.stable_or_last with h2 | h2
      · exact h1 ((hstab _).mpr h2)
      · have := hrun'.round_lt
        omega
  subst hr
  rw [hrun.run, hrun'.run]
  have hshift : ∀ j, pos + 3 + 3 * clampSamples samples * r' + 3 * j =
      pos + 3 + (3 * clampSamples samples * r' + 3 * j) := fun j => by omega
  have hread' : ∀ j, reading rx' type (pos + 3 + 3 * clampSamples samples * r' + 3 * j) =
      reading rx type (pos + 3 + 3 * clampSamples samples * r' + 3 * j) := by
    intro j
    rw [hshift]
    exact hread _
  have hlo : reading rx' type (pos + 3 + 3 * clampSamples samples * r' + 3 * a') =
      reading rx type (pos + 3 + 3 * clampSamples samples * r' + 3 * a) := by
    apply le_antisymm
    · have := hrun'.lo_lb a hrun.lo_lt
      rwa [hread' a] at this
    · have := hrun.lo_lb a' hrun'.lo_lt
      rwa [← hread' a'] at this
  have hhi : reading rx' type (pos + 3 + 3 * clampSamples samples * r' + 3 * b') =
      reading rx type (pos + 3 + 3 * clampSamples samples * r' + 3 * b) := by
    apply le_antisymm
    · have := hrun.hi_ub b' hrun'.hi_lt
      rwa [← hread' b'] at this
    · have := hrun'.hi_ub b hrun.hi_lt
      rwa [hread' b] at this
  have hval : readValue rx' type (clampSamples samples) (pos + 3 + 3 * clampSamples samples * r') a' b'
      = readValue rx type (clampSamples samples) (pos + 3 + 3 * clampSamples samples * r') a b := by
    unfold readValue
    rw [hlo, hhi, Finset.sum_congr rfl (fun j _ => hread' j)]
    have h0 := hread' 0
    simp only [Nat.mul_zero, Nat.add_zero] at h0
    rw [h0]
  rw [hval]

/-! ## Facts about calibration and scaling -/

theorem tdiv_mono (a b d : Int) (hd : 0 < d) (hab : a ≤ b) : Int.tdiv a d ≤ Int.tdiv b d := by
  have hneg : ∀ c : Int, c < 0 → Int.tdiv c d = -((-c) / d) := by
    intro c hc
    have h1 : Int.tdiv (-c) d = (-c) / d := Int.tdiv_eq_ediv (by omega) (by omega)
    have h2 := Int.neg_tdiv c d
    omega
  by_cases ha : 0 ≤ a
  · rw [Int.tdiv_eq_ediv ha (by omega), Int.tdiv_eq_ediv (by omega) (by omega)]
    exact Int.ediv_le_ediv hd hab
  · by_cases hb : 0 ≤ b
    · have h1 : 0 ≤ Int.tdiv b d := Int.tdiv_nonneg hb (by omega)
      have h2 : 0 ≤ (-a) / d := Int.ediv_nonneg (by omega) (by omega)
      rw [hneg a (by omega)]
      omega
    · rw [hneg a (by omega), hneg b (by omega)]
      have := Int.ediv_le_ediv hd (show -b ≤ -a by omega)
      omega

theorem clampTo_eq_max_min (hi v : Int) (h : 0 ≤ hi) : clampTo hi v = max 0 (min hi v) := by
  unfold clampTo
  simp only []
  rcases le_total v 0 with h1 | h1 <;> rcases le_total v hi with h2 | h2 <;>
    simp only [max_def, min_def] <;> split_ifs <;> omega

theorem clampTo_mono (hi v w : Int) (hvw : v ≤ w) : clampTo hi v ≤ clampTo hi w := by
  unfold clampTo
  simp only []
  split_ifs <;> omega

theorem natCast_shiftRight16 (N : Nat) : ((N : Int) >>> (16 : Int)) = ((N / 65536 : Nat) : Int) := by
  have h := Int.shiftRight_coe_nat N 16
  simp only [Nat.cast_ofNat] at h
  rw [h]
  simp [Nat.shiftRight_eq_div_pow]

/-- Packing two 14-bit values as `(a << 16) | b` and unpacking as in source lines 385-388. -/
theorem cal_unpack (a b : Nat) (ha : a < 16384) (hb : b < 16384) :
    (((((a <<< 16) ||| b : Nat) : Int) >>> (16 : Int)) % 16384 = (a : Int)) ∧
      ((((a <<< 16) ||| b : Nat) : Int) % 16384 = (b : Int)) := by
  have hor : (a <<< 16) ||| b = 65536 * a + b := by
    rw [Nat.shiftLeft_eq, Nat.mul_comm]
    exact (Nat.mul_add_lt_is_or (show b < 2 ^ 16 by omega) a).symm
  rw [hor, natCast_shiftRight16]
  constructor <;> omega

/-- Properties of the scaling of one axis: explicit clamp formula, monotone, end values. -/
theorem scale_axis (lo hi : Int) (span top : Int) (hspan : 0 < span) (htop : 0 ≤ top)
    (hlh : lo < hi) :
    (∀ r : Int, clampTo top (Int.tdiv ((r - lo) * span) (hi - lo)) =
        max 0 (min top (Int.tdiv ((r - lo) * span) (hi - lo)))) ∧
      (∀ r1 r2 : Int, r1 ≤ r2 →
        clampTo top (Int.tdiv ((r1 - lo) * span) (hi - lo)) ≤
          clampTo top (Int.tdiv ((r2 - lo) * span) (hi - lo))) ∧
      (∀ r : Int, r ≤ lo → clampTo top (Int.tdiv ((r - lo) * span) (hi - lo)) = 0) ∧
      (∀ r : Int, hi ≤ r → top < span →
        clampTo top (Int.tdiv ((r - lo) * span) (hi - lo)) = top) := by
  have hd : 0 < hi - lo := by omega
  refine ⟨fun r => clampTo_eq_max_min _ _ htop, ?_, ?_, ?_⟩
  · intro r1 r2 h12
    apply clampTo_mono
    apply tdiv_mono _ _ _ hd
    exact Int.mul_le_mul_of_nonneg_right (by omega) (by omega)
  · intro r hr
    have h1 : (r - lo) * span ≤ 0 := Int.mul_nonpos_of_nonpos_of_nonneg (by omega) (by omega)
    have h2 := tdiv_mono _ _ _ hd h1
    rw [Int.zero_tdiv] at h2
    unfold clampTo
    simp only []
    split_ifs <;> omega
  · intro r hr hts
    have h1 : (hi - lo) * span ≤ (r - lo) * span :=
      Int.mul_le_mul_of_nonneg_right (by omega) (by omega)
    have h2 := tdiv_mono _ _ _ hd h1
    rw [Int.mul_tdiv_cancel_left _ (by omega)] at h2
    unfold clampTo
    simp only []
    split_ifs <;> omega

/-! ## Facts about orientation and the command list -/

theorem or_and_eval (a b c : Nat) : (a ||| b) &&& c = (a &&& c) ||| (b &&& c) := by
  rw [Nat.and_comm, Nat.and_or_distrib_left, Nat.and_comm c a, Nat.and_comm c b]

/-- The MADCTL byte chosen by the `switch` of `ili9341_set_orientation` for orientation `o`. -/
theorem set_orientation_trace (H : Header) (m : Nat) (mach : Machine) :
    (ili9341_set_orientation H m mach).1.trace =
      mach.trace ++ [Op.gdisplay_ll_command H.ST7735_MADCTL,
        Op.gdisplay_ll_data
          [if m % 4 = H.PORTRAIT then (H.ST7735_MADCTL_MX ||| H.ST7735_MADCTL_BGR) % 256
           else if m % 4 = H.LANDSCAPE then (H.ST7735_MADCTL_MV ||| H.ST7735_MADCTL_BGR) % 256
           else if m % 4 = H.PORTRAIT_FLIP then (H.ST7735_MADCTL_MY ||| H.ST7735_MADCTL_BGR) % 256
           else if m % 4 = H.LANDSCAPE_FLIP then
             (H.ST7735_MADCTL_MX ||| H.ST7735_MADCTL_MY ||| H.ST7735_MADCTL_MV |||
               H.ST7735_MADCTL_BGR) % 256
           else 0]] ∧
      (ili9341_set_orientation H m mach).1.caps.width =
        (if m % 2 = 1 then H.ILI9341_HEIGHT else H.ILI9341_WIDTH) ∧
      (ili9341_set_orientation H m mach).1.caps.height =
        (if m % 2 = 1 then H.ILI9341_WIDTH else H.ILI9341_HEIGHT) := by
  have h3 : m &&& 3 = m % 4 := Nat.and_pow_two_sub_one_eq_mod m 2
  have h1 : m % 4 &&& 1 = m % 2 := by
    rw [Nat.and_one_is_mod]
    omega
  unfold ili9341_set_orientation
  simp only [h3, h1]
  refine ⟨trivial, ?_, ?_⟩
  · by_cases h : m % 2 = 1
    · have : m % 2 ≠ 0 := by omega
      simp [h]
    · have : m % 2 = 0 := by omega
      simp [this]
  · by_cases h : m % 2 = 1
    · have : m % 2 ≠ 0 := by omega
      simp [h]
    · have : m % 2 = 0 := by omega
      simp [this]

/-- A count below 16 has no bit in common with a flag that avoids the four low bits. -/
theorem small_and_flag (d c : Nat) (hd : d &&& 15 = 0) (hc : c < 16) : c &&& d = 0 := by
  have h1 : c &&& 15 = c := Nat.and_pow_two_sub_one_of_lt_two_pow (n := 4) hc
  rw [← h1, Nat.and_assoc, Nat.and_comm 15 d, hd, Nat.and_zero]

/-! ## Claims -/

/-- C1. Outlier removal of the touch sampler: for a requested count `n` with `3 ≤ n ≤ 18` the call
returns, for the round `r` whose readings are in the window at exit (the first stable round, or
the tenth), the sum of that window minus its minimum `lo` minus its maximum `hi`, divided by
`n - 2` with truncation; all window entries are 12-bit values. Hence, when the window is `lo`, `hi`
and `n - 2` other readings `rest` in some order, the value is the truncated mean of `rest`. -/
theorem tp_read_trimmed_mean (rx : Nat → Nat) (type : Nat) (n : Int) (pos : Nat)
    (h3 : 3 ≤ n) (h18 : n ≤ 18) :
    ∃ r w lo hi, r < 10 ∧ w = window rx type n.toNat (pos + 3 + 3 * n.toNat * r) ∧
      (StableRound rx type n.toNat (pos + 3 + 3 * n.toNat * r) ∨ r = 9) ∧
      (∀ r', r' < r → ¬ StableRound rx type n.toNat (pos + 3 + 3 * n.toNat * r')) ∧
      w.length = n.toNat ∧ (∀ v ∈ w, v ≤ 4095) ∧
      lo ∈ w ∧ (∀ v ∈ w, lo ≤ v) ∧ hi ∈ w ∧ (∀ v ∈ w, v ≤ hi) ∧
      ili9341_tp_read rx type n pos =
        .ok (Int.tdiv ((w.sum : Int) - (lo : Int) - (hi : Int)) (n - 2),
          pos + 3 + 3 * n.toNat * (r + 1)) ∧
      ∀ rest, List.Perm w (lo :: hi :: rest) →
        ili9341_tp_read rx type n pos =
          .ok (Int.tdiv (rest.sum : Int) (n - 2), pos + 3 + 3 * n.toNat * (r + 1)) := by
  obtain ⟨r, a, b, h⟩ := tp_read_spec rx type n pos
  have hs := clampSamples_mid n h3 h18
  have hrun := h.run
  have hlo := h.lo_lb
  have hhi := h.hi_ub
  have hst := h.stable_or_last
  have hbe := h.earlier_unstable
  have ha := h.lo_lt
  have hb := h.hi_lt
  rw [hs] at hrun hlo hhi hst hbe ha hb
  have hval : readValue rx type n.toNat (pos + 3 + 3 * n.toNat * r) a b =
      Int.tdiv (((window rx type n.toNat (pos + 3 + 3 * n.toNat * r)).sum : Nat)
        - (reading rx type (pos + 3 + 3 * n.toNat * r + 3 * a) : Int)
        - (reading rx type (pos + 3 + 3 * n.toNat * r + 3 * b) : Int)) (n - 2) := by
    unfold readValue
    rw [if_pos (by omega), window_sum, Int.toNat_of_nonneg (by omega)]
  have hpos : pos + 3 + 3 * n.toNat * r + 3 * n.toNat = pos + 3 + 3 * n.toNat * (r + 1) := by ring
  rw [hval, hpos] at hrun
  refine ⟨r, _, _, _, h.round_lt, rfl, hst, hbe, window_length _ _ _ _, ?_, ?_, ?_, ?_, ?_, hrun, ?_⟩
  · intro v hv
    obtain ⟨j, _, rfl⟩ := (mem_window _ _ _ _ _).mp hv
    exact reading_le _ _ _
  · exact (mem_window _ _ _ _ _).mpr ⟨a, ha, rfl⟩
  · intro v hv
    obtain ⟨j, hj, rfl⟩ := (mem_window _ _ _ _ _).mp hv
    exact hlo j hj
  · exact (mem_window _ _ _ _ _).mpr ⟨b, hb, rfl⟩
  · intro v hv
    obtain ⟨j, hj, rfl⟩ := (mem_window _ _ _ _ _).mp hv
    exact hhi j hj
  · intro rest hperm
    rw [hrun]
    have hsum := hperm.sum_eq
    simp only [List.sum_cons] at hsum
    rw [hsum]
    have hrest : ∀ x y z : Nat, ((x + (y + z) : Nat) : Int) - (x : Int) - (y : Int) = (z : Int) := by
      intro x y z
      push_cast
      omega
    rw [hrest]

theorem tp_read_trimmed_mean_witness :
    (3 : Int) ≤ 10 ∧ (10 : Int) ≤ 18 ∧
      ili9341_tp_read (streamOf [7, 1000, 1001, 90, 1002, 1003, 4020, 1004, 1005, 1006, 1007,
        1000, 1001, 990, 1002, 1003, 1020, 1004, 1005, 1006, 1007]) 0xD0 10 0 = .ok (1003, 63) ∧
      ∃ r w lo hi, r < 10 ∧
        w = window (streamOf [7, 1000, 1001, 990, 1002, 1003, 1020, 1004, 1005, 1006, 1007])
          0xD0 (10 : Int).toNat (0 + 3 + 3 * (10 : Int).toNat * r) ∧
        ili9341_tp_read (streamOf [7, 1000, 1001, 990, 1002, 1003, 1020, 1004, 1005, 1006, 1007])
            0xD0 10 0 =
          .ok (Int.tdiv ((w.sum : Int) - (lo : Int) - (hi : Int)) (10 - 2),
            0 + 3 + 3 * (10 : Int).toNat * (r + 1)) := by
  refine ⟨by decide, by decide, by decide, ?_⟩
  obtain ⟨r, w, lo, hi, h1, h2, _, _, _, _, _, _, _, _, h3, _⟩ :=
    tp_read_trimmed_mean (streamOf [7, 1000, 1001, 990, 1002, 1003, 1020, 1004, 1005, 1006, 1007])
      0xD0 10 0 (by decide) (by decide)
  exact ⟨r, w, lo, hi, h1, h2, h3⟩

/-- C2. Pressure gate: in raw and in scaled mode alike, when the pressure-channel read
(selector 0xB0, 3 samples) yields a value `v ≤ 50`, `ili9341_tp_get` returns `(0, 0, 0)` right
after that read, whatever the rest of the bus stream, the calibration and the orientation are. -/
theorem tp_get_pressure_gate (H : Header) (drv : Driver) (caps : Caps) (rx : Nat → Nat)
    (raw pos : Nat) (v : Int) (p : Nat)
    (hread : ili9341_tp_read rx 0xB0 3 pos = .ok (v, p)) (hv : v ≤ 50) :
    ili9341_tp_get H drv caps rx raw pos = .ok ({ x := 0, y := 0, z := 0 }, p) := by
  obtain ⟨v0, p0, h0, h0a, _, hlow, _⟩ := tp_get_reads_spec rx pos
  rw [hread] at h0
  obtain ⟨hv0, hp0⟩ := Prod.mk.inj (Except.ok.inj h0)
  subst hv0 hp0
  have hreads := hlow hv
  by_cases hraw : raw = 0
  · subst hraw
    rw [tp_get_scaled_of_reads H drv caps rx pos _ hreads]
    simp only [hv, if_true]
  · unfold ili9341_tp_get
    rw [if_pos hraw, hreads]
    have : ¬ (v < 0) := by omega
    simp only [this, if_false]

theorem tp_get_pressure_gate_witness :
    ili9341_tp_read (streamOf [0, 37, 40, 35]) 0xB0 3 0 = .ok (37, 12) ∧ (37 : Int) ≤ 50 ∧
      ili9341_tp_get sampleHeader (ili9341_tp_set_cal Driver.initial 0x01000F00 0x01000F00)
        (sampleCaps 0) (streamOf [0, 37, 40, 35]) 1 0 = .ok ({ x := 0, y := 0, z := 0 }, 12) :=
  ⟨by decide, by decide,
    tp_get_pressure_gate sampleHeader (ili9341_tp_set_cal Driver.initial 0x01000F00 0x01000F00)
      (sampleCaps 0) (streamOf [0, 37, 40, 35]) 1 0 37 12 (by decide) (by decide)⟩

/-- C3. Degenerate calibration: after `ili9341_tp_set_cal calx caly` with unpacked bounds
`xright = xleft` or `ybottom = ytop`, every scaled (non-raw) read returns `x = 0`, `y = 0`, `z = 0`;
the call returns normally, so no division with a zero divisor is evaluated. -/
theorem tp_get_degenerate_calibration (H : Header) (drv : Driver) (caps : Caps) (rx : Nat → Nat)
    (pos : Nat) (calx caly : Int)
    (hdeg : cal_xright (ili9341_tp_set_cal drv calx caly) = cal_xleft (ili9341_tp_set_cal drv calx caly) ∨
      cal_ybottom (ili9341_tp_set_cal drv calx caly) = cal_ytop (ili9341_tp_set_cal drv calx caly)) :
    (∃ p, ili9341_tp_get H (ili9341_tp_set_cal drv calx caly) caps rx 0 pos =
        .ok ({ x := 0, y := 0, z := 0 }, p)) ∧
      ili9341_tp_get H (ili9341_tp_set_cal drv calx caly) caps rx 0 pos ≠ .error .divisionByZero := by
  have hex : ∃ p, ili9341_tp_get H (ili9341_tp_set_cal drv calx caly) caps rx 0 pos =
      .ok ({ x := 0, y := 0, z := 0 }, p) := by
    obtain ⟨v0, p0, _, _, _, hlow, hhigh⟩ := tp_get_reads_spec rx pos
    have hcal : ¬ (cal_xright (ili9341_tp_set_cal drv calx caly)
          - cal_xleft (ili9341_tp_set_cal drv calx caly) ≠ 0 ∧
        cal_ybottom (ili9341_tp_set_cal drv calx caly)
          - cal_ytop (ili9341_tp_set_cal drv calx caly) ≠ 0) := by
      rcases hdeg with h | h
      · rw [h]
        simp
      · rw [h]
        simp
    by_cases h50 : v0 ≤ 50
    · refine ⟨p0, ?_⟩
      rw [tp_get_scaled_of_reads H _ caps rx pos _ (hlow h50)]
      simp only [h50, if_true]
    · obtain ⟨v1, p1, v2, p2, _, _, _, _, _, _, hreads⟩ := hhigh (by omega)
      refine ⟨p2, ?_⟩
      rw [tp_get_scaled_of_reads H _ caps rx pos _ hreads]
      simp only [hcal, if_false, ite_self]
  refine ⟨hex, ?_⟩
  obtain ⟨p, hp⟩ := hex
  rw [hp]
  exact fun h => Except.noConfusion h

theorem tp_get_degenerate_calibration_witness :
    (cal_xright (ili9341_tp_set_cal Driver.initial 0x01230123 0x01000F00) =
        cal_xleft (ili9341_tp_set_cal Driver.initial 0x01230123 0x01000F00) ∨
      cal_ybottom (ili9341_tp_set_cal Driver.initial 0x01230123 0x01000F00) =
        cal_ytop (ili9341_tp_set_cal Driver.initial 0x01230123 0x01000F00)) ∧
    ((∃ p, ili9341_tp_get sampleHeader (ili9341_tp_set_cal Driver.initial 0x01230123 0x01000F00)
        (sampleCaps 1) (constStream 2000) 0 0 = .ok ({ x := 0, y := 0, z := 0 }, p)) ∧
      ili9341_tp_get sampleHeader (ili9341_tp_set_cal Driver.initial 0x01230123 0x01000F00)
        (sampleCaps 1) (constStream 2000) 0 0 ≠ .error .divisionByZero) :=
  ⟨by decide,
    tp_get_degenerate_calibration sampleHeader Driver.initial (sampleCaps 1) (constStream 2000) 0
      0x01230123 0x01000F00 (by decide)⟩

/-- C4 as stated fails: in PORTRAIT, with calibration bounds 0..4095 on both axes and a panel that
answers 4000 on every channel, the scaled read returns `y = 312`, outside `0..239`. -/
theorem tp_get_range_counterexample :
    ili9341_tp_get sampleHeader (ili9341_tp_set_cal Driver.initial 4095 4095) (sampleCaps 0)
        (constStream 4000) 0 0 = .ok ({ x := 5, y := 312, z := 0 }, 78) ∧
      (sampleCaps 0).orient = sampleHeader.PORTRAIT ∧
      cal_xright (ili9341_tp_set_cal Driver.initial 4095 4095)
        - cal_xleft (ili9341_tp_set_cal Driver.initial 4095 4095) ≠ 0 ∧
      cal_ybottom (ili9341_tp_set_cal Driver.initial 4095 4095)
        - cal_ytop (ili9341_tp_set_cal Driver.initial 4095 4095) ≠ 0 ∧
      ¬ ((312 : Int) ≤ 239) := by
  decide

/-- C4 amended. For every header, calibration, orientation code and bus stream the scaled
(non-raw) read returns a point with `0 ≤ x ≤ 239` and `0 ≤ y ≤ 319` when the orientation is
PORTRAIT or PORTRAIT_FLIP, and with `0 ≤ x ≤ 319` and `0 ≤ y ≤ 239` otherwise (LANDSCAPE,
LANDSCAPE_FLIP): the clamp to `[0,319] × [0,239]` comes before the remap, which swaps the axes in
the two portrait orientations. -/
theorem tp_get_range_by_orientation (H : Header) (drv : Driver) (caps : Caps) (rx : Nat → Nat)
    (pos : Nat) :
    ∃ t p, ili9341_tp_get H drv caps rx 0 pos = .ok (t, p) ∧
      ((caps.orient = H.PORTRAIT ∨ caps.orient = H.PORTRAIT_FLIP) →
        0 ≤ t.x ∧ t.x ≤ 239 ∧ 0 ≤ t.y ∧ t.y ≤ 319) ∧
      (¬ (caps.orient = H.PORTRAIT ∨ caps.orient = H.PORTRAIT_FLIP) →
        0 ≤ t.x ∧ t.x ≤ 319 ∧ 0 ≤ t.y ∧ t.y ≤ 239) := by
  have hzero : ∀ p : Nat, ∃ t p', (Except.ok (({ x := 0, y := 0, z := 0 } : TouchPoint), p) :
        Except Fault (TouchPoint × Nat)) = .ok (t, p') ∧
      ((caps.orient = H.PORTRAIT ∨ caps.orient = H.PORTRAIT_FLIP) →
        0 ≤ t.x ∧ t.x ≤ 239 ∧ 0 ≤ t.y ∧ t.y ≤ 319) ∧
      (¬ (caps.orient = H.PORTRAIT ∨ caps.orient = H.PORTRAIT_FLIP) →
        0 ≤ t.x ∧ t.x ≤ 319 ∧ 0 ≤ t.y ∧ t.y ≤ 239) := by
    intro p
    exact ⟨_, _, rfl, fun _ => by simp, fun _ => by simp⟩
  obtain ⟨v0, p0, _, _, _, hlow, hhigh⟩ := tp_get_reads_spec rx pos
  by_cases h50 : v0 ≤ 50
  · rw [tp_get_scaled_of_reads H drv caps rx pos _ (hlow h50)]
    simp only [h50, if_true]
    exact hzero p0
  · obtain ⟨v1, p1, v2, p2, _, _, _, _, _, _, hreads⟩ := hhigh (by omega)
    rw [tp_get_scaled_of_reads H drv caps rx pos _ hreads]
    simp only []
    by_cases hy50 : v2 ≤ 50
    · rw [if_pos hy50]
      exact hzero p2
    · rw [if_neg hy50]
      by_cases hcal : cal_xright drv - cal_xleft drv ≠ 0 ∧ cal_ybottom drv - cal_ytop drv ≠ 0
      · rw [if_pos hcal]
        obtain ⟨hx0, hx1⟩ := clampTo_bounds 319
          (Int.tdiv ((v1 - cal_xleft drv) * 320) (cal_xright drv - cal_xleft drv)) (by omega)
        obtain ⟨hy0, hy1⟩ := clampTo_bounds 239
          (Int.tdiv ((v2 - cal_ytop drv) * 240) (cal_ybottom drv - cal_ytop drv)) (by omega)
        refine ⟨_, _, rfl, ?_, ?_⟩
        · intro hor
          unfold tp_remap scaleX scaleY
          rcases hor with h | h
          · rw [if_pos h]
            simp only []
            omega
          · by_cases hp : caps.orient = H.PORTRAIT
            · rw [if_pos hp]
              simp only []
              omega
            · rw [if_neg hp, if_pos h]
              simp only []
              omega
        · intro hor
          have hp : ¬ caps.orient = H.PORTRAIT := fun h => hor (Or.inl h)
          have hpf : ¬ caps.orient = H.PORTRAIT_FLIP := fun h => hor (Or.inr h)
          unfold tp_remap scaleX scaleY
          rw [if_neg hp, if_neg hpf]
          split_ifs
          · simp only []
            omega
          · simp only []
            omega
      · rw [if_neg hcal]
        exact hzero p2

/-- C5. The claim's own example shows the defect of source line 378, which tests `result` after
the Y read has overwritten the pressure. In PORTRAIT with calibration bounds 0..4095 (valid),
pressure 1000, raw X reading 100 and raw Y reading 50, the scaled call returns `(0, 0, 0)` where
the claim gives the remap `(240 - sy - 1, sx) = (237, 7)` of the scaled point; the raw path
returns `(100, 50, 1000)` for the same read-out, so the panel counts as pressed there; and an X
reading of 40, also not above 50, is not zeroed (LANDSCAPE, Y reading 2000: `(3, 117, 0)`). -/
theorem tp_get_remap_zeroed_by_y_reading :
    ili9341_tp_read (touchStream 1000 100 50) 0xB0 3 0 = .ok (1000, 12) ∧
      ili9341_tp_read (touchStream 1000 100 50) 0xD0 10 12 = .ok (100, 45) ∧
      ili9341_tp_read (touchStream 1000 100 50) 0x90 10 45 = .ok (50, 78) ∧
      (sampleCaps 0).orient = sampleHeader.PORTRAIT ∧
      cal_xright (ili9341_tp_set_cal Driver.initial 4095 4095)
        - cal_xleft (ili9341_tp_set_cal Driver.initial 4095 4095) ≠ 0 ∧
      cal_ybottom (ili9341_tp_set_cal Driver.initial 4095 4095)
        - cal_ytop (ili9341_tp_set_cal Driver.initial 4095 4095) ≠ 0 ∧
      ili9341_tp_get sampleHeader (ili9341_tp_set_cal Driver.initial 4095 4095) (sampleCaps 0)
        (touchStream 1000 100 50) 0 0 = .ok ({ x := 0, y := 0, z := 0 }, 78) ∧
      240 - scaleY (ili9341_tp_set_cal Driver.initial 4095 4095) 50 - 1 = 237 ∧
      scaleX (ili9341_tp_set_cal Driver.initial 4095 4095) 100 = 7 ∧
      ili9341_tp_get sampleHeader (ili9341_tp_set_cal Driver.initial 4095 4095) (sampleCaps 0)
        (touchStream 1000 100 50) 1 0 = .ok ({ x := 100, y := 50, z := 1000 }, 78) ∧
      ili9341_tp_read (touchStream 1000 40 2000) 0xD0 10 12 = .ok (40, 45) ∧
      ili9341_tp_get sampleHeader (ili9341_tp_set_cal Driver.initial 4095 4095) (sampleCaps 1)
        (touchStream 1000 40 2000) 0 0 = .ok ({ x := 3, y := 117, z := 0 }, 78) := by
  decide

/-- Where the zeroing branch of source line 378 is not taken (pressure and Y-channel reading both
above 50) and the calibration is valid, the returned point is the orientation remap of the
calibration-scaled and clamped point `(sx, sy)`: PORTRAIT gives `(240 - sy - 1, sx)`, PORTRAIT_FLIP
gives `(sy, 320 - sx - 1)`, LANDSCAPE_FLIP gives `(320 - sx - 1, 240 - sy - 1)`, LANDSCAPE gives
`(sx, sy)`; 240 and 320 are literals, whatever logical size the capabilities record holds. -/
theorem tp_get_remap_not_zeroed (H : Header) (hH : H.DistinctOrientations) (drv : Driver) (caps : Caps)
    (rx : Nat → Nat) (pos : Nat) (vz vx vy : Int) (p0 p1 p2 : Nat)
    (hz : ili9341_tp_read rx 0xB0 3 pos = .ok (vz, p0)) (hpress : 50 < vz)
    (hx : ili9341_tp_read rx 0xD0 10 p0 = .ok (vx, p1))
    (hy : ili9341_tp_read rx 0x90 10 p1 = .ok (vy, p2)) (hy50 : 50 < vy)
    (hcal : cal_xright drv - cal_xleft drv ≠ 0 ∧ cal_ybottom drv - cal_ytop drv ≠ 0) :
    (caps.orient = H.PORTRAIT →
      ili9341_tp_get H drv caps rx 0 pos =
        .ok ({ x := 240 - scaleY drv vy - 1, y := scaleX drv vx, z := 0 }, p2)) ∧
    (caps.orient = H.PORTRAIT_FLIP →
      ili9341_tp_get H drv caps rx 0 pos =
        .ok ({ x := scaleY drv vy, y := 320 - scaleX drv vx - 1, z := 0 }, p2)) ∧
    (caps.orient = H.LANDSCAPE_FLIP →
      ili9341_tp_get H drv caps rx 0 pos =
        .ok ({ x := 320 - scaleX drv vx - 1, y := 240 - scaleY drv vy - 1, z := 0 }, p2)) ∧
    (caps.orient = H.LANDSCAPE →
      ili9341_tp_get H drv caps rx 0 pos =
        .ok ({ x := scaleX drv vx, y := scaleY drv vy, z := 0 }, p2)) := by
  obtain ⟨v0, q0, h0, _, _, _, hhigh⟩ := tp_get_reads_spec rx pos
  rw [hz] at h0
  obtain ⟨e1, e2⟩ := Prod.mk.inj (Except.ok.inj h0)
  subst e1 e2
  obtain ⟨v1, q1, v2, q2, h1, _, _, h2, _, _, hreads⟩ := hhigh hpress
  rw [hx] at h1
  obtain ⟨e3, e4⟩ := Prod.mk.inj (Except.ok.inj h1)
  subst e3 e4
  rw [hy] at h2
  obtain ⟨e5, e6⟩ := Prod.mk.inj (Except.ok.inj h2)
  subst e5 e6
  have hn50 : ¬ (vy ≤ 50) := by omega
  have hget := tp_get_scaled_of_reads H drv caps rx pos _ hreads
  simp only [hn50, if_false, hcal, ne_eq, not_false_eq_true, and_self, if_true] at hget
  obtain ⟨d1, d2, d3, d4, d5, d6⟩ := hH
  rw [hget]
  refine ⟨?_, ?_, ?_, ?_⟩
  · intro h
    simp [tp_remap, h]
  · intro h
    have : ¬ (H.PORTRAIT_FLIP = H.PORTRAIT) := fun e => d2 e.symm
    simp [tp_remap, h, this]
  · intro h
    have a1 : ¬ (H.LANDSCAPE_FLIP = H.PORTRAIT) := fun e => d3 e.symm
    have a2 : ¬ (H.LANDSCAPE_FLIP = H.PORTRAIT_FLIP) := fun e => d6 e.symm
    simp [tp_remap, h, a1, a2]
  · intro h
    have a1 : ¬ (H.LANDSCAPE = H.PORTRAIT) := fun e => d1 e.symm
    simp [tp_remap, h, a1, d4, d5]

theorem tp_get_remap_not_zeroed_witness :
    sampleHeader.DistinctOrientations ∧
      ili9341_tp_get sampleHeader (ili9341_tp_set_cal Driver.initial 4095 4095) (sampleCaps 0)
        (touchStream 1000 100 60) 0 0 = .ok ({ x := 236, y := 7, z := 0 }, 78) ∧
      ((sampleCaps 0).orient = sampleHeader.PORTRAIT →
        ili9341_tp_get sampleHeader (ili9341_tp_set_cal Driver.initial 4095 4095) (sampleCaps 0)
          (touchStream 1000 100 60) 0 0 =
        .ok ({ x := 240 - scaleY (ili9341_tp_set_cal Driver.initial 4095 4095) 60 - 1,
               y := scaleX (ili9341_tp_set_cal Driver.initial 4095 4095) 100, z := 0 }, 78)) :=
  ⟨by decide, by decide,
    (tp_get_remap_not_zeroed sampleHeader (by decide) (ili9341_tp_set_cal Driver.initial 4095 4095)
      (sampleCaps 0) (touchStream 1000 100 60) 0 1000 100 60 12 45 78 (by decide) (by decide)
      (by decide) (by decide) (by decide) (by decide)).1⟩

/-- C6 as stated fails: in a build with a reset pin, when every request is granted except the lock
of the reset pin, `ili9341_init` returns the lock error after `gpio_pin_output` on the command pin
has been issued. -/
theorem init_claim_failure_counterexample :
    (ili9341_init sampleHeader sampleBuild (sampleOutcomes false) 1 0
        { caps := sampleCaps 0, drv := Driver.initial, trace := [] }).2 = some .lock_error ∧
    (ili9341_init sampleHeader sampleBuild (sampleOutcomes false) 1 0
        { caps := sampleCaps 0, drv := Driver.initial, trace := [] }).1.trace =
      [Op.spi_setup 2 5 48000000 false, Op.driver_lock .SPI_DRIVER 0, Op.driver_lock .GPIO_DRIVER 26,
        Op.gpio_pin_output 26, Op.driver_lock .GPIO_DRIVER 27] ∧
    (Op.gpio_pin_output 26).isClaim = false := by
  decide

/-- Operations issued when some claim request is refused: besides claim requests, at most
`gpio_pin_output` on the command pin (only with the command-pin lock granted) and
`gpio_pin_output` / `gpio_ll_pin_clr` on the reset pin (the latter only with the reset-pin lock
granted): no controller command, reset pulse or delay. When the refused request is a bus setup,
the display-bus lock or the command-pin lock, only claim requests were issued. -/
theorem claim_failure_ops (H : Header) (B : Build) (env : Outcomes) (chip orientation : Nat)
    (caps : Caps) (drv : Driver) (hfail : SomeClaimFails B env caps) :
    ((initRun H B env chip orientation caps drv).2 = some .spi_setup_error ∨
        (initRun H B env chip orientation caps drv).2 = some .lock_error) ∧
      (∀ op ∈ (initRun H B env chip orientation caps drv).1.trace,
        op.isClaim = true ∨ op = .gpio_pin_output B.GDISPLAY_CMD ∨
          op = .gpio_pin_output B.GDISPLAY_RESET ∨ op = .gpio_ll_pin_clr B.GDISPLAY_RESET) ∧
      (Op.gpio_pin_output B.GDISPLAY_CMD ∈ (initRun H B env chip orientation caps drv).1.trace →
        env.lock_cmd_pin = true) ∧
      (Op.gpio_ll_pin_clr B.GDISPLAY_RESET ∈ (initRun H B env chip orientation caps drv).1.trace →
        env.lock_reset_pin = true) ∧
      (EarlyClaimFails B env caps →
        ∀ op ∈ (initRun H B env chip orientation caps drv).1.trace, op.isClaim = true) := by
  have hsplit : init_acquire H B env chip =
      (init_acquire H B env chip).take 5 ++ (init_acquire H B env chip).drop 5 :=
    (List.take_append_drop 5 _).symm
  obtain ⟨hE1, hE2, hE3⟩ := acquire_early H B env chip caps drv
  have hrun : initRun H B env chip orientation caps drv =
      match block ((init_acquire H B env chip).take 5 ++ (init_acquire H B env chip).drop 5)
          { caps := caps, drv := drv, trace := [] } with
      | (m1, none) => block (init_bring_up H B env orientation) m1
      | (m1, some e) => (m1, some e) := by
    unfold initRun ili9341_init
    rw [block_append, ← hsplit]
  rw [block_append] at hrun
  rcases hE : block ((init_acquire H B env chip).take 5) { caps := caps, drv := drv, trace := [] }
    with ⟨m1, _ | e⟩
  · -- the first five statements succeed: the refused request is a later lock
    rw [hE] at hrun hE1 hE2 hE3
    simp only at hrun hE1 hE2
    have hne : ¬ EarlyClaimFails B env caps := by
      intro h
      rcases hE2 h with h' | h' <;> exact absurd h' (by simp)
    have hlate : (B.GDISPLAY_RESET ≠ -1 ∧ env.lock_reset_pin = false) ∨
        (B.GDISPLAY_TP_SPI ≠ -1 ∧ env.lock_touch_spi = false) := by
      unfold SomeClaimFails at hfail
      unfold EarlyClaimFails at hne
      tauto
    have hcmd : env.lock_cmd_pin = true := by
      unfold EarlyClaimFails at hne
      cases h : env.lock_cmd_pin
      · exact absurd (Or.inr (Or.inr (Or.inr h))) hne
      · rfl
    obtain ⟨hL1, hL2, hL3⟩ := acquire_late H B env chip m1 hE1
    have hL3' := hL3 hlate
    rcases hL : block ((init_acquire H B env chip).drop 5) m1 with ⟨m2, _ | e⟩
    · rw [hL] at hL3'
      exact absurd hL3' (by simp)
    · rw [hL] at hrun hL1 hL2 hL3'
      simp only at hrun hL1 hL2 hL3'
      rw [hrun]
      exact ⟨Or.inr hL3', hL1, fun _ => hcmd, hL2, fun h => absurd h hne⟩
  · -- one of the first five statements returns an error
    rw [hE] at hrun hE1 hE2 hE3
    simp only at hrun hE1 hE2 hE3
    rw [hrun]
    have hearly : EarlyClaimFails B env caps := by
      by_contra h
      exact absurd (hE3 h) (by simp)
    have hnot : ∀ op : Op, op.isClaim = false → op ∈ m1.trace → False := by
      intro op h1 h2
      have := hE1 op h2
      rw [h1] at this
      exact absurd this (by simp)
    refine ⟨hE2 hearly, fun op hop => Or.inl (hE1 op hop), ?_, ?_, fun _ => hE1⟩
    · intro h
      exact (hnot (Op.gpio_pin_output B.GDISPLAY_CMD) rfl h).elim
    · intro h
      exact (hnot (Op.gpio_ll_pin_clr B.GDISPLAY_RESET) rfl h).elim

/-- C6 amended. In every build and for every outcome in which some claim request is refused, the
claim requests in program order split into those granted (`done`), the first refused one (`req`)
and the rest; `ili9341_init` returns the error of `req` (the bus set-up error for a bus set-up, the
lock error for a `driver_lock`), and the operations issued are exactly each granted request
followed by its own set-up, then `req` last. Every set-up operation is `gpio_pin_output` or
`gpio_ll_pin_clr` on the pin that its request locks, so a pin operation is issued only right
after the granted lock of that same pin, and no controller command, reset pulse, command list or
delay is issued. When the refused request is a bus setup, the display-bus lock or the command-pin
lock, only claim requests were issued. -/
theorem init_claim_failure (H : Header) (B : Build) (env : Outcomes) (chip orientation : Nat)
    (caps : Caps) (drv : Driver) (hfail : SomeClaimFails B env caps) :
    (∃ (done : List ClaimStep) (req : Op) (setup : List Op) (rest : List ClaimStep),
      claimPlan B env caps = done ++ { request := req, granted := false, setup := setup } :: rest ∧
      (∀ s ∈ done, s.granted = true) ∧
      (initRun H B env chip orientation caps drv).2 = some (refusalError req) ∧
      (initRun H B env chip orientation caps drv).1.trace =
        (done.map fun s => s.request :: s.setup).flatten ++ [req]) ∧
      (∀ s ∈ claimPlan B env caps, s.request.isClaim = true ∧
        ∀ op ∈ s.setup, ∃ pin, s.request = .driver_lock .GPIO_DRIVER pin ∧
          (op = .gpio_pin_output pin ∨ op = .gpio_ll_pin_clr pin)) ∧
      ((initRun H B env chip orientation caps drv).2 = some .spi_setup_error ∨
        (initRun H B env chip orientation caps drv).2 = some .lock_error) ∧
      (∀ op ∈ (initRun H B env chip orientation caps drv).1.trace,
        op.isClaim = true ∨ op = .gpio_pin_output B.GDISPLAY_CMD ∨
          op = .gpio_pin_output B.GDISPLAY_RESET ∨ op = .gpio_ll_pin_clr B.GDISPLAY_RESET) ∧
      (Op.gpio_pin_output B.GDISPLAY_CMD ∈ (initRun H B env chip orientation caps drv).1.trace →
        env.lock_cmd_pin = true) ∧
      (Op.gpio_ll_pin_clr B.GDISPLAY_RESET ∈ (initRun H B env chip orientation caps drv).1.trace →
        env.lock_reset_pin = true) ∧
      (EarlyClaimFails B env caps →
        ∀ op ∈ (initRun H B env chip orientation caps drv).1.trace, op.isClaim = true) := by
  refine ⟨?_, claimPlan_setup B env caps,
    claim_failure_ops H B env chip orientation caps drv hfail⟩
  obtain ⟨s, hs, hg⟩ := claim_fails_mem B env caps hfail
  obtain ⟨e, he⟩ := issue_refused_of_mem _ s hs hg
  obtain ⟨done, req, setup, rest, hp, hdone, hreq, ht⟩ := issue_refused_split _ e he
  obtain ⟨hA1, hA2⟩ := acquire_run H B env chip caps drv
  have hrun : initRun H B env chip orientation caps drv =
      block (init_acquire H B env chip) { caps := caps, drv := drv, trace := [] } := by
    unfold initRun ili9341_init
    rw [block_append]
    rcases hE : block (init_acquire H B env chip) { caps := caps, drv := drv, trace := [] }
      with ⟨m1, _ | e1⟩
    · rw [hE] at hA2
      rw [he] at hA2
      cases hA2
    · rfl
  rw [hrun, hA1, hA2, he, ht, hreq]
  exact ⟨done, req, setup, rest, hp, hdone, rfl, rfl⟩

theorem init_claim_failure_witness :
    SomeClaimFails sampleBuild (sampleOutcomes false) (sampleCaps 0) ∧
      ∃ (done : List ClaimStep) (req : Op) (setup : List Op) (rest : List ClaimStep),
        claimPlan sampleBuild (sampleOutcomes false) (sampleCaps 0) =
          done ++ { request := req, granted := false, setup := setup } :: rest ∧
        (∀ s ∈ done, s.granted = true) ∧
        (initRun sampleHeader sampleBuild (sampleOutcomes false) 1 0 (sampleCaps 0)
          Driver.initial).2 = some (refusalError req) ∧
        (initRun sampleHeader sampleBuild (sampleOutcomes false) 1 0 (sampleCaps 0)
          Driver.initial).1.trace = (done.map fun s => s.request :: s.setup).flatten ++ [req] :=
  ⟨Or.inr (Or.inr (Or.inr (Or.inr (Or.inl ⟨by decide, rfl⟩)))),
    (init_claim_failure sampleHeader sampleBuild (sampleOutcomes false) 1 0 (sampleCaps 0)
      Driver.initial (Or.inr (Or.inr (Or.inr (Or.inr (Or.inl ⟨by decide, rfl⟩)))))).1⟩

/-- C7. Invalid ADC configuration: with the defaults applied (max 0 becomes 3900, resolution 0
becomes 12), `adc_internal_setup` returns the invalid-max error exactly when max is below 0 or
above 3900, otherwise the invalid-resolution error exactly when the resolution is not 9, 10, 11
or 12, otherwise the vref error exactly when vref is not 0; each of these three errors is returned
with no lock, attenuation, width or characterisation call issued; the only other error of the
function is the refusal of the pin lock, requested after the three checks have passed. -/
theorem adc_setup_invalid_config (P : Pins) (vrefConfig : Int) (granted : Bool) (chan : adc_chann_t) :
    ((adc_internal_setup P vrefConfig granted chan).error = some .ADC_ERR_INVALID_MAX ↔
        (adcMax chan < 0 ∨ adcMax chan > 3900)) ∧
      ((adc_internal_setup P vrefConfig granted chan).error = some .ADC_ERR_INVALID_RESOLUTION ↔
        (¬ (adcMax chan < 0 ∨ adcMax chan > 3900) ∧
          adcResolution chan ≠ 9 ∧ adcResolution chan ≠ 10 ∧ adcResolution chan ≠ 11 ∧
          adcResolution chan ≠ 12)) ∧
      ((adc_internal_setup P vrefConfig granted chan).error = some .ADC_ERR_VREF_SET_NOT_ALLOWED ↔
        (¬ (adcMax chan < 0 ∨ adcMax chan > 3900) ∧
          ¬ (adcResolution chan ≠ 9 ∧ adcResolution chan ≠ 10 ∧ adcResolution chan ≠ 11 ∧
            adcResolution chan ≠ 12) ∧ chan.vref ≠ 0)) ∧
      (((adc_internal_setup P vrefConfig granted chan).error = some .ADC_ERR_INVALID_MAX ∨
          (adc_internal_setup P vrefConfig granted chan).error = some .ADC_ERR_INVALID_RESOLUTION ∨
          (adc_internal_setup P vrefConfig granted chan).error = some .ADC_ERR_VREF_SET_NOT_ALLOWED) →
        (adc_internal_setup P vrefConfig granted chan).trace = []) ∧
      ((adc_internal_setup P vrefConfig granted chan).error ≠ none ↔
        ((adcMax chan < 0 ∨ adcMax chan > 3900) ∨
          (adcResolution chan ≠ 9 ∧ adcResolution chan ≠ 10 ∧ adcResolution chan ≠ 11 ∧
            adcResolution chan ≠ 12) ∨ chan.vref ≠ 0 ∨ granted = false)) ∧
      (adc_internal_setup P vrefConfig granted chan).chan.max = adcMax chan ∧
      (adc_internal_setup P vrefConfig granted chan).chan.resolution = adcResolution chan := by
  unfold adc_internal_setup adcMax adcResolution
  by_cases hm0 : chan.max = 0 <;> by_cases hr0 : chan.resolution = 0 <;>
    simp only [hm0, hr0, if_true, if_false] <;>
    by_cases h1 : chan.max < 0 ∨ chan.max > 3900 <;>
    by_cases h2 : chan.resolution ≠ 9 ∧ chan.resolution ≠ 10 ∧ chan.resolution ≠ 11 ∧
      chan.resolution ≠ 12 <;>
    by_cases h3 : chan.vref ≠ 0 <;>
    cases granted <;>
    simp [hm0, hr0, h1, h2, h3, adc_lock_resources]

/-- C8. Attenuation and width selection: for every configuration that passes validation, with the
pin lock granted, `adc_internal_setup` succeeds and issues, after the lock request, the attenuation
call, the width call with `resolution - 9` (a value in `0..3`) and the characterisation call with
the same attenuation and width; the attenuation is 0 dB for max up to 1100, 2.5 dB up to 1500,
6 dB up to 2200 and 11 dB above; max 3900 with resolution 12, also when reached from the defaults,
gives 11 dB and width 3. -/
theorem adc_setup_attenuation (P : Pins) (vrefConfig : Int) (chan : adc_chann_t)
    (hmax : 0 ≤ adcMax chan ∧ adcMax chan ≤ 3900)
    (hres : adcResolution chan = 9 ∨ adcResolution chan = 10 ∨ adcResolution chan = 11 ∨
      adcResolution chan = 12)
    (hvref : chan.vref = 0) :
    ∃ atten pin, (adc_internal_setup P vrefConfig true chan).error = none ∧
      (adc_internal_setup P vrefConfig true chan).trace =
        [AdcOp.driver_lock (toI8 chan.channel) pin,
          AdcOp.adc1_config_channel_atten chan.channel atten,
          AdcOp.adc1_config_width (adcResolution chan - 9),
          AdcOp.esp_adc_cal_get_characteristics vrefConfig atten (adcResolution chan - 9)] ++
        (if chan.setup = 0 then [AdcOp.syslog chan.unit pin atten (adcResolution chan)] else []) ∧
      0 ≤ adcResolution chan - 9 ∧ adcResolution chan - 9 ≤ 3 ∧
      (adcMax chan ≤ 1100 → atten = .ADC_ATTEN_0db) ∧
      (1100 < adcMax chan → adcMax chan ≤ 1500 → atten = .ADC_ATTEN_2_5db) ∧
      (1500 < adcMax chan → adcMax chan ≤ 2200 → atten = .ADC_ATTEN_6db) ∧
      (2200 < adcMax chan → atten = .ADC_ATTEN_11db) ∧
      ((chan.max = 3900 ∨ chan.max = 0) → (chan.resolution = 12 ∨ chan.resolution = 0) →
        atten = .ADC_ATTEN_11db ∧ adcResolution chan - 9 = 3) := by
  have hrun : adc_internal_setup P vrefConfig true chan =
      { chan := { chan with max := adcMax chan, resolution := adcResolution chan },
        trace :=
          [AdcOp.driver_lock (toI8 chan.channel) (adc_pins P (toI8 chan.channel) 0),
            AdcOp.adc1_config_channel_atten chan.channel
              (if adcMax chan ≤ 1100 then .ADC_ATTEN_0db
               else if adcMax chan ≤ 1500 then .ADC_ATTEN_2_5db
               else if adcMax chan ≤ 2200 then .ADC_ATTEN_6db else .ADC_ATTEN_11db),
            AdcOp.adc1_config_width (adcResolution chan - 9),
            AdcOp.esp_adc_cal_get_characteristics vrefConfig
              (if adcMax chan ≤ 1100 then .ADC_ATTEN_0db
               else if adcMax chan ≤ 1500 then .ADC_ATTEN_2_5db
               else if adcMax chan ≤ 2200 then .ADC_ATTEN_6db else .ADC_ATTEN_11db)
              (adcResolution chan - 9)] ++
          (if chan.setup = 0 then
            [AdcOp.syslog chan.unit (adc_pins P (toI8 chan.channel) 0)
              (if adcMax chan ≤ 1100 then .ADC_ATTEN_0db
               else if adcMax chan ≤ 1500 then .ADC_ATTEN_2_5db
               else if adcMax chan ≤ 2200 then .ADC_ATTEN_6db else .ADC_ATTEN_11db)
              (adcResolution chan)]
          else []),
        error := none } := by
    obtain ⟨u, c, mx, rs, vr, su⟩ := chan
    simp only at hvref
    subst hvref
    unfold adcMax at hmax ⊢
    unfold adcResolution at hres ⊢
    unfold adc_internal_setup
    simp only at hmax hres ⊢
    by_cases hm0 : mx = 0 <;> by_cases hr0 : rs = 0 <;>
      simp only [hm0, hr0, if_true, if_false] at hmax hres ⊢ <;>
      by_cases hs : su = 0 <;>
      (have hv1 : ¬ (mx < 0 ∨ mx > 3900) := by omega) <;>
      (have hv2 : rs = 0 ∨ ¬ (rs ≠ 9 ∧ rs ≠ 10 ∧ rs ≠ 11 ∧ rs ≠ 12) := by omega) <;>
      rcases hv2 with hv2 | hv2 <;>
      simp [hm0, hr0, hs, hv1, hv2, adc_lock_resources] at hr0 ⊢
  have hw : 0 ≤ adcResolution chan - 9 ∧ adcResolution chan - 9 ≤ 3 := by omega
  refine ⟨_, _, by rw [hrun], by rw [hrun], hw.1, hw.2, ?_, ?_, ?_, ?_, ?_⟩
  · intro h
    rw [if_pos h]
  · intro h1 h2
    rw [if_neg (by omega), if_pos h2]
  · intro h1 h2
    rw [if_neg (by omega), if_neg (by omega), if_pos h2]
  · intro h1
    rw [if_neg (by omega), if_neg (by omega), if_neg (by omega)]
  · intro h1 h2
    have hm : adcMax chan = 3900 := by
      unfold adcMax
      rcases h1 with h | h <;> simp [h]
    have hr : adcResolution chan = 12 := by
      unfold adcResolution
      rcases h2 with h | h <;> simp [h]
    rw [hm, hr]
    exact ⟨by decide, by decide⟩

theorem adc_setup_attenuation_witness :
    (0 ≤ adcMax (sampleChan 3900 12 0) ∧ adcMax (sampleChan 3900 12 0) ≤ 3900) ∧
      (sampleChan 3900 12 0).vref = 0 ∧
      adc_internal_setup samplePins 1100 true (sampleChan 3900 12 0) =
        { chan := sampleChan 3900 12 0,
          trace := [AdcOp.driver_lock 6 34, AdcOp.adc1_config_channel_atten 6 .ADC_ATTEN_11db,
            AdcOp.adc1_config_width 3,
            AdcOp.esp_adc_cal_get_characteristics 1100 .ADC_ATTEN_11db 3,
            AdcOp.syslog 1 34 .ADC_ATTEN_11db 12],
          error := none } ∧
      adc_internal_setup samplePins 1100 true (sampleChan 0 0 0) =
        { chan := sampleChan 3900 12 0,
          trace := [AdcOp.driver_lock 6 34, AdcOp.adc1_config_channel_atten 6 .ADC_ATTEN_11db,
            AdcOp.adc1_config_width 3,
            AdcOp.esp_adc_cal_get_characteristics 1100 .ADC_ATTEN_11db 3,
            AdcOp.syslog 1 34 .ADC_ATTEN_11db 12],
          error := none } ∧
      ∃ atten pin, (adc_internal_setup samplePins 1100 true (sampleChan 3900 12 0)).error = none ∧
        (adc_internal_setup samplePins 1100 true (sampleChan 3900 12 0)).trace =
          [AdcOp.driver_lock (toI8 (sampleChan 3900 12 0).channel) pin,
            AdcOp.adc1_config_channel_atten (sampleChan 3900 12 0).channel atten,
            AdcOp.adc1_config_width (adcResolution (sampleChan 3900 12 0) - 9),
            AdcOp.esp_adc_cal_get_characteristics 1100 atten
              (adcResolution (sampleChan 3900 12 0) - 9)] ++
          (if (sampleChan 3900 12 0).setup = 0 then
            [AdcOp.syslog (sampleChan 3900 12 0).unit pin atten (adcResolution (sampleChan 3900 12 0))]
          else []) := by
  refine ⟨by decide, by decide, by decide, by decide, ?_⟩
  obtain ⟨atten, pin, h1, h2, _⟩ :=
    adc_setup_attenuation samplePins 1100 (sampleChan 3900 12 0) (by decide) (by decide) (by decide)
  exact ⟨atten, pin, h1, h2⟩

/-- C9. Orientation modulo 4: for every `m`, `ili9341_set_orientation m` leaves exactly the state
and issues exactly the calls (the MADCTL command and its data byte) of
`ili9341_set_orientation (m mod 4)`; it never fails; the logical size stored is
`(ILI9341_HEIGHT, ILI9341_WIDTH)` for odd orientations and `(ILI9341_WIDTH, ILI9341_HEIGHT)` for
even ones, so the two families have width and height swapped, and `xstart = ystart = 0` always. -/
theorem set_orientation_mod_four (H : Header) (m : Nat) (mach : Machine) :
    ili9341_set_orientation H m mach = ili9341_set_orientation H (m % 4) mach ∧
      (ili9341_set_orientation H m mach).2 = none ∧
      (m % 2 = 1 →
        (ili9341_set_orientation H m mach).1.caps.width = H.ILI9341_HEIGHT ∧
        (ili9341_set_orientation H m mach).1.caps.height = H.ILI9341_WIDTH) ∧
      (m % 2 = 0 →
        (ili9341_set_orientation H m mach).1.caps.width = H.ILI9341_WIDTH ∧
        (ili9341_set_orientation H m mach).1.caps.height = H.ILI9341_HEIGHT) ∧
      (ili9341_set_orientation H m mach).1.caps.xstart = 0 ∧
      (ili9341_set_orientation H m mach).1.caps.ystart = 0 ∧
      (∃ madctl, (ili9341_set_orientation H m mach).1.trace =
        mach.trace ++ [Op.gdisplay_ll_command H.ST7735_MADCTL, Op.gdisplay_ll_data [madctl]]) := by
  have h3 : ∀ x : Nat, x &&& 3 = x % 4 := fun x => Nat.and_pow_two_sub_one_eq_mod x 2
  have h1 : ∀ x : Nat, x &&& 1 = x % 2 := fun x => Nat.and_pow_two_sub_one_eq_mod x 1
  have hmm : m % 4 % 4 = m % 4 := Nat.mod_mod _ _
  have hm2 : m % 4 % 2 = m % 2 := by omega
  unfold ili9341_set_orientation
  simp only [h3, h1, hmm, hm2]
  refine ⟨trivial, trivial, ?_, ?_, ?_, ?_, ⟨_, rfl⟩⟩
  · intro h
    have : m % 2 ≠ 0 := by omega
    simp [this]
  · intro h
    simp [h]
  · split_ifs <;> rfl
  · split_ifs <;> rfl

/-- C10. Sample-count clamp of the touch sampler: with `s` equal to 1 when the requested count is
below 3, to 18 when it is above 18 and to the requested count otherwise, every round issues exactly
`s` queries and writes exactly the cells `0 .. s-1` of the 18-cell window; the call never faults
(so no access to the window is out of range or reads a cell never written), it ends after
`r + 1 ≤ 10` rounds of `s` queries, and for a requested count below 3 it returns the single
reading collected, unfiltered. -/
theorem tp_read_sample_count (rx : Nat → Nat) (type : Nat) (samples : Int) (pos : Nat) :
    ∃ (s r : Nat) (v : Int), (samples < 3 → s = 1) ∧ (18 < samples → s = 18) ∧
      (3 ≤ samples → samples ≤ 18 → (s : Int) = samples) ∧ s ≤ 18 ∧
      (∀ st : Sampler, ∃ st', collect rx type (s : Int) ((s : Int).toNat + 1) 0 st = .ok st' ∧
        st'.pos = st.pos + 3 * s ∧
        (∀ j, j < s → st'.vbuf j = some (reading rx type (st.pos + 3 * j))) ∧
        ∀ j, s ≤ j → st'.vbuf j = st.vbuf j) ∧
      r < 10 ∧
      (StableRound rx type s (pos + 3 + 3 * s * r) ∨ r = 9) ∧
      (∀ r', r' < r → ¬ StableRound rx type s (pos + 3 + 3 * s * r')) ∧
      ili9341_tp_read rx type samples pos = .ok (v, pos + 3 + 3 * s * (r + 1)) ∧
      (∀ fault, ili9341_tp_read rx type samples pos ≠ .error fault) ∧
      (samples < 3 → r = 0 ∧ v = (reading rx type (pos + 3) : Int)) := by
  obtain ⟨r, a, b, h⟩ := tp_read_spec rx type samples pos
  have hcases := clampSamples_cases samples
  have hrun := h.run
  have hpos : pos + 3 + 3 * clampSamples samples * r + 3 * clampSamples samples =
      pos + 3 + 3 * clampSamples samples * (r + 1) := by ring
  rw [hpos] at hrun
  have hr0 : clampSamples samples = 1 → r = 0 := by
    intro h1
    by_contra hne
    apply h.earlier_unstable 0 (by omega)
    intro j k hj hk
    have hj0 : j = 0 := by omega
    have hk0 : k = 0 := by omega
    subst hj0 hk0
    omega
  refine ⟨clampSamples samples, r, _, ?_, ?_, ?_, by omega, ?_, h.round_lt, h.stable_or_last,
    h.earlier_unstable, hrun, fun fault hf => by rw [hrun] at hf; exact Except.noConfusion hf, ?_⟩
  · intro hlt
    unfold clampSamples
    rw [if_pos hlt]
  · intro hgt
    unfold clampSamples
    rw [if_neg (by omega), if_pos (by omega)]
  · intro h3 h18
    rw [clampSamples_mid samples h3 h18]
    omega
  · intro st
    obtain ⟨st', hrun', hc⟩ := collect_spec rx type (clampSamples samples) (by omega)
      (clampSamples samples) (clampSamples samples + 1) 0 st (by omega) (by omega)
    refine ⟨st', by rw [Int.toNat_ofNat]; exact hrun', hc.pos_eq, ?_, ?_⟩
    · intro j hj
      have := hc.cells j hj
      rwa [Nat.zero_add] at this
    · intro j hj
      exact hc.above j (by omega)
  · intro hlt
    have h1 : clampSamples samples = 1 := by
      unfold clampSamples
      rw [if_pos hlt]
    have hr := hr0 h1
    refine ⟨hr, ?_⟩
    unfold readValue
    rw [h1, hr, if_neg (by omega)]

/-- C11. Stability gate and retry bound of the touch sampler, with `s` readings per round: the
reply to the first query is discarded (the result does not depend on the bytes received before
bus position `pos + 3`); rounds of `s` readings follow; the round `r` whose readings are used is
the first of at most ten whose spread `hi - lo` (maximum minus minimum of the round) is below 40,
or the tenth when every earlier round has spread 40 or more; the call ends after `r + 1 ≤ 10`
rounds, that is `1 + s * (r + 1) ≤ 1 + 10 * s` queries; the value is computed from the window of
round `r`. -/
theorem tp_read_stability_gate (rx : Nat → Nat) (type : Nat) (samples : Int) (pos : Nat) :
    ∃ (r : Nat) (w : List Nat) (lo hi : Nat) (v : Int), r < 10 ∧
      w = window rx type (clampSamples samples) (pos + 3 + 3 * clampSamples samples * r) ∧
      lo ∈ w ∧ (∀ x ∈ w, lo ≤ x) ∧ hi ∈ w ∧ (∀ x ∈ w, x ≤ hi) ∧
      (hi - lo < 40 ∨ r = 9) ∧
      (∀ r', r' < r → ∀ lo' hi',
        lo' ∈ window rx type (clampSamples samples) (pos + 3 + 3 * clampSamples samples * r') →
        (∀ x ∈ window rx type (clampSamples samples) (pos + 3 + 3 * clampSamples samples * r'),
          lo' ≤ x) →
        hi' ∈ window rx type (clampSamples samples) (pos + 3 + 3 * clampSamples samples * r') →
        (∀ x ∈ window rx type (clampSamples samples) (pos + 3 + 3 * clampSamples samples * r'),
          x ≤ hi') →
        40 ≤ hi' - lo') ∧
      ili9341_tp_read rx type samples pos =
        .ok (v, pos + 3 * (1 + clampSamples samples * (r + 1))) ∧
      1 + clampSamples samples * (r + 1) ≤ 1 + 10 * clampSamples samples ∧
      v = (if 2 < clampSamples samples then
            Int.tdiv ((w.sum : Int) - (lo : Int) - (hi : Int)) ((clampSamples samples : Int) - 2)
          else (w.headD 0 : Int)) ∧
      ∀ rx' : Nat → Nat, (∀ q, pos + 3 ≤ q → rx' q = rx q) →
        ili9341_tp_read rx' type samples pos = ili9341_tp_read rx type samples pos := by
  obtain ⟨r, a, b, h⟩ := tp_read_spec rx type samples pos
  have hcases := clampSamples_cases samples
  have hlt := h.round_lt
  generalize hs : clampSamples samples = s at h hcases ⊢
  have hrun := h.run
  rw [hs] at hrun
  have hpos : pos + 3 + 3 * s * r + 3 * s = pos + 3 * (1 + s * (r + 1)) := by ring
  rw [hpos] at hrun
  have ha := h.lo_lt
  have hb := h.hi_lt
  have hlo := h.lo_lb
  have hhi := h.hi_ub
  have hst := h.stable_or_last
  have hbe := h.earlier_unstable
  rw [hs] at ha hb hlo hhi hst hbe
  refine ⟨r, _, reading rx type (pos + 3 + 3 * s * r + 3 * a),
    reading rx type (pos + 3 + 3 * s * r + 3 * b), _, hlt, rfl, ?_, ?_, ?_, ?_, ?_, ?_, hrun, ?_,
    ?_, fun rx' hrx' => tp_read_congr rx rx' type samples pos hrx'⟩
  · exact (mem_window _ _ _ _ _).mpr ⟨a, ha, rfl⟩
  · intro x hx
    obtain ⟨j, hj, rfl⟩ := (mem_window _ _ _ _ _).mp hx
    exact hlo j hj
  · exact (mem_window _ _ _ _ _).mpr ⟨b, hb, rfl⟩
  · intro x hx
    obtain ⟨j, hj, rfl⟩ := (mem_window _ _ _ _ _).mp hx
    exact hhi j hj
  · rcases hst with h1 | h1
    · left
      have := h1 b a hb ha
      omega
    · exact Or.inr h1
  · intro r' hr' lo' hi' hlo1 hlo2 hhi1 hhi2
    have hns := hbe r' hr'
    unfold StableRound at hns
    push_neg at hns
    obtain ⟨j, k, hj, hk, hjk⟩ := hns
    have h1 := hlo2 _ ((mem_window _ _ _ _ _).mpr ⟨k, hk, rfl⟩)
    have h2 := hhi2 _ ((mem_window _ _ _ _ _).mpr ⟨j, hj, rfl⟩)
    omega
  · have : s * (r + 1) ≤ s * 10 := Nat.mul_le_mul_left s (by omega)
    omega
  · unfold readValue
    by_cases h2 : 2 < s
    · rw [if_pos h2, if_pos h2, window_sum]
    · rw [if_neg h2, if_neg h2]
      have hs1 : s = 1 := by omega
      subst hs1
      have hw : window rx type 1 (pos + 3 + 3 * 1 * r) = [reading rx type (pos + 3 + 3 * 1 * r)] := by
        simp [window, List.range_succ]
      rw [hw]
      rfl

/-- C12. Raw-mode read-out: with `raw ≠ 0` the pressure read returns some `vz`, and when
`vz > 50` the reads of channel 0xD0 (10 samples) and channel 0x90 (10 samples) return some `vx`
and `vy` and the call returns `x = vx`, `y = vy`, `z = vz` unchanged: it is not scaled, clamped or
remapped, and the result is the same for every calibration and every capabilities record
(orientation). -/
theorem tp_get_raw (H : Header) (drv : Driver) (caps : Caps) (rx : Nat → Nat) (raw pos : Nat)
    (hraw : raw ≠ 0) :
    ∃ vz p0, ili9341_tp_read rx 0xB0 3 pos = .ok (vz, p0) ∧
      (50 < vz → ∃ vx p1 vy p2,
        ili9341_tp_read rx 0xD0 10 p0 = .ok (vx, p1) ∧
        ili9341_tp_read rx 0x90 10 p1 = .ok (vy, p2) ∧
        ili9341_tp_get H drv caps rx raw pos = .ok ({ x := vx, y := vy, z := vz }, p2) ∧
        ∀ (drv' : Driver) (caps' : Caps),
          ili9341_tp_get H drv' caps' rx raw pos = ili9341_tp_get H drv caps rx raw pos) := by
  obtain ⟨vz, p0, hz, _, _, _, hhigh⟩ := tp_get_reads_spec rx pos
  refine ⟨vz, p0, hz, fun hpress => ?_⟩
  obtain ⟨vx, p1, vy, p2, hx, _, _, hy, hy0, _, hreads⟩ := hhigh hpress
  have hres : ∀ (d : Driver) (c : Caps),
      ili9341_tp_get H d c rx raw pos = .ok ({ x := vx, y := vy, z := vz }, p2) := by
    intro d c
    rw [tp_get_raw_of_reads H d c rx raw pos hraw _ hreads]
    simp only []
    rw [if_neg (by omega)]
  exact ⟨vx, p1, vy, p2, hx, hy, hres drv caps, fun d c => by rw [hres d c, hres drv caps]⟩

theorem tp_get_raw_witness :
    (1 : Nat) ≠ 0 ∧
      ili9341_tp_get sampleHeader (ili9341_tp_set_cal Driver.initial 4095 4095) (sampleCaps 0)
        (touchStream 1000 4000 3000) 1 0 = .ok ({ x := 4000, y := 3000, z := 1000 }, 78) ∧
      ∃ vz p0, ili9341_tp_read (touchStream 1000 4000 3000) 0xB0 3 0 = .ok (vz, p0) ∧
        (50 < vz → ∃ vx p1 vy p2,
          ili9341_tp_read (touchStream 1000 4000 3000) 0xD0 10 p0 = .ok (vx, p1) ∧
          ili9341_tp_read (touchStream 1000 4000 3000) 0x90 10 p1 = .ok (vy, p2) ∧
          ili9341_tp_get sampleHeader (ili9341_tp_set_cal Driver.initial 4095 4095) (sampleCaps 0)
            (touchStream 1000 4000 3000) 1 0 = .ok ({ x := vx, y := vy, z := vz }, p2)) := by
  refine ⟨by decide, by decide, ?_⟩
  obtain ⟨vz, p0, hz, h⟩ :=
    tp_get_raw sampleHeader (ili9341_tp_set_cal Driver.initial 4095 4095) (sampleCaps 0)
      (touchStream 1000 4000 3000) 1 0 (by decide)
  refine ⟨vz, p0, hz, fun hp => ?_⟩
  obtain ⟨vx, p1, vy, p2, hx, hy, hget, _⟩ := h hp
  exact ⟨vx, p1, vy, p2, hx, hy, hget⟩

/-- C13. Decoding `ILI9341_init` in the embedded-count format succeeds, yields exactly the 23
steps announced by the first byte, leaves no byte over, gives every step a payload of at most 15
bytes (the lengths are listed), and has a delay on exactly two steps: 200 after the first step,
whose opcode is the software reset, and 120 after the sleep-out step. The opcode and flag values
are parameters; the flag is assumed to be a non-zero byte mask above the four length bits. -/
theorem init_list_well_formed (H : Header) (O : InitOpcodes) (hO : O.DelayFlagAboveLengths) :
    ∃ steps : List CommandStep,
      (ILI9341_init H O).head? = some 23 ∧
      decodeCommandList O.DELAY (ILI9341_init H O) = some (steps, []) ∧
      steps.length = 23 ∧
      (∀ s ∈ steps, s.payload.length ≤ 15) ∧
      steps.map (fun s => s.payload.length) =
        [0, 5, 3, 3, 3, 2, 4, 1, 1, 1, 2, 1, 1, 1, 2, 3, 4, 1, 1, 15, 15, 0, 0] ∧
      steps.map (fun s => s.delayAfterMillis) =
        some 200 :: (List.replicate 20 none ++ [some 120, none]) ∧
      (∀ i s, steps[i]? = some s → (s.delayAfterMillis ≠ none ↔ i = 0 ∨ i = 21)) ∧
      (steps[0]?).map (fun s => s.opcode) = some (u8 O.ILI9341_SWRESET) ∧
      (steps[21]?).map (fun s => s.opcode) = some (u8 O.ILI9341_SLPOUT) ∧
      (steps.map (fun s => s.payload.length + 2 + (if s.delayAfterMillis = none then 0 else 1))).sum
        + 1 = (ILI9341_init H O).length := by
  obtain ⟨h0, h256, h15⟩ := hO
  have hu : u8 O.DELAY = O.DELAY := Nat.mod_eq_of_lt h256
  have f0 := small_and_flag O.DELAY 0 h15 (by omega)
  have f1 := small_and_flag O.DELAY 1 h15 (by omega)
  have f2 := small_and_flag O.DELAY 2 h15 (by omega)
  have f3 := small_and_flag O.DELAY 3 h15 (by omega)
  have f4 := small_and_flag O.DELAY 4 h15 (by omega)
  have f5 := small_and_flag O.DELAY 5 h15 (by omega)
  have f15 := small_and_flag O.DELAY 15 h15 (by omega)
  have fd : O.DELAY &&& O.DELAY = O.DELAY := Nat.and_self _
  have hne : O.DELAY ≠ 0 := by omega
  have hdec : decodeCommandList O.DELAY (ILI9341_init H O) = some (
      [ ⟨u8 O.ILI9341_SWRESET, [], some 200⟩,
        ⟨u8 O.ILI9341_POWERA, [0x39, 0x2C, 0x00, 0x34, 0x02], none⟩,
        ⟨u8 O.ILI9341_POWERB, [0x00, 0xC1, 0x30], none⟩,
        ⟨0xEF, [0x03, 0x80, 0x02], none⟩,
        ⟨u8 O.ILI9341_DTCA, [0x85, 0x00, 0x78], none⟩,
        ⟨u8 O.ILI9341_DTCB, [0x00, 0x00], none⟩,
        ⟨u8 O.ILI9341_POWER_SEQ, [0x64, 0x03, 0x12, 0x81], none⟩,
        ⟨u8 O.ILI9341_PRC, [0x20], none⟩,
        ⟨u8 O.ILI9341_PWCTR1, [0x23], none⟩,
        ⟨u8 O.ILI9341_PWCTR2, [0x10], none⟩,
        ⟨u8 O.ILI9341_VMCTR1, [0x3e, 0x28], none⟩,
        ⟨u8 O.ILI9341_VMCTR2, [0x86], none⟩,
        ⟨u8 H.ST7735_MADCTL, [0x48], none⟩,
        ⟨u8 O.ILI9341_PIXFMT, [0x55], none⟩,
        ⟨u8 O.ILI9341_FRMCTR1, [0x00, 0x18], none⟩,
        ⟨u8 O.ILI9341_DFUNCTR, [0x08, 0x82, 0x27], none⟩,
        ⟨u8 O.ST7735_PTLAR, [0x00, 0x00, 0x01, 0x3F], none⟩,
        ⟨u8 O.ILI9341_3GAMMA_EN, [0x00], none⟩,
        ⟨u8 O.ILI9341_GAMMASET, [0x01], none⟩,
        ⟨u8 O.ILI9341_GMCTRP1, [0x0F, 0x31, 0x2B, 0x0C, 0x0E, 0x08, 0x4E, 0xF1,
          0x37, 0x07, 0x10, 0x03, 0x0E, 0x09, 0x00], none⟩,
        ⟨u8 O.ILI9341_GMCTRN1, [0x00, 0x0E, 0x14, 0x03, 0x11, 0x07, 0x31, 0xC1,
          0x48, 0x08, 0x0F, 0x0C, 0x31, 0x36, 0x0F], none⟩,
        ⟨u8 O.ILI9341_SLPOUT, [], some 120⟩,
        ⟨u8 H.ST7735_DISPON, [], none⟩ ], []) := by
    simp [decodeCommandList, decodeSteps, ILI9341_init, hu, f0, f1, f2, f3, f4, f5, f15, fd, hne]
  refine ⟨_, ?_, hdec, ?_, ?_, ?_, ?_, ?_, ?_, ?_, ?_⟩
  · simp [ILI9341_init]
  · simp
  rotate_left
  · simp
  · simp [List.replicate]
  rotate_left
  · simp
  · simp
  · simp [ILI9341_init]
  · intro s hs
    simp only [List.mem_cons, List.mem_singleton, List.not_mem_nil, or_false] at hs
    rcases hs with h | h | h | h | h | h | h | h | h | h | h | h | h | h | h | h | h | h | h | h |
      h | h | h <;> subst h <;> simp
  · intro i s hs
    have hi : i < 23 := by
      rcases Nat.lt_or_ge i 23 with h | h
      · exact h
      · rw [List.getElem?_eq_none (by simpa using h)] at hs
        cases hs
    interval_cases i <;> simp at hs <;> subst hs <;> simp

theorem init_list_well_formed_witness :
    sampleOpcodes.DelayFlagAboveLengths ∧
    ∃ steps : List CommandStep,
      (ILI9341_init sampleHeader sampleOpcodes).head? = some 23 ∧
      decodeCommandList sampleOpcodes.DELAY (ILI9341_init sampleHeader sampleOpcodes) =
        some (steps, []) ∧
      steps.length = 23 ∧
      (∀ s ∈ steps, s.payload.length ≤ 15) ∧
      steps.map (fun s => s.payload.length) =
        [0, 5, 3, 3, 3, 2, 4, 1, 1, 1, 2, 1, 1, 1, 2, 3, 4, 1, 1, 15, 15, 0, 0] ∧
      steps.map (fun s => s.delayAfterMillis) =
        some 200 :: (List.replicate 20 none ++ [some 120, none]) ∧
      (∀ i s, steps[i]? = some s → (s.delayAfterMillis ≠ none ↔ i = 0 ∨ i = 21)) ∧
      (steps[0]?).map (fun s => s.opcode) = some (u8 sampleOpcodes.ILI9341_SWRESET) ∧
      (steps[21]?).map (fun s => s.opcode) = some (u8 sampleOpcodes.ILI9341_SLPOUT) ∧
      (steps.map (fun s => s.payload.length + 2 +
        (if s.delayAfterMillis = none then 0 else 1))).sum
        + 1 = (ILI9341_init sampleHeader sampleOpcodes).length :=
  ⟨by decide, init_list_well_formed sampleHeader sampleOpcodes (by decide)⟩

/-- C14. Memory-access-control bits. For header constants that are disjoint non-zero byte masks
and orientation codes 0 to 3 with the landscape codes odd, `ili9341_set_orientation m` issues,
after what was issued before, exactly the MADCTL command and one data byte, which is `MX|BGR` for
PORTRAIT, `MV|BGR` for LANDSCAPE, `MY|BGR` for PORTRAIT_FLIP and `MX|MY|MV|BGR` for LANDSCAPE_FLIP,
one of which applies to every `m`; the byte always carries the colour-order bit, the four bytes
are pairwise distinct, and `MV` is set exactly when the stored logical size is
`(ILI9341_HEIGHT, ILI9341_WIDTH)`, the swapped family (`m` odd). -/
theorem set_orientation_madctl (H : Header) (hbits : H.MadctlBits) (hcodes : H.OrientationCodes)
    (m : Nat) (mach : Machine) :
    ∃ madctl, (ili9341_set_orientation H m mach).1.trace =
        mach.trace ++ [Op.gdisplay_ll_command H.ST7735_MADCTL, Op.gdisplay_ll_data [madctl]] ∧
      (m % 4 = H.PORTRAIT → madctl = H.ST7735_MADCTL_MX ||| H.ST7735_MADCTL_BGR) ∧
      (m % 4 = H.LANDSCAPE → madctl = H.ST7735_MADCTL_MV ||| H.ST7735_MADCTL_BGR) ∧
      (m % 4 = H.PORTRAIT_FLIP → madctl = H.ST7735_MADCTL_MY ||| H.ST7735_MADCTL_BGR) ∧
      (m % 4 = H.LANDSCAPE_FLIP →
        madctl = H.ST7735_MADCTL_MX ||| H.ST7735_MADCTL_MY ||| H.ST7735_MADCTL_MV |||
          H.ST7735_MADCTL_BGR) ∧
      (m % 4 = H.PORTRAIT ∨ m % 4 = H.LANDSCAPE ∨ m % 4 = H.PORTRAIT_FLIP ∨
        m % 4 = H.LANDSCAPE_FLIP) ∧
      madctl &&& H.ST7735_MADCTL_BGR = H.ST7735_MADCTL_BGR ∧
      [H.ST7735_MADCTL_MX ||| H.ST7735_MADCTL_BGR, H.ST7735_MADCTL_MV ||| H.ST7735_MADCTL_BGR,
        H.ST7735_MADCTL_MY ||| H.ST7735_MADCTL_BGR,
        H.ST7735_MADCTL_MX ||| H.ST7735_MADCTL_MY ||| H.ST7735_MADCTL_MV |||
          H.ST7735_MADCTL_BGR].Nodup ∧
      (madctl &&& H.ST7735_MADCTL_MV ≠ 0 ↔ m % 2 = 1) ∧
      (m % 2 = 1 →
        (ili9341_set_orientation H m mach).1.caps.width = H.ILI9341_HEIGHT ∧
        (ili9341_set_orientation H m mach).1.caps.height = H.ILI9341_WIDTH) ∧
      (m % 2 = 0 →
        (ili9341_set_orientation H m mach).1.caps.width = H.ILI9341_WIDTH ∧
        (ili9341_set_orientation H m mach).1.caps.height = H.ILI9341_HEIGHT) := by
  obtain ⟨⟨px, py, pv, pb⟩, ⟨lx, ly, lv, lb⟩, xy, xv, xb, yv, yb, vb⟩ := hbits
  obtain ⟨⟨d1, d2, d3, d4, d5, d6⟩, ⟨c1, c2, c3, c4⟩, o1, o2⟩ := hcodes
  have hm4 : m % 4 < 4 := Nat.mod_lt _ (by omega)
  have e1 : H.PORTRAIT % 2 = 0 := by omega
  have e2 : H.PORTRAIT_FLIP % 2 = 0 := by omega
  have hcover : m % 4 = H.PORTRAIT ∨ m % 4 = H.LANDSCAPE ∨ m % 4 = H.PORTRAIT_FLIP ∨
      m % 4 = H.LANDSCAPE_FLIP := by omega
  have hpar : m % 2 = m % 4 % 2 := by omega
  have yx : H.ST7735_MADCTL_MY &&& H.ST7735_MADCTL_MX = 0 := by rw [Nat.and_comm]; exact xy
  have vx : H.ST7735_MADCTL_MV &&& H.ST7735_MADCTL_MX = 0 := by rw [Nat.and_comm]; exact xv
  have bx : H.ST7735_MADCTL_BGR &&& H.ST7735_MADCTL_MX = 0 := by rw [Nat.and_comm]; exact xb
  have vy : H.ST7735_MADCTL_MV &&& H.ST7735_MADCTL_MY = 0 := by rw [Nat.and_comm]; exact yv
  have bmy : H.ST7735_MADCTL_BGR &&& H.ST7735_MADCTL_MY = 0 := by rw [Nat.and_comm]; exact yb
  have bv : H.ST7735_MADCTL_BGR &&& H.ST7735_MADCTL_MV = 0 := by rw [Nat.and_comm]; exact vb
  have l1 : H.ST7735_MADCTL_MX ||| H.ST7735_MADCTL_BGR < 256 :=
    Nat.or_lt_two_pow (n := 8) lx lb
  have l2 : H.ST7735_MADCTL_MV ||| H.ST7735_MADCTL_BGR < 256 :=
    Nat.or_lt_two_pow (n := 8) lv lb
  have l3 : H.ST7735_MADCTL_MY ||| H.ST7735_MADCTL_BGR < 256 :=
    Nat.or_lt_two_pow (n := 8) ly lb
  have l4 : H.ST7735_MADCTL_MX ||| H.ST7735_MADCTL_MY ||| H.ST7735_MADCTL_MV |||
      H.ST7735_MADCTL_BGR < 256 :=
    Nat.or_lt_two_pow (n := 8) (Nat.or_lt_two_pow (n := 8) (Nat.or_lt_two_pow (n := 8) lx ly) lv) lb
  obtain ⟨htrace, hw, hh⟩ := set_orientation_trace H m mach
  rw [Nat.mod_eq_of_lt l1, Nat.mod_eq_of_lt l2, Nat.mod_eq_of_lt l3, Nat.mod_eq_of_lt l4] at htrace
  have hnodup : [H.ST7735_MADCTL_MX ||| H.ST7735_MADCTL_BGR,
      H.ST7735_MADCTL_MV ||| H.ST7735_MADCTL_BGR, H.ST7735_MADCTL_MY ||| H.ST7735_MADCTL_BGR,
      H.ST7735_MADCTL_MX ||| H.ST7735_MADCTL_MY ||| H.ST7735_MADCTL_MV |||
        H.ST7735_MADCTL_BGR].Nodup := by
    simp only [List.nodup_cons, List.mem_cons, List.mem_singleton, List.not_mem_nil, or_false,
      not_or, List.nodup_nil, and_true, not_false_eq_true]
    refine ⟨⟨?_, ?_, ?_⟩, ⟨?_, ?_⟩, ?_⟩
    · intro h
      have := congrArg (· &&& H.ST7735_MADCTL_MX) h
      simp only [or_and_eval, Nat.and_self, bx, vx, Nat.or_zero] at this
      omega
    · intro h
      have := congrArg (· &&& H.ST7735_MADCTL_MX) h
      simp only [or_and_eval, Nat.and_self, bx, yx, Nat.or_zero] at this
      omega
    · intro h
      have := congrArg (· &&& H.ST7735_MADCTL_MY) h
      simp only [or_and_eval, Nat.and_self, bmy, xy, vy, Nat.or_zero, Nat.zero_or] at this
      omega
    · intro h
      have := congrArg (· &&& H.ST7735_MADCTL_MV) h
      simp only [or_and_eval, Nat.and_self, bv, yv, Nat.or_zero] at this
      omega
    · intro h
      have := congrArg (· &&& H.ST7735_MADCTL_MX) h
      simp only [or_and_eval, Nat.and_self, bx, vx, yx, Nat.or_zero, Nat.zero_or] at this
      omega
    · intro h
      have := congrArg (· &&& H.ST7735_MADCTL_MX) h
      simp only [or_and_eval, Nat.and_self, bx, vx, yx, Nat.or_zero, Nat.zero_or] at this
      omega
  have hfam1 : m % 2 = 1 →
      (ili9341_set_orientation H m mach).1.caps.width = H.ILI9341_HEIGHT ∧
      (ili9341_set_orientation H m mach).1.caps.height = H.ILI9341_WIDTH := by
    intro h
    rw [hw, hh, if_pos h, if_pos h]
    exact ⟨rfl, rfl⟩
  have hfam0 : m % 2 = 0 →
      (ili9341_set_orientation H m mach).1.caps.width = H.ILI9341_WIDTH ∧
      (ili9341_set_orientation H m mach).1.caps.height = H.ILI9341_HEIGHT := by
    intro h
    rw [hw, hh, if_neg (by omega), if_neg (by omega)]
    exact ⟨rfl, rfl⟩
  rcases hcover with hc | hc | hc | hc
  · refine ⟨_, htrace, ?_, ?_, ?_, ?_, Or.inl hc, ?_, hnodup, ?_, hfam1, hfam0⟩
    all_goals simp only [hc, if_true]
    · exact fun _ => trivial
    · intro h
      exact absurd h d1
    · intro h
      exact absurd h d2
    · intro h
      exact absurd h d3
    · simp only [or_and_eval, Nat.and_self, xb, Nat.zero_or]
    · simp only [or_and_eval, xv, bv, Nat.or_zero]
      have : m % 2 = H.PORTRAIT % 2 := by omega
      constructor
      · intro h
        exact absurd rfl h
      · intro h
        omega
  · have n1 : H.LANDSCAPE ≠ H.PORTRAIT := Ne.symm d1
    refine ⟨_, htrace, ?_, ?_, ?_, ?_, Or.inr (Or.inl hc), ?_, hnodup, ?_, hfam1, hfam0⟩
    all_goals simp only [hc, n1, if_true, if_false]
    · intro h
      exact h.elim
    · exact fun _ => trivial
    · intro h
      exact absurd h d4
    · intro h
      exact absurd h d5
    · simp only [or_and_eval, Nat.and_self, vb, Nat.zero_or]
    · simp only [or_and_eval, Nat.and_self, bv, Nat.or_zero]
      constructor
      · intro _
        omega
      · intro _
        omega
  · have n1 : H.PORTRAIT_FLIP ≠ H.PORTRAIT := Ne.symm d2
    have n2 : H.PORTRAIT_FLIP ≠ H.LANDSCAPE := Ne.symm d4
    refine ⟨_, htrace, ?_, ?_, ?_, ?_, Or.inr (Or.inr (Or.inl hc)), ?_, hnodup, ?_, hfam1, hfam0⟩
    all_goals simp only [hc, n1, n2, if_true, if_false]
    · intro h
      exact h.elim
    · intro h
      exact h.elim
    · exact fun _ => trivial
    · intro h
      exact absurd h d6
    · simp only [or_and_eval, Nat.and_self, yb, Nat.zero_or]
    · simp only [or_and_eval, yv, bv, Nat.or_zero]
      constructor
      · intro h
        exact absurd rfl h
      · intro h
        omega
  · have n1 : H.LANDSCAPE_FLIP ≠ H.PORTRAIT := Ne.symm d3
    have n2 : H.LANDSCAPE_FLIP ≠ H.LANDSCAPE := Ne.symm d5
    have n3 : H.LANDSCAPE_FLIP ≠ H.PORTRAIT_FLIP := Ne.symm d6
    refine ⟨_, htrace, ?_, ?_, ?_, ?_, Or.inr (Or.inr (Or.inr hc)), ?_, hnodup, ?_, hfam1, hfam0⟩
    all_goals simp only [hc, n1, n2, n3, if_true, if_false]
    · intro h
      exact h.elim
    · intro h
      exact h.elim
    · intro h
      exact h.elim
    · exact fun _ => trivial
    · simp only [or_and_eval, Nat.and_self, xb, yb, vb, Nat.zero_or]
    · simp only [or_and_eval, Nat.and_self, xv, yv, bv, Nat.or_zero, Nat.zero_or]
      constructor
      · intro _
        omega
      · intro _
        omega

theorem set_orientation_madctl_witness :
    sampleHeader.MadctlBits ∧ sampleHeader.OrientationCodes ∧
      ∃ madctl,
        (ili9341_set_orientation sampleHeader 5
            { caps := sampleCaps 0, drv := Driver.initial, trace := [] }).1.trace =
          [Op.gdisplay_ll_command sampleHeader.ST7735_MADCTL, Op.gdisplay_ll_data [madctl]] ∧
        madctl = 0x28 ∧ madctl &&& sampleHeader.ST7735_MADCTL_MV ≠ 0 ∧
        (ili9341_set_orientation sampleHeader 5
            { caps := sampleCaps 0, drv := Driver.initial, trace := [] }).1.caps.width = 320 := by
  refine ⟨by decide, by decide, ?_⟩
  obtain ⟨madctl, ht, _, h2, _, _, _, _, _, hmv, hodd, _⟩ :=
    set_orientation_madctl sampleHeader (by decide) (by decide) 5
      { caps := sampleCaps 0, drv := Driver.initial, trace := [] }
  exact ⟨madctl, ht, h2 (by decide), hmv.mpr (by decide), (hodd (by decide)).1⟩

/-- C15. Calibration unpacking and scaling. After `ili9341_tp_set_cal` with `calx = (xl << 16) | xr`
and `caly = (yt << 16) | yb` for 14-bit values, source lines 385-388 read back `xl`, `xr`, `yt`,
`yb`. For `xl < xr` and `yt < yb`, a scaled read with pressure and Y reading above 50 in an
orientation without remap returns `x = clamp(((rawX - xl) * 320) / (xr - xl), 0, 319)` and
`y = clamp(((rawY - yt) * 240) / (yb - yt), 0, 239)` with truncating division; each formula is
monotone non-decreasing in the raw reading, 0 at or below the lower bound and 319 (resp. 239) at
or above the upper bound. -/
theorem tp_cal_unpack_and_scale (H : Header) (drv0 : Driver) (caps : Caps) (rx : Nat → Nat)
    (pos xl xr yt yb : Nat) (hxl : xl < 16384) (hxr : xr < 16384) (hyt : yt < 16384)
    (hyb : yb < 16384) :
    cal_xleft (ili9341_tp_set_cal drv0 (((xl <<< 16) ||| xr : Nat) : Int)
        (((yt <<< 16) ||| yb : Nat) : Int)) = (xl : Int) ∧
      cal_xright (ili9341_tp_set_cal drv0 (((xl <<< 16) ||| xr : Nat) : Int)
        (((yt <<< 16) ||| yb : Nat) : Int)) = (xr : Int) ∧
      cal_ytop (ili9341_tp_set_cal drv0 (((xl <<< 16) ||| xr : Nat) : Int)
        (((yt <<< 16) ||| yb : Nat) : Int)) = (yt : Int) ∧
      cal_ybottom (ili9341_tp_set_cal drv0 (((xl <<< 16) ||| xr : Nat) : Int)
        (((yt <<< 16) ||| yb : Nat) : Int)) = (yb : Int) ∧
      (xl < xr → yt < yb →
        (∃ (vz : Int) (p0 : Nat), ili9341_tp_read rx 0xB0 3 pos = .ok (vz, p0) ∧
          (50 < vz → ∃ (vx : Int) (p1 : Nat) (vy : Int) (p2 : Nat),
            ili9341_tp_read rx 0xD0 10 p0 = .ok (vx, p1) ∧
            ili9341_tp_read rx 0x90 10 p1 = .ok (vy, p2) ∧
            (50 < vy → caps.orient ≠ H.PORTRAIT → caps.orient ≠ H.PORTRAIT_FLIP →
              caps.orient ≠ H.LANDSCAPE_FLIP →
              ili9341_tp_get H (ili9341_tp_set_cal drv0 (((xl <<< 16) ||| xr : Nat) : Int)
                  (((yt <<< 16) ||| yb : Nat) : Int)) caps rx 0 pos =
                .ok ({ x := max 0 (min 319 (Int.tdiv ((vx - xl) * 320) ((xr : Int) - xl))),
                       y := max 0 (min 239 (Int.tdiv ((vy - yt) * 240) ((yb : Int) - yt))),
                       z := 0 }, p2)))) ∧
        (∀ r1 r2 : Int, r1 ≤ r2 →
          max 0 (min 319 (Int.tdiv ((r1 - xl) * 320) ((xr : Int) - xl))) ≤
            max 0 (min 319 (Int.tdiv ((r2 - xl) * 320) ((xr : Int) - xl)))) ∧
        (∀ r : Int, r ≤ xl → max 0 (min 319 (Int.tdiv ((r - xl) * 320) ((xr : Int) - xl))) = 0) ∧
        (∀ r : Int, (xr : Int) ≤ r →
          max 0 (min 319 (Int.tdiv ((r - xl) * 320) ((xr : Int) - xl))) = 319) ∧
        (∀ r1 r2 : Int, r1 ≤ r2 →
          max 0 (min 239 (Int.tdiv ((r1 - yt) * 240) ((yb : Int) - yt))) ≤
            max 0 (min 239 (Int.tdiv ((r2 - yt) * 240) ((yb : Int) - yt)))) ∧
        (∀ r : Int, r ≤ yt → max 0 (min 239 (Int.tdiv ((r - yt) * 240) ((yb : Int) - yt))) = 0) ∧
        (∀ r : Int, (yb : Int) ≤ r →
          max 0 (min 239 (Int.tdiv ((r - yt) * 240) ((yb : Int) - yt))) = 239)) := by
  obtain ⟨ux1, ux2⟩ := cal_unpack xl xr hxl hxr
  obtain ⟨uy1, uy2⟩ := cal_unpack yt yb hyt hyb
  have e1 : cal_xleft (ili9341_tp_set_cal drv0 (((xl <<< 16) ||| xr : Nat) : Int)
      (((yt <<< 16) ||| yb : Nat) : Int)) = (xl : Int) := ux1
  have e2 : cal_xright (ili9341_tp_set_cal drv0 (((xl <<< 16) ||| xr : Nat) : Int)
      (((yt <<< 16) ||| yb : Nat) : Int)) = (xr : Int) := ux2
  have e3 : cal_ytop (ili9341_tp_set_cal drv0 (((xl <<< 16) ||| xr : Nat) : Int)
      (((yt <<< 16) ||| yb : Nat) : Int)) = (yt : Int) := uy1
  have e4 : cal_ybottom (ili9341_tp_set_cal drv0 (((xl <<< 16) ||| xr : Nat) : Int)
      (((yt <<< 16) ||| yb : Nat) : Int)) = (yb : Int) := uy2
  refine ⟨e1, e2, e3, e4, ?_⟩
  intro hx hy
  obtain ⟨fx1, fx2, fx3, fx4⟩ := scale_axis (xl : Int) (xr : Int) 320 319 (by omega) (by omega)
    (by omega)
  obtain ⟨fy1, fy2, fy3, fy4⟩ := scale_axis (yt : Int) (yb : Int) 240 239 (by omega) (by omega)
    (by omega)
  simp only [fx1, fy1] at fx2 fx3 fx4 fy2 fy3 fy4
  refine ⟨?_, fx2, fx3, fun r hr => fx4 r hr (by omega), fy2, fy3,
    fun r hr => fy4 r hr (by omega)⟩
  obtain ⟨vz, p0, hz, _, _, _, hhigh⟩ := tp_get_reads_spec rx pos
  refine ⟨vz, p0, hz, fun hpress => ?_⟩
  obtain ⟨vx, p1, vy, p2, hxr', _, _, hyr, _, _, hreads⟩ := hhigh hpress
  refine ⟨vx, p1, vy, p2, hxr', hyr, ?_⟩
  intro hy50 ho1 ho2 ho3
  rw [tp_get_scaled_of_reads H _ caps rx pos _ hreads]
  simp only []
  have hcal : cal_xright (ili9341_tp_set_cal drv0 (((xl <<< 16) ||| xr : Nat) : Int)
        (((yt <<< 16) ||| yb : Nat) : Int))
      - cal_xleft (ili9341_tp_set_cal drv0 (((xl <<< 16) ||| xr : Nat) : Int)
        (((yt <<< 16) ||| yb : Nat) : Int)) ≠ 0 ∧
      cal_ybottom (ili9341_tp_set_cal drv0 (((xl <<< 16) ||| xr : Nat) : Int)
        (((yt <<< 16) ||| yb : Nat) : Int))
      - cal_ytop (ili9341_tp_set_cal drv0 (((xl <<< 16) ||| xr : Nat) : Int)
        (((yt <<< 16) ||| yb : Nat) : Int)) ≠ 0 := by
    rw [e1, e2, e3, e4]
    constructor <;> omega
  rw [if_neg (by omega), if_pos hcal]
  unfold tp_remap scaleX scaleY
  rw [if_neg ho1, if_neg ho2, if_neg ho3, e1, e2, e3, e4, fx1, fy1]

theorem tp_cal_unpack_and_scale_witness :
    (200 : Nat) < 16384 ∧ (3900 : Nat) < 16384 ∧ (300 : Nat) < 16384 ∧ (3800 : Nat) < 16384 ∧
      cal_xleft (ili9341_tp_set_cal Driver.initial (((200 <<< 16) ||| 3900 : Nat) : Int)
        (((300 <<< 16) ||| 3800 : Nat) : Int)) = ((200 : Nat) : Int) ∧
      ili9341_tp_get sampleHeader (ili9341_tp_set_cal Driver.initial
          (((200 <<< 16) ||| 3900 : Nat) : Int) (((300 <<< 16) ||| 3800 : Nat) : Int))
        (sampleCaps 1) (touchStream 1000 2000 3000) 0 0 = .ok ({ x := 155, y := 185, z := 0 }, 78) :=
  ⟨by decide, by decide, by decide, by decide,
    (tp_cal_unpack_and_scale sampleHeader Driver.initial (sampleCaps 1) (touchStream 1000 2000 3000)
      0 200 3900 300 3800 (by decide) (by decide) (by decide) (by decide)).1,
    by decide⟩

/-- C16. The touch sampler never reports failure: every query reply
`((rx1 << 8) | rx2) >> 4` lies in `0..4095`, so it is never negative as an `int`, and for every
sample count and every bus stream `ili9341_tp_read` returns a value in `0..4095`, never `-1`. -/
theorem tp_read_never_fails (rx : Nat → Nat) (type : Nat) (samples : Int) (pos : Nat) :
    (∀ p, (ili9341_tp_command rx type p).1 ≤ 4095 ∧
        ¬ (((ili9341_tp_command rx type p).1 : Int) < 0)) ∧
      ∃ v p', ili9341_tp_read rx type samples pos = .ok (v, p') ∧ 0 ≤ v ∧ v ≤ 4095 ∧ v ≠ -1 := by
  refine ⟨fun p => ⟨reading_le rx type p, by omega⟩, ?_⟩
  obtain ⟨v, p', h, h0, h1⟩ := tp_read_ok rx type samples pos
  exact ⟨v, p', h, h0, h1, by omega⟩

/-- C17. In scaled (non-raw) mode the zeroing test of source line 378 sees the last value read.
The pressure read returns some `vz`; when `vz > 50` the X and Y channel reads return some `vx` and
`vy`, and a filtered Y-channel reading `vy ≤ 50` makes the call return `(0, 0, 0)` whatever `vx`,
the calibration and the orientation are, while with `vy > 50` the zeroing branch is not taken and
the result is the one computed by source lines 385-423. The last conjunct is such a read-out:
pressure 1000, X 2000, Y 40. -/
theorem tp_get_scaled_gate_on_last_read (H : Header) (drv : Driver) (caps : Caps) (rx : Nat → Nat)
    (pos : Nat) :
    (∃ vz p0, ili9341_tp_read rx 0xB0 3 pos = .ok (vz, p0) ∧
      (50 < vz → ∃ vx p1 vy p2,
        ili9341_tp_read rx 0xD0 10 p0 = .ok (vx, p1) ∧
        ili9341_tp_read rx 0x90 10 p1 = .ok (vy, p2) ∧
        (vy ≤ 50 → ∀ (drv' : Driver) (caps' : Caps),
          ili9341_tp_get H drv' caps' rx 0 pos = .ok ({ x := 0, y := 0, z := 0 }, p2)) ∧
        (50 < vy →
          ili9341_tp_get H drv caps rx 0 pos =
            if cal_xright drv - cal_xleft drv ≠ 0 ∧ cal_ybottom drv - cal_ytop drv ≠ 0 then
              .ok ({ x := (tp_remap H caps.orient (scaleX drv vx) (scaleY drv vy)).1,
                     y := (tp_remap H caps.orient (scaleX drv vx) (scaleY drv vy)).2, z := 0 }, p2)
            else .ok ({ x := 0, y := 0, z := 0 }, p2)))) ∧
      (ili9341_tp_read (touchStream 1000 2000 40) 0xB0 3 0 = .ok (1000, 12) ∧
        ili9341_tp_read (touchStream 1000 2000 40) 0xD0 10 12 = .ok (2000, 45) ∧
        ili9341_tp_read (touchStream 1000 2000 40) 0x90 10 45 = .ok (40, 78) ∧
        ili9341_tp_get sampleHeader (ili9341_tp_set_cal Driver.initial 4095 4095) (sampleCaps 1)
          (touchStream 1000 2000 40) 0 0 = .ok ({ x := 0, y := 0, z := 0 }, 78)) := by
  refine ⟨?_, by decide, by decide, by decide, by decide⟩
  obtain ⟨vz, p0, hz, _, _, _, hhigh⟩ := tp_get_reads_spec rx pos
  refine ⟨vz, p0, hz, fun hpress => ?_⟩
  obtain ⟨vx, p1, vy, p2, hx, _, _, hy, _, _, hreads⟩ := hhigh hpress
  refine ⟨vx, p1, vy, p2, hx, hy, ?_, ?_⟩
  · intro hle d c
    have hget := tp_get_scaled_of_reads H d c rx pos _ hreads
    simp only [] at hget
    rw [hget, if_pos hle]
  · intro hgt
    have hget := tp_get_scaled_of_reads H drv caps rx pos _ hreads
    simp only [] at hget
    rw [hget, if_neg (by omega)]

/-- C18. In scaled (non-raw) mode the third output is always zero: for every calibration,
orientation and bus stream the call with `raw = 0` returns `z = 0`, also when the panel is pressed
and non-zero coordinates are returned (as for pressure 1000, X 2000, Y 3000 in LANDSCAPE, which
gives `(156, 175, 0)`); in raw mode `z` is the pressure read whenever that exceeds 50. -/
theorem tp_get_scaled_z_zero (H : Header) (drv : Driver) (caps : Caps) (rx : Nat → Nat) (pos : Nat) :
    (∃ t p, ili9341_tp_get H drv caps rx 0 pos = .ok (t, p) ∧ t.z = 0) ∧
      (∀ raw, raw ≠ 0 → ∃ t p vz p0, ili9341_tp_read rx 0xB0 3 pos = .ok (vz, p0) ∧
        ili9341_tp_get H drv caps rx raw pos = .ok (t, p) ∧
        (50 < vz → t.z = vz) ∧ (vz ≤ 50 → t.z = 0)) ∧
      ili9341_tp_get sampleHeader (ili9341_tp_set_cal Driver.initial 4095 4095) (sampleCaps 1)
        (touchStream 1000 2000 3000) 0 0 = .ok ({ x := 156, y := 175, z := 0 }, 78) := by
  obtain ⟨v0, p0, h0, h0a, _, hlow, hhigh⟩ := tp_get_reads_spec rx pos
  refine ⟨?_, ?_, by decide⟩
  · by_cases h50 : v0 ≤ 50
    · rw [tp_get_scaled_of_reads H drv caps rx pos _ (hlow h50)]
      simp only [h50, if_true]
      exact ⟨_, _, rfl, rfl⟩
    · obtain ⟨v1, p1, v2, p2, _, _, _, _, _, _, hreads⟩ := hhigh (by omega)
      rw [tp_get_scaled_of_reads H drv caps rx pos _ hreads]
      simp only []
      split_ifs <;> exact ⟨_, _, rfl, rfl⟩
  · intro raw hraw
    by_cases h50 : v0 ≤ 50
    · refine ⟨_, _, v0, p0, h0, tp_get_raw_of_reads H drv caps rx raw pos hraw _ (hlow h50), ?_, ?_⟩
      · intro h
        omega
      · intro _
        simp only []
        rw [if_neg (by omega)]
    · obtain ⟨v1, p1, v2, p2, _, _, _, _, hy0, _, hreads⟩ := hhigh (by omega)
      refine ⟨_, _, v0, p0, h0, tp_get_raw_of_reads H drv caps rx raw pos hraw _ hreads, ?_, ?_⟩
      · intro _
        simp only []
        rw [if_neg (by omega)]
      · intro h
        omega

/-- C19. The ADC channel and pin maps are mutually inverse. For every channel `c` among
0, 3, 4, 5, 6, 7, `adc_internal_pin_to_channel` applied to the pin chosen by `adc_pins c` succeeds
and returns `c`. For every pin `p`, `adc_internal_pin_to_channel p` succeeds exactly when `p` is one
of GPIO36, GPIO39, GPIO32, GPIO33, GPIO34, GPIO35, and then `adc_pins` of the returned channel is
`p`; otherwise it returns the invalid-pin error and leaves the output channel as it was. -/
theorem adc_pin_channel_inverse (P : Pins) (hP : P.Distinct) :
    (∀ c : Nat, c ∈ [0, 3, 4, 5, 6, 7] → ∀ pin0 chan0 : Nat,
        adc_internal_pin_to_channel P (adc_pins P (c : Int) pin0) chan0 = (c, none)) ∧
      (∀ p pin0 chan0 : Nat,
        ((adc_internal_pin_to_channel P p chan0).2 = none ↔
          p ∈ [P.GPIO36, P.GPIO39, P.GPIO32, P.GPIO33, P.GPIO34, P.GPIO35]) ∧
        ((adc_internal_pin_to_channel P p chan0).2 = none →
          adc_pins P ((adc_internal_pin_to_channel P p chan0).1 : Int) pin0 = p) ∧
        ((adc_internal_pin_to_channel P p chan0).2 ≠ none →
          adc_internal_pin_to_channel P p chan0 = (chan0, some .ADC_ERR_INVALID_PIN))) := by
  unfold Pins.Distinct at hP
  simp only [List.nodup_cons, List.mem_cons, List.mem_singleton, List.not_mem_nil, or_false,
    not_or, List.nodup_nil, and_true, not_false_eq_true] at hP
  obtain ⟨⟨a1, a2, a3, a4, a5⟩, ⟨b1, b2, b3, b4⟩, ⟨c1, c2, c3⟩, ⟨d1, d2⟩, e1⟩ := hP
  constructor
  · intro c hc pin0 chan0
    simp only [List.mem_cons, List.mem_singleton, List.not_mem_nil, or_false] at hc
    rcases hc with rfl | rfl | rfl | rfl | rfl | rfl <;>
      simp [adc_pins, adc_internal_pin_to_channel, Ne.symm a1, Ne.symm a2, Ne.symm a3, Ne.symm a4,
        Ne.symm a5, Ne.symm b1, Ne.symm b2, Ne.symm b3, Ne.symm b4, Ne.symm c1, Ne.symm c2,
        Ne.symm c3, Ne.symm d1, Ne.symm d2, Ne.symm e1]
  · intro p pin0 chan0
    unfold adc_internal_pin_to_channel
    by_cases h1 : p = P.GPIO36
    · simp [h1, adc_pins]
    by_cases h2 : p = P.GPIO39
    · simp [h2, adc_pins, Ne.symm a1]
    by_cases h3 : p = P.GPIO32
    · simp [h3, adc_pins, Ne.symm a2, Ne.symm b1]
    by_cases h4 : p = P.GPIO33
    · simp [h4, adc_pins, Ne.symm a3, Ne.symm b2, Ne.symm c1]
    by_cases h5 : p = P.GPIO34
    · simp [h5, adc_pins, Ne.symm a4, Ne.symm b3, Ne.symm c2, Ne.symm d1]
    by_cases h6 : p = P.GPIO35
    · simp [h6, adc_pins, Ne.symm a5, Ne.symm b4, Ne.symm c3, Ne.symm d2, Ne.symm e1]
    simp [h1, h2, h3, h4, h5, h6]

theorem adc_pin_channel_inverse_witness :
    samplePins.Distinct ∧
      adc_internal_pin_to_channel samplePins (adc_pins samplePins 6 0) 99 = (6, none) ∧
      adc_internal_pin_to_channel samplePins 37 99 = (99, some .ADC_ERR_INVALID_PIN) ∧
      (∀ c : Nat, c ∈ [0, 3, 4, 5, 6, 7] → ∀ pin0 chan0 : Nat,
        adc_internal_pin_to_channel samplePins (adc_pins samplePins (c : Int) pin0) chan0
          = (c, none)) :=
  ⟨by decide, by decide, by decide, (adc_pin_channel_inverse samplePins (by decide)).1⟩

end LuaRtos
